import Mathlib

/-!
Width pass: traversal drivers and check-and-coerce wrappers.

A shallow embedding of `src/V3WidthVisitor.h` (the stage and determination
enumerations, the `v3widthWarn` classification, the downward context `WidthVP`,
the inline helpers `widthUnpacked` and `packIfUnpacked`, the entry point) and of
`src/V3WidthHelpers.cpp` (the `userIterate*` drivers, the `iterateCheck*`
convenience wrappers, the visitors of the conversion nodes, the open-array
helpers and the class, array-size and clocking helpers).

Pointers are identifiers into arenas held by the visitor state; a nullable
pointer is an `Option`.  A fatal internal error (`v3fatalSrc`, a failed
`UASSERT_OBJ`) and a null dereference end the run: they are the `error` case
of `Except String`.  Operations whose bodies live in other translation units
(`iterate`, `iterateCheck`, `checkCvtUS`, the descriptor registry) are fields
of `Collaborators` and range over arbitrary state transformers; every call to
one of them is recorded, with its arguments, in the list of `Event`s the
computation returns.
-/

namespace V3Width

/-! ## Enumerations of V3WidthVisitor.h -/

/-- Stage bitmask of the header: `PRELIM = 1`, `FINAL = 2`, `BOTH = 3`. -/
inductive Stage where
  | PRELIM
  | FINAL
  | BOTH
  deriving DecidableEq, Repr

/-- Numeric value of a stage enumerator (bit 0 is prelim, bit 1 is final). -/
def Stage.toNat : Stage → Nat
  | .PRELIM => 1
  | .FINAL => 2
  | .BOTH => 3

/-- The test `stage & PRELIM` of the source. -/
def Stage.andPRELIM (stage : Stage) : Bool :=
  (stage.toNat &&& Stage.PRELIM.toNat) != 0

/-- The test `stage & FINAL` of the source. -/
def Stage.andFINAL (stage : Stage) : Bool :=
  (stage.toNat &&& Stage.FINAL.toNat) != 0

/-- Determination mode of the header. -/
inductive Determ where
  | SELF
  | CONTEXT_DET
  | ASSIGN
  deriving DecidableEq, Repr

/-- Extension rule enumeration `WidthVisitor::ExtendRule`. -/
inductive ExtendRule where
  | EXTEND_EXP
  | EXTEND_ZERO
  | EXTEND_LHS
  | EXTEND_OFF
  deriving DecidableEq, Repr

/-- Signedness argument of `findLogicDType`. -/
inductive VSigning where
  | UNSIGNED
  | SIGNED
  | NOSIGN
  deriving DecidableEq, Repr

/-- Modelled from the spec: the warning codes of the diagnostics interface.
`V3ErrorCode` is declared in `V3Error.h`; the three width codes are the ones this
code names, `OTHER n` stands for every remaining code. -/
inductive V3ErrorCode where
  | WIDTH
  | WIDTHTRUNC
  | WIDTHEXPAND
  | OTHER (n : Nat)
  deriving DecidableEq, Repr

/-! ## Arena identifiers -/

/-- A non-null `AstNode*`. -/
abbrev NodeId := Nat

/-- A non-null `AstNodeDType*`. -/
abbrev DTypeId := Nat

/-- A non-null `FileLine*`. -/
abbrev FileLineId := Nat

/-! ## The downward context -/

/-- Class `WidthVP`: the parent's data type to resolve to (null when
self-determined) and the stage. -/
structure WidthVP where
  m_dtypep : Option DTypeId
  m_stage : Stage
  deriving DecidableEq, Repr

/-- Constructor `WidthVP(AstNodeDType* dtypep, Stage stage)`: no check at all. -/
def WidthVP.ofDType (dtypep : Option DTypeId) (stage : Stage) : WidthVP :=
  { m_dtypep := dtypep, m_stage := stage }

/-- Message of the fatal error raised by `WidthVP(Determ, Stage)`. -/
def WidthVP.fatalMsg : String :=
  "Context-determined width request only allowed as prelim step"

/-- Constructor `WidthVP(Determ determ, Stage stage)`: the members are set to
`nullptr` and `stage`, then `v3fatalSrc` is raised when
`determ != SELF && stage != PRELIM`. -/
def WidthVP.ofDeterm (determ : Determ) (stage : Stage) : Except String WidthVP :=
  if determ ≠ Determ.SELF ∧ stage ≠ Stage.PRELIM then
    .error WidthVP.fatalMsg
  else
    .ok { m_dtypep := none, m_stage := stage }

/-- Method `selfDtm()`: `m_dtypep == nullptr`. -/
def WidthVP.selfDtm (vup : WidthVP) : Bool := vup.m_dtypep.isNone

/-- Method `dtypeNullp()`. -/
def WidthVP.dtypeNullp (vup : WidthVP) : Option DTypeId := vup.m_dtypep

/-- Method `prelim()`: `m_stage & PRELIM`. -/
def WidthVP.prelim (vup : WidthVP) : Bool := vup.m_stage.andPRELIM

/-- Method `final()`: `m_stage & FINAL`. -/
def WidthVP.final (vup : WidthVP) : Bool := vup.m_stage.andFINAL

/-! ## Source locations, nodes, descriptors and the visitor state -/

/-- Modelled from the spec: a source location with its per-code suppression
flags (class `FileLine` of `V3FileLine.h`): "warnings are filterable per source
location via an attached suppression flag on that location's metadata". -/
structure FileLine where
  filename : String
  lineno : Nat
  warnIsOff : V3ErrorCode → Bool

/-- Modelled from the spec: `FileLine::warnOff(code, flag)` sets the suppression
flag of `code` to `flag` and leaves every other code as it was. -/
def FileLine.warnOff (fl : FileLine) (code : V3ErrorCode) (flag : Bool) : FileLine :=
  { fl with warnIsOff := fun c => if c = code then flag else fl.warnIsOff c }

/-- Modelled from the spec: the node kinds (`VNType`) this code tests with
`VN_IS` and `VN_CAST` or creates; `Other` stands for every remaining kind. -/
inductive VNType where
  | Other
  | IToRD
  | ISToRD
  | BitsToRealD
  | RToIS
  | RealToBits
  | Var
  | Arg
  | Task
  | Func
  | TaskRef
  | FuncRef
  | Clocking
  | ClockingItem
  | MemberSel
  | Class
  | ClassPackage
  | CvtArrayToPacked
  deriving DecidableEq, Repr

/-- Modelled from the spec: what this code reads from a syntax node (class
`AstNode` of `V3Ast.h`): whether it is an expression (`VN_IS(nodep, NodeExpr)`),
its descriptor, its source location and the "already processed" marker; its
kind and name; its operand slots (`lhsp()` of a unary node and `exprp()` of an
argument are slot 1), its sibling links and whether it has been deleted; the
chain of siblings that starts at `stmtsp()` of a task or at `itemsp()` of a
clocking block, as the list of its nodes in order; the declaration a call
refers to, the variable of a clocking item, and the two open-array role
markers of a task declaration; the class of a class package (`classp()`) and
the open-array flag of a variable (`isDpiOpenArray()`). -/
structure AstNode where
  isNodeExpr : Bool
  dtypep : Option DTypeId
  fileline : FileLineId
  didWidth : Bool
  type : VNType := VNType.Other
  name : String := ""
  op1p : Option NodeId := none
  op2p : Option NodeId := none
  op3p : Option NodeId := none
  op4p : Option NodeId := none
  nextp : Option NodeId := none
  backp : Option NodeId := none
  deleted : Bool := false
  stmtsp : List NodeId := []
  itemsp : List NodeId := []
  taskp : Option NodeId := none
  varp : Option NodeId := none
  dpiOpenChild : Bool := false
  dpiOpenParent : Nat := 0
  classp : Option NodeId := none
  isDpiOpenArray : Bool := false

/-- Modelled from the spec: what this code reads from a type descriptor (class
`AstNodeDType`): the effective descriptor behind reference wrappers
(`skipRefp()`), the same stopping at an enum (`skipRefToEnump()`), and the
domain tests and printable name of the descriptor itself; its signedness,
whether it is an unsized array descriptor (`VN_IS(nodep, UnsizedArrayDType)`),
and its sub-type (`subDTypep()`, null when it has none); whether it is an
unpacked array descriptor (`VN_CAST(dtypep, UnpackArrayDType)`), its `int`
values `width()` and `widthMin()`, the `uint32_t` value
`arrayUnpackedElements()`, the descriptors `unpackDimensions()` returns,
outermost first, and the `int` value `elementsConst()` of a dimension. -/
structure AstNodeDType where
  skipRefp : DTypeId
  skipRefToEnump : DTypeId
  isDouble : Bool
  isIntegralOrPacked : Bool
  prettyDTypeNameQ : String
  isSigned : Bool := false
  isUnsizedArrayDType : Bool := false
  subDTypep : Option DTypeId := none
  isUnpackArrayDType : Bool := false
  width : Int := 0
  widthMin : Int := 0
  arrayUnpackedElements : Nat := 0
  unpackDimensions : List DTypeId := []
  elementsConst : Int := 0

/-- A diagnostic handed to the diagnostics interface: the code (`none` for an
error), the node it is reported at, and the message. -/
structure Diag where
  code : Option V3ErrorCode
  nodep : NodeId
  msg : String
  deriving DecidableEq, Repr

/-- State the width visitor works on: its member `m_vup` (the current
context), the node, descriptor and location arenas of the tree, the allocation
mark of `new FileLine`, the diagnostics reported so far, and the allocation
mark of new nodes (every node created so far has a smaller identifier). -/
structure WidthVisitor where
  m_vup : Option WidthVP
  node : NodeId → AstNode
  dtype : DTypeId → AstNodeDType
  fileLine : FileLineId → FileLine
  fileLineNext : FileLineId
  diags : List Diag
  nodeNext : NodeId := 0

/-- Modelled from the spec: `nodep->v3warnCode(code, msg)` reports a warning of
the given code at the node unless that code is switched off at the node's
source location. -/
def v3warnCode (nodep : NodeId) (code : V3ErrorCode) (msg : String)
    (s : WidthVisitor) : WidthVisitor :=
  if (s.fileLine (s.node nodep).fileline).warnIsOff code then s
  else { s with diags := s.diags ++ [{ code := some code, nodep := nodep, msg := msg }] }

/-- Code selected by the `v3widthWarn(lhs, rhs, msg)` definition of the header. -/
def v3widthWarnCode (lhs rhs : Int) : V3ErrorCode :=
  if lhs < rhs then V3ErrorCode.WIDTHTRUNC
  else if lhs > rhs then V3ErrorCode.WIDTHEXPAND
  else V3ErrorCode.WIDTH

/-- The header's `nodep->v3widthWarn(lhs, rhs, msg)`: `v3warnCode` with the
selected code. -/
def v3widthWarn (nodep : NodeId) (lhs rhs : Int) (msg : String)
    (s : WidthVisitor) : WidthVisitor :=
  v3warnCode nodep (v3widthWarnCode lhs rhs) msg s

/-- Modelled from the spec: `nodep->v3error(msg)` reports a user error at the
node and returns; the run goes on. -/
def v3error (nodep : NodeId) (msg : String) (s : WidthVisitor) : WidthVisitor :=
  { s with diags := s.diags ++ [{ code := none, nodep := nodep, msg := msg }] }

/-! ## Calls into other translation units -/

/-- One call, with its arguments, to an operation whose body is outside the two
source files.  The traversal calls carry the value `m_vup` has when the call is
made, which is the context every visitor dispatched by that call reads. -/
inductive Event where
  | iterate (nodep : NodeId) (vup : Option WidthVP)
  | iterateAndNextNull (nodep : NodeId) (vup : Option WidthVP)
  | iterateChildren (nodep : NodeId) (vup : Option WidthVP)
  | iterateChildrenBackwardsConst (nodep : NodeId) (vup : Option WidthVP)
  | iterateSubtreeReturnEdits (nodep : NodeId) (vup : Option WidthVP)
  | iterateCheck (parentp : NodeId) (side : String) (underp : Option NodeId)
      (determ : Determ) (stage : Stage) (expDTypep : Option DTypeId)
      (extendRule : ExtendRule) (warnOn : Bool)
  | checkCvtUS (nodep : NodeId) (fatal : Bool)
  | findDoubleDType (nodep : NodeId)
  | findSigned8DType (nodep : NodeId)
  | findSigned32DType (nodep : NodeId)
  | findUInt32DType (nodep : NodeId)
  | findLogicDType (nodep : NodeId) (width widthMin : Int) (numeric : VSigning)
  | findUInt64DType (nodep : NodeId)
  | assertAtExpr (nodep : NodeId)
  | taskConnects (nodep : NodeId) (stmtsp : List NodeId)
  deriving DecidableEq, Repr

/-- Operations this code calls and does not define: the `VNVisitor` iteration
functions (they dispatch the node visitors, and may replace the node), the core
`iterateCheck` and `checkCvtUS` of `V3WidthCheck.cpp`, and the descriptor
registry reached through `nodep->find...DType()`.  Each is an arbitrary
transformer of the visitor state; the first seven may also end the run with a
fatal error.  `assertAtExpr` (`V3WidthTypes.cpp`) is a check: it may end the run
and changes nothing.  `taskConnects` (`V3Task::taskConnects`) pairs the formals
found in a statement list with the arguments of a call.  The next three are the
pure text helpers `AstNode::prettyName`, `VSpellCheck` (candidates pushed, then
`bestCandidateMsg(goal)`) and `FileLine::warnMore`.  `aboveLoopp`
(`AstNode::aboveLoopp`) reads, from the tree, the node above a node, null at the
top. -/
structure Collaborators where
  iterate : NodeId → WidthVisitor → Except String WidthVisitor
  iterateAndNextNull : NodeId → WidthVisitor → Except String WidthVisitor
  iterateChildren : NodeId → WidthVisitor → Except String WidthVisitor
  iterateChildrenBackwardsConst : NodeId → WidthVisitor → Except String WidthVisitor
  iterateSubtreeReturnEdits :
    NodeId → WidthVisitor → Except String (Option NodeId × WidthVisitor)
  iterateCheck :
    NodeId → String → Option NodeId → Determ → Stage → Option DTypeId → ExtendRule → Bool →
      WidthVisitor → Except String (Option NodeId × WidthVisitor)
  checkCvtUS : NodeId → Bool → WidthVisitor → Except String (Option NodeId × WidthVisitor)
  findDoubleDType : NodeId → WidthVisitor → DTypeId × WidthVisitor
  findSigned8DType : NodeId → WidthVisitor → DTypeId × WidthVisitor
  findSigned32DType : NodeId → WidthVisitor → DTypeId × WidthVisitor
  findUInt32DType : NodeId → WidthVisitor → DTypeId × WidthVisitor
  findLogicDType : NodeId → Int → Int → VSigning → WidthVisitor → DTypeId × WidthVisitor
  findUInt64DType : NodeId → WidthVisitor → DTypeId × WidthVisitor
  assertAtExpr : NodeId → WidthVisitor → Except String Unit
  taskConnects : NodeId → List NodeId → WidthVisitor → List (NodeId × NodeId) × WidthVisitor
  prettyName : String → String
  bestCandidateMsg : List String → String → String
  warnMore : FileLine → String
  aboveLoopp : WidthVisitor → NodeId → Option NodeId

/-- A member function of the visitor: from the state before the call, either a
fatal end of the run or the returned value, the state after the call and the
calls made on the way, in order. -/
def W (α : Type) : Type := WidthVisitor → Except String (α × WidthVisitor × List Event)

/-- Return without touching the state. -/
def W.pure {α : Type} (a : α) : W α := fun s => .ok (a, s, [])

/-- Sequencing: a fatal end stops the run, otherwise the calls are appended. -/
def W.bind {α β : Type} (m : W α) (f : α → W β) : W β := fun s =>
  match m s with
  | .error e => .error e
  | .ok (a, s1, ev1) =>
    match f a s1 with
    | .error e => .error e
    | .ok (b, s2, ev2) => .ok (b, s2, ev1 ++ ev2)

instance : Monad W where
  pure := W.pure
  bind := W.bind

/-- End of the run on a fatal internal error (`v3fatalSrc`). -/
def W.fatal {α : Type} (msg : String) : W α := fun _ => .error msg

/-- The state as it is now. -/
def W.get : W WidthVisitor := fun s => .ok (s, s, [])

/-- An update of the state. -/
def W.modify (f : WidthVisitor → WidthVisitor) : W Unit := fun s => .ok ((), f s, [])

/-- A construction that may raise a fatal error. -/
def W.ofExcept {α : Type} : Except String α → W α
  | .error e => W.fatal e
  | .ok a => W.pure a

/-- Dereference of a pointer: a null pointer ends the run. -/
def W.deref {α : Type} : Option α → W α
  | none => W.fatal "null pointer dereference"
  | some a => W.pure a

/-- `UASSERT_OBJ(cond, nodep, msg)`: a fatal internal error when `cond` fails. -/
def UASSERT_OBJ (cond : Bool) (msg : String) : W Unit :=
  if cond then W.pure () else W.fatal msg

/-- A call to a collaborator that returns a value, recorded as `ev`. -/
def W.call {α : Type} (ev : WidthVisitor → Event)
    (f : WidthVisitor → Except String (α × WidthVisitor)) : W α := fun s =>
  match f s with
  | .error e => .error e
  | .ok (a, s1) => .ok (a, s1, [ev s])

/-- A call to a collaborator that returns nothing, recorded as `ev`. -/
def W.callUnit (ev : WidthVisitor → Event)
    (f : WidthVisitor → Except String WidthVisitor) : W Unit := fun s =>
  match f s with
  | .error e => .error e
  | .ok s1 => .ok ((), s1, [ev s])

/-- A call to the descriptor registry, recorded as `ev`. -/
def W.callFind (ev : Event) (f : WidthVisitor → DTypeId × WidthVisitor) : W DTypeId :=
  fun s => .ok ((f s).1, (f s).2, [ev])

/-- `VL_RESTORER(m_vup)` around `body`: when the scope is left, `m_vup` is given
back the value it had when the scope was entered. -/
def VL_RESTORER_m_vup {α : Type} (body : W α) : W α := fun s =>
  match body s with
  | .error e => .error e
  | .ok (a, s1, ev) => .ok (a, { s1 with m_vup := s.m_vup }, ev)

/-- The assignment `m_vup = vup`. -/
def set_m_vup (vup : Option WidthVP) : W Unit :=
  W.modify fun s => { s with m_vup := vup }

/-! ## WidthVisitor -- special iterators (V3WidthHelpers.cpp) -/

/-- `WidthVisitor::userIterateSubtreeReturnEdits`. -/
def userIterateSubtreeReturnEdits (c : Collaborators) (nodep : Option NodeId)
    (vup : Option WidthVP) : W (Option NodeId) :=
  match nodep with
  | none => W.pure none
  | some n =>
    VL_RESTORER_m_vup do
      set_m_vup vup
      W.call (fun s => Event.iterateSubtreeReturnEdits n s.m_vup) (c.iterateSubtreeReturnEdits n)

/-- `WidthVisitor::userIterate`. -/
def userIterate (c : Collaborators) (nodep : Option NodeId) (vup : Option WidthVP) : W Unit :=
  match nodep with
  | none => W.pure ()
  | some n =>
    VL_RESTORER_m_vup do
      set_m_vup vup
      W.callUnit (fun s => Event.iterate n s.m_vup) (c.iterate n)

/-- `WidthVisitor::userIterateAndNext`: the only driver that looks at the
`didWidth` marker ("Avoid iterating list we have already iterated"). -/
def userIterateAndNext (c : Collaborators) (nodep : Option NodeId)
    (vup : Option WidthVP) : W Unit :=
  match nodep with
  | none => W.pure ()
  | some n => do
    let s ← W.get
    if (s.node n).didWidth then W.pure ()
    else
      VL_RESTORER_m_vup do
        set_m_vup vup
        W.callUnit (fun s => Event.iterateAndNextNull n s.m_vup) (c.iterateAndNextNull n)

/-- `WidthVisitor::userIterateChildren`. -/
def userIterateChildren (c : Collaborators) (nodep : Option NodeId)
    (vup : Option WidthVP) : W Unit :=
  match nodep with
  | none => W.pure ()
  | some n =>
    VL_RESTORER_m_vup do
      set_m_vup vup
      W.callUnit (fun s => Event.iterateChildren n s.m_vup) (c.iterateChildren n)

/-- `WidthVisitor::userIterateChildrenBackwardsConst`. -/
def userIterateChildrenBackwardsConst (c : Collaborators) (nodep : Option NodeId)
    (vup : Option WidthVP) : W Unit :=
  match nodep with
  | none => W.pure ()
  | some n =>
    VL_RESTORER_m_vup do
      set_m_vup vup
      W.callUnit (fun s => Event.iterateChildrenBackwardsConst n s.m_vup)
        (c.iterateChildrenBackwardsConst n)

/-! ## WidthVisitor -- iterate check convenience wrappers (V3WidthHelpers.cpp) -/

/-- The temporary `WidthVP{SELF, PRELIM}.p()` handed to the prelim visit of a
child; its construction runs the check of `WidthVP(Determ, Stage)`. -/
def prelimSelfVisit (c : Collaborators) (underp : Option NodeId) : W (Option NodeId) := do
  let vup ← W.ofExcept (WidthVP.ofDeterm Determ.SELF Stage.PRELIM)
  userIterateSubtreeReturnEdits c underp (some vup)

/-- The statement `if (stage & PRELIM) underp = userIterateSubtreeReturnEdits(underp,
WidthVP{SELF, PRELIM}.p());` that opens each wrapper; its value is the new
`underp`. -/
def prelimStage (c : Collaborators) (stage : Stage) (underp : Option NodeId) :
    W (Option NodeId) :=
  if stage.andPRELIM then prelimSelfVisit c underp else W.pure underp

/-- `WidthVisitor::iterateCheckTypedSelfPrelim`. -/
def iterateCheckTypedSelfPrelim (c : Collaborators) (parentp : NodeId) (side : String)
    (underp : Option NodeId) (expDTypep : Option DTypeId) (stage : Stage) : W Unit := do
  let underp ← prelimStage c stage underp
  if stage.andFINAL then
    let _ ← W.call
      (fun _ => Event.iterateCheck parentp side underp Determ.SELF Stage.FINAL expDTypep
        ExtendRule.EXTEND_EXP true)
      (c.iterateCheck parentp side underp Determ.SELF Stage.FINAL expDTypep
        ExtendRule.EXTEND_EXP true)
    W.pure ()
  else W.pure ()

/-- `WidthVisitor::iterateCheckReal`: the argument `parentp->findDoubleDType()`
is evaluated, then the typed wrapper is entered. -/
def iterateCheckReal (c : Collaborators) (parentp : NodeId) (side : String)
    (underp : Option NodeId) (stage : Stage) : W Unit := do
  let expDTypep ← W.callFind (Event.findDoubleDType parentp) (c.findDoubleDType parentp)
  iterateCheckTypedSelfPrelim c parentp side underp (some expDTypep) stage

/-- `WidthVisitor::iterateCheckSigned8`. -/
def iterateCheckSigned8 (c : Collaborators) (parentp : NodeId) (side : String)
    (underp : Option NodeId) (stage : Stage) : W Unit := do
  let expDTypep ← W.callFind (Event.findSigned8DType parentp) (c.findSigned8DType parentp)
  iterateCheckTypedSelfPrelim c parentp side underp (some expDTypep) stage

/-- `WidthVisitor::iterateCheckSigned32`. -/
def iterateCheckSigned32 (c : Collaborators) (parentp : NodeId) (side : String)
    (underp : Option NodeId) (stage : Stage) : W Unit := do
  let expDTypep ← W.callFind (Event.findSigned32DType parentp) (c.findSigned32DType parentp)
  iterateCheckTypedSelfPrelim c parentp side underp (some expDTypep) stage

/-- `WidthVisitor::iterateCheckUInt32`. -/
def iterateCheckUInt32 (c : Collaborators) (parentp : NodeId) (side : String)
    (underp : Option NodeId) (stage : Stage) : W Unit := do
  let expDTypep ← W.callFind (Event.findUInt32DType parentp) (c.findUInt32DType parentp)
  iterateCheckTypedSelfPrelim c parentp side underp (some expDTypep) stage

/-- `WidthVisitor::iterateCheckFileDesc`. -/
def iterateCheckFileDesc (c : Collaborators) (parentp : NodeId) (underp : Option NodeId)
    (stage : Stage) : W Unit := do
  UASSERT_OBJ (decide (stage = Stage.BOTH)) "Bad call"
  let underp ← prelimSelfVisit c underp
  let u ← W.deref underp
  let expDTypep ← W.callFind (Event.findUInt32DType u) (c.findUInt32DType u)
  let _ ← W.call
    (fun _ => Event.iterateCheck parentp "file_descriptor" underp Determ.SELF Stage.FINAL
      (some expDTypep) ExtendRule.EXTEND_EXP true)
    (c.iterateCheck parentp "file_descriptor" underp Determ.SELF Stage.FINAL
      (some expDTypep) ExtendRule.EXTEND_EXP true)
  W.pure ()

/-- The statement `new FileLine{fl}`: a fresh location object, at the allocation
mark, holding a copy of the object `fl` points to; the value is the new pointer. -/
def newFileLine (fl : FileLineId) (s : WidthVisitor) : FileLineId × WidthVisitor :=
  (s.fileLineNext,
    { s with fileLine := Function.update s.fileLine s.fileLineNext (s.fileLine fl)
             fileLineNext := s.fileLineNext + 1 })

/-- The `else` branch of the FINAL stage of `iterateCheckDelay`, before the
registry is asked: `newFl = new FileLine{underp->fileline()}`,
`newFl->warnOff(V3ErrorCode::WIDTHEXPAND, true)`, `underp->fileline(newFl)`. -/
def delayWarnOffExpand (underp : NodeId) (s : WidthVisitor) : WidthVisitor :=
  let newFl := (newFileLine (s.node underp).fileline s).1
  let s1 := (newFileLine (s.node underp).fileline s).2
  let flOff := (s1.fileLine newFl).warnOff V3ErrorCode.WIDTHEXPAND true
  let s2 : WidthVisitor := { s1 with fileLine := Function.update s1.fileLine newFl flOff }
  { s2 with node := Function.update s2.node underp { s2.node underp with fileline := newFl } }

/-- `WidthVisitor::iterateCheckDelay`. -/
def iterateCheckDelay (c : Collaborators) (parentp : NodeId) (side : String)
    (underp : Option NodeId) (stage : Stage) : W Unit := do
  let underp ← prelimStage c stage underp
  if stage.andFINAL then
    let u ← W.deref underp
    let s ← W.get
    let dtp ← W.deref (s.node u).dtypep
    let expDTypep ←
      if (s.dtype (s.dtype dtp).skipRefp).isDouble then
        W.callFind (Event.findDoubleDType parentp) (c.findDoubleDType parentp)
      else do
        W.modify (delayWarnOffExpand u)
        W.callFind (Event.findLogicDType parentp 64 64 VSigning.UNSIGNED)
          (c.findLogicDType parentp 64 64 VSigning.UNSIGNED)
    let _ ← W.call
      (fun _ => Event.iterateCheck parentp side underp Determ.SELF Stage.FINAL (some expDTypep)
        ExtendRule.EXTEND_EXP false)
      (c.iterateCheck parentp side underp Determ.SELF Stage.FINAL (some expDTypep)
        ExtendRule.EXTEND_EXP false)
    W.pure ()
  else W.pure ()

/-- Text of the user error of `iterateCheckSizedSelf`. -/
def expectedNumericMsg (prettyDTypeNameQ : String) : String :=
  "Expected numeric type, but got a " ++ prettyDTypeNameQ ++ " data type"

/-- The statement `underp = VN_IS(underp, NodeExpr) ? checkCvtUS(VN_AS(underp,
NodeExpr), fatal) : underp;` (the unpacked-struct conversion check). -/
def checkCvtUSStep (c : Collaborators) (fatal : Bool) (underp : Option NodeId) :
    W (Option NodeId) := do
  let s ← W.get
  match underp with
  | some u =>
    if (s.node u).isNodeExpr then
      W.call (fun _ => Event.checkCvtUS u fatal) (c.checkCvtUS u fatal)
    else W.pure underp
  | none => W.pure underp

/-- `WidthVisitor::iterateCheckSizedSelf`. -/
def iterateCheckSizedSelf (c : Collaborators) (parentp : NodeId) (side : String)
    (underp : Option NodeId) (determ : Determ) (stage : Stage) : W Unit := do
  UASSERT_OBJ (determ = Determ.SELF) "Bad call"
  UASSERT_OBJ (stage = Stage.FINAL || stage = Stage.BOTH) "Bad call"
  let underp ← prelimStage c stage underp
  let underp ← checkCvtUSStep c false underp
  let u ← W.deref underp
  let s ← W.get
  let expDTypep := (s.node u).dtypep
  let _ ← W.call
    (fun _ => Event.iterateCheck parentp side underp Determ.SELF Stage.FINAL expDTypep
      ExtendRule.EXTEND_EXP true)
    (c.iterateCheck parentp side underp Determ.SELF Stage.FINAL expDTypep
      ExtendRule.EXTEND_EXP true)
  let e ← W.deref expDTypep
  let s ← W.get
  let checkDtp := (s.dtype e).skipRefToEnump
  if !(s.dtype checkDtp).isIntegralOrPacked then
    W.modify (v3error parentp (expectedNumericMsg (s.dtype checkDtp).prettyDTypeNameQ))
  else W.pure ()

/-! ## Tree editing (class `AstNode`) -/

/-- The assignment `nodep->dtypep(d)`. -/
def setDTypep (nodep : NodeId) (d : Option DTypeId) (s : WidthVisitor) : WidthVisitor :=
  { s with node := Function.update s.node nodep { s.node nodep with dtypep := d } }

/-- Modelled from the spec: `nodep->isSigned()`, the signedness of the node's
descriptor, false when the node has none. -/
def isSigned (s : WidthVisitor) (nodep : NodeId) : Bool :=
  match (s.node nodep).dtypep with
  | some d => (s.dtype d).isSigned
  | none => false

/-- Every slot of the record that points to `old` is made to point to `new`. -/
def AstNode.relink (b : AstNode) (old : NodeId) (new : Option NodeId) : AstNode :=
  { b with
    op1p := if b.op1p = some old then new else b.op1p
    op2p := if b.op2p = some old then new else b.op2p
    op3p := if b.op3p = some old then new else b.op3p
    op4p := if b.op4p = some old then new else b.op4p
    nextp := if b.nextp = some old then new else b.nextp }

/-- The back link of the node `nextp` points to, when there is one, becomes `b`. -/
def setBackOfNext (nextp : Option NodeId) (b : Option NodeId) (s : WidthVisitor) :
    WidthVisitor :=
  match nextp with
  | none => s
  | some x => { s with node := Function.update s.node x { s.node x with backp := b } }

/-- Modelled from the spec (detach): what `nodep->unlinkFrBack()` does to the
tree when `b` is the back node of `nodep`: the node leaves the slot of `b`, where
its next sibling, if any, moves up, and is left with no link. -/
def unlinkFrBackFrom (nodep b : NodeId) (s : WidthVisitor) : WidthVisitor :=
  let nextp := (s.node nodep).nextp
  let s1 : WidthVisitor :=
    { s with node := Function.update s.node b ((s.node b).relink nodep nextp) }
  let s2 := setBackOfNext nextp (some b) s1
  { s2 with node :=
      Function.update s2.node nodep { s2.node nodep with backp := none, nextp := none } }

/-- Modelled from the spec: `nodep->unlinkFrBack()`; its value is the node.  A
node that has no back node is an internal error. -/
def unlinkFrBack (nodep : NodeId) : W NodeId := fun s =>
  match (s.node nodep).backp with
  | none => .error "Node has no back, already unlinked?"
  | some b => .ok (nodep, unlinkFrBackFrom nodep b s, [])

/-- Modelled from the spec (reattach): what `nodep->replaceWith(newp)` does to
the tree when `b` is the back node of `nodep`: `newp` is put in the slot of `b`
that held `nodep`, in front of the siblings that followed `nodep`, and `nodep`
is left with no link. -/
def replaceWithAt (nodep newp b : NodeId) (s : WidthVisitor) : WidthVisitor :=
  let nextp := (s.node nodep).nextp
  let s1 : WidthVisitor :=
    { s with node := Function.update s.node b ((s.node b).relink nodep (some newp)) }
  let s2 : WidthVisitor :=
    { s1 with node :=
        Function.update s1.node newp { s1.node newp with backp := some b, nextp := nextp } }
  let s3 := setBackOfNext nextp (some newp) s2
  { s3 with node :=
      Function.update s3.node nodep { s3.node nodep with backp := none, nextp := none } }

/-- Modelled from the spec: `nodep->replaceWith(newp)`.  A node that has no back
node is an internal error. -/
def replaceWith (nodep newp : NodeId) : W Unit := fun s =>
  match (s.node nodep).backp with
  | none => .error "Node has no back, already unlinked?"
  | some b => .ok ((), replaceWithAt nodep newp b s, [])

/-- Modelled from the spec: `nodep->deleteTree()` deletes the node (with what
still hangs under it). -/
def deleteTree (nodep : NodeId) (s : WidthVisitor) : WidthVisitor :=
  { s with node := Function.update s.node nodep { s.node nodep with deleted := true } }

/-- Modelled from the spec: what `new AstISToRD{fl, lhsp}` does to the tree: at
the allocation mark there is a new expression node of kind `ISToRD` at location
`fl` whose operand slot holds `lhsp`, and it is the back node of `lhsp`. -/
def newAstISToRDState (fl : FileLineId) (lhsp : NodeId) (s : WidthVisitor) : WidthVisitor :=
  let newp := s.nodeNext
  let s1 : WidthVisitor :=
    { s with
      node := Function.update s.node newp
        { isNodeExpr := true, dtypep := none, fileline := fl, didWidth := false,
          type := VNType.ISToRD, op1p := some lhsp }
      nodeNext := newp + 1 }
  { s1 with node := Function.update s1.node lhsp { s1.node lhsp with backp := some newp } }

/-- Modelled from the spec: `new AstISToRD{fl, lhsp}`; its value is the new node. -/
def newAstISToRD (fl : FileLineId) (lhsp : NodeId) : W NodeId := fun s =>
  .ok (s.nodeNext, newAstISToRDState fl lhsp s, [])

/-- Modelled from the spec: `nodep->dtypeSetDouble()`, that is
`dtypep(findDoubleDType())`. -/
def dtypeSetDouble (c : Collaborators) (nodep : NodeId) : W Unit := do
  let d ← W.callFind (Event.findDoubleDType nodep) (c.findDoubleDType nodep)
  W.modify (setDTypep nodep (some d))

/-- Modelled from the spec: `nodep->dtypeSetSigned32()`. -/
def dtypeSetSigned32 (c : Collaborators) (nodep : NodeId) : W Unit := do
  let d ← W.callFind (Event.findSigned32DType nodep) (c.findSigned32DType nodep)
  W.modify (setDTypep nodep (some d))

/-- Modelled from the spec: `nodep->dtypeSetUInt64()`. -/
def dtypeSetUInt64 (c : Collaborators) (nodep : NodeId) : W Unit := do
  let d ← W.callFind (Event.findUInt64DType nodep) (c.findUInt64DType nodep)
  W.modify (setDTypep nodep (some d))

/-- The call `assertAtExpr(nodep)`. -/
def assertAtExpr (c : Collaborators) (nodep : NodeId) : W Unit := fun s =>
  match c.assertAtExpr nodep s with
  | .error e => .error e
  | .ok _ => .ok ((), s, [Event.assertAtExpr nodep])

/-- The test `m_vup->prelim()`; a null `m_vup` ends the run. -/
def m_vup_prelim : W Bool := do
  let s ← W.get
  let vup ← W.deref s.m_vup
  W.pure vup.prelim

/-- The call `userIterateAndNext(nodep->lhsp(), WidthVP{SELF, PRELIM}.p())`: the
self-determined prelim visit of the operand. -/
def prelimOperandVisit (c : Collaborators) (nodep : NodeId) : W Unit := do
  let s ← W.get
  let vup ← W.ofExcept (WidthVP.ofDeterm Determ.SELF Stage.PRELIM)
  userIterateAndNext c (s.node nodep).op1p (some vup)

/-! ## WidthVisitor -- type conversion helpers (V3WidthHelpers.cpp) -/

/-- `WidthVisitor::visit_Or_Lu64` (caller: `visit(AstBitsToRealD*)`). -/
def visit_Or_Lu64 (c : Collaborators) (nodep : NodeId) : W Unit := do
  assertAtExpr c nodep
  if (← m_vup_prelim) then
    dtypeSetDouble c nodep
    let subDTypep ← W.callFind (Event.findLogicDType nodep 64 64 VSigning.UNSIGNED)
      (c.findLogicDType nodep 64 64 VSigning.UNSIGNED)
    prelimOperandVisit c nodep
    let s ← W.get
    let _ ← W.call
      (fun _ => Event.iterateCheck nodep "LHS" (s.node nodep).op1p Determ.SELF Stage.FINAL
        (some subDTypep) ExtendRule.EXTEND_EXP true)
      (c.iterateCheck nodep "LHS" (s.node nodep).op1p Determ.SELF Stage.FINAL
        (some subDTypep) ExtendRule.EXTEND_EXP true)
    W.pure ()
  else W.pure ()

/-- The block under `if (nodep->lhsp()->isSigned())` in `visit(AstIToRD*)`:
`nodep->replaceWith(new AstISToRD{nodep->fileline(), nodep->lhsp()->unlinkFrBack()});`
and `VL_DO_DANGLING(nodep->deleteTree(), nodep);`. -/
def replaceByISToRD (nodep lhsp : NodeId) : W Unit := do
  let s ← W.get
  let fl := (s.node nodep).fileline
  let lhsp ← unlinkFrBack lhsp
  let newp ← newAstISToRD fl lhsp
  replaceWith nodep newp
  W.modify (deleteTree nodep)

/-- `WidthVisitor::visit(AstIToRD*)`. -/
def visit_AstIToRD (c : Collaborators) (nodep : NodeId) : W Unit := do
  assertAtExpr c nodep
  if (← m_vup_prelim) then
    dtypeSetDouble c nodep
    prelimOperandVisit c nodep
    let s ← W.get
    let lhsp ← W.deref (s.node nodep).op1p
    if isSigned s lhsp then replaceByISToRD nodep lhsp
    else W.pure ()
  else W.pure ()

/-- `WidthVisitor::visit(AstISToRD*)`. -/
def visit_AstISToRD (c : Collaborators) (nodep : NodeId) : W Unit := do
  assertAtExpr c nodep
  if (← m_vup_prelim) then
    dtypeSetDouble c nodep
    prelimOperandVisit c nodep
  else W.pure ()

/-- `WidthVisitor::visit_Os32_Lr` (caller: `visit(AstRToIS*)`). -/
def visit_Os32_Lr (c : Collaborators) (nodep : NodeId) : W Unit := do
  assertAtExpr c nodep
  if (← m_vup_prelim) then
    let s ← W.get
    iterateCheckReal c nodep "LHS" (s.node nodep).op1p Stage.BOTH
    dtypeSetSigned32 c nodep
  else W.pure ()

/-- `WidthVisitor::visit_Ou64_Lr` (caller: `visit(AstRealToBits*)`). -/
def visit_Ou64_Lr (c : Collaborators) (nodep : NodeId) : W Unit := do
  assertAtExpr c nodep
  if (← m_vup_prelim) then
    let s ← W.get
    iterateCheckReal c nodep "LHS" (s.node nodep).op1p Stage.BOTH
    dtypeSetUInt64 c nodep
  else W.pure ()

/-- The inline delegators of the header: `visit(AstBitsToRealD*)`,
`visit(AstRToIS*)` and `visit(AstRealToBits*)`. -/
def visit_AstBitsToRealD (c : Collaborators) (nodep : NodeId) : W Unit := visit_Or_Lu64 c nodep

/-- Header: `void visit(AstRToIS* nodep) override { visit_Os32_Lr(nodep); }`. -/
def visit_AstRToIS (c : Collaborators) (nodep : NodeId) : W Unit := visit_Os32_Lr c nodep

/-- Header: `void visit(AstRealToBits* nodep) override { visit_Ou64_Lr(nodep); }`. -/
def visit_AstRealToBits (c : Collaborators) (nodep : NodeId) : W Unit := visit_Ou64_Lr c nodep

/-! ## WidthVisitor -- open array helpers (V3WidthHelpers.cpp) -/

/-- `WidthVisitor::hasOpenArrayDTypeRecurse`.  The recursion follows the
sub-type pointers of the descriptor arena; `fuel` bounds its depth, and `none`
stands for a recursion that has not returned within that depth. -/
def hasOpenArrayDTypeRecurse (s : WidthVisitor) : Nat → DTypeId → Option Bool
  | 0, _ => none
  | fuel + 1, nodep =>
    if (s.dtype nodep).isUnsizedArrayDType then some true
    else
      match (s.dtype nodep).subDTypep with
      | some subp => hasOpenArrayDTypeRecurse s fuel (s.dtype subp).skipRefp
      | none => some false

/-- `nodep->dpiOpenParentInc()`: `++m_dpiOpenParent`. -/
def dpiOpenParentInc (nodep : NodeId) (s : WidthVisitor) : WidthVisitor :=
  let count := (s.node nodep).dpiOpenParent + 1
  { s with node := Function.update s.node nodep { s.node nodep with dpiOpenParent := count } }

/-- `nodep->dpiOpenParentClear()`: `m_dpiOpenParent = 0`. -/
def dpiOpenParentClear (nodep : NodeId) (s : WidthVisitor) : WidthVisitor :=
  { s with node := Function.update s.node nodep { s.node nodep with dpiOpenParent := 0 } }

/-- `nodep->dpiOpenChild(flag)`. -/
def setDpiOpenChild (nodep : NodeId) (flag : Bool) (s : WidthVisitor) : WidthVisitor :=
  { s with node := Function.update s.node nodep { s.node nodep with dpiOpenChild := flag } }

/-- `nodep->name(name)`. -/
def setName (nodep : NodeId) (name : String) (s : WidthVisitor) : WidthVisitor :=
  { s with node := Function.update s.node nodep { s.node nodep with name := name } }

/-- `nodep->taskp(taskp)`. -/
def setTaskp (nodep : NodeId) (taskp : Option NodeId) (s : WidthVisitor) : WidthVisitor :=
  { s with node := Function.update s.node nodep { s.node nodep with taskp := taskp } }

/-- Modelled from the spec: `cvtToStr(n)`, the decimal rendering of a count. -/
def cvtToStr (n : Nat) : String := toString n

/-- Modelled from the spec (deep copy): `nodep->cloneTree(false)` of a task
declaration.  The copy is a new node at the allocation mark; each statement of
the chain under `stmtsp()` is copied, in order, to the new nodes that follow
it; the copies carry every attribute of their originals (name, descriptor
pointer, role markers) and no sibling link to the original tree; the next
siblings of the declaration itself are not copied.  What hangs under a
statement is not looked at by this code and is not modelled.  The value is the
copy. -/
def cloneTree (nodep : NodeId) (s : WidthVisitor) : NodeId × WidthVisitor :=
  let newp := s.nodeNext
  let origStmts := (s.node nodep).stmtsp
  (newp,
    { s with
      node := fun n =>
        if n = newp then
          { s.node nodep with
            stmtsp := List.range' (newp + 1) origStmts.length
            nextp := none
            backp := none }
        else if newp < n then
          match origStmts[n - (newp + 1)]? with
          | some m => { s.node m with nextp := none, backp := none }
          | none => s.node n
        else s.node n
      nodeNext := newp + 1 + origStmts.length })

/-- Modelled from the spec: `nodep->addNextHere(newp)` links `newp` as the
sibling immediately following `nodep`, in front of the siblings that followed
`nodep` before. -/
def addNextHere (nodep newp : NodeId) (s : WidthVisitor) : WidthVisitor :=
  let nextp := (s.node nodep).nextp
  let s1 : WidthVisitor :=
    { s with node :=
        Function.update s.node newp { s.node newp with nextp := nextp, backp := some nodep } }
  let s2 := setBackOfNext nextp (some newp) s1
  { s2 with node := Function.update s2.node nodep { s2.node nodep with nextp := some newp } }

/-- Text of the internal error of `makeOpenArrayShell`. -/
def dpiRoleMsg : String := "DPI task should be parent or child, not both"

/-- The statements of `makeOpenArrayShell` from `cloneTree` to the relinking of
the call: the clone is made a child with a cleared parent count, renamed,
linked after `oldTaskp`, and the call `nodep` is pointed at it and takes its
name (`nodep->taskp()` is the pointer stored just before).  The value is
`newTaskp` with the tree. -/
def openArrayClone (nodep oldTaskp : NodeId) (s : WidthVisitor) : NodeId × WidthVisitor :=
  let newTaskp := (cloneTree oldTaskp s).1
  let s := (cloneTree oldTaskp s).2
  let s := setDpiOpenChild newTaskp true s
  let s := dpiOpenParentClear newTaskp s
  let s := setName newTaskp
    ((s.node newTaskp).name ++ "__Vdpioc" ++ cvtToStr (s.node oldTaskp).dpiOpenParent) s
  let s := addNextHere oldTaskp newTaskp s
  let s := setTaskp nodep (some newTaskp) s
  let s := setName nodep (s.node newTaskp).name s
  (newTaskp, s)

/-- The loop of `makeOpenArrayShell` over the connections: for each
`(portp, argp)`, `pinp = argp->exprp()`; a null `pinp` is skipped; otherwise, if
`hasOpenArrayDTypeRecurse(portp->dtypep())`, `portp->dtypep(pinp->dtypep())`.
A fatal end carries the tree as it is at that point. -/
def openArrayPorts (fuel : Nat) :
    List (NodeId × NodeId) → WidthVisitor → Except (String × WidthVisitor) WidthVisitor
  | [], s => .ok s
  | (portp, argp) :: rest, s =>
    match (s.node argp).op1p with
    | none => openArrayPorts fuel rest s
    | some pinp =>
      match (s.node portp).dtypep with
      | none => .error ("null pointer dereference", s)
      | some d =>
        match hasOpenArrayDTypeRecurse s fuel d with
        | none => .error ("hasOpenArrayDTypeRecurse does not return", s)
        | some true => openArrayPorts fuel rest (setDTypep portp (s.node pinp).dtypep s)
        | some false => openArrayPorts fuel rest s

/-- `WidthVisitor::makeOpenArrayShell`.  A fatal end (the failed `UASSERT_OBJ`,
a null dereference) carries the tree as it is when the error is raised; a
return carries the tree and the calls made. -/
def makeOpenArrayShell (c : Collaborators) (fuel : Nat) (nodep : NodeId) (s : WidthVisitor) :
    Except (String × WidthVisitor) (WidthVisitor × List Event) :=
  match (s.node nodep).taskp with
  | none => .error ("null pointer dereference", s)
  | some oldTaskp =>
    let s1 := dpiOpenParentInc oldTaskp s
    if (s1.node oldTaskp).dpiOpenChild then .error (dpiRoleMsg, s1)
    else
      let newTaskp := (openArrayClone nodep oldTaskp s1).1
      let s2 := (openArrayClone nodep oldTaskp s1).2
      let stmtsp := (s2.node newTaskp).stmtsp
      let tconnects := (c.taskConnects nodep stmtsp s2).1
      let s3 := (c.taskConnects nodep stmtsp s2).2
      match openArrayPorts fuel tconnects s3 with
      | .error e => .error e
      | .ok s4 => .ok (s4, [Event.taskConnects nodep stmtsp])

/-- The value of the local `tconnects` of `makeOpenArrayShell`: the connections
`V3Task::taskConnects(nodep, newTaskp->stmtsp())` returns for the call `nodep`
and the clone of `oldTaskp`, in the order the loop visits them. -/
def tconnects (c : Collaborators) (nodep oldTaskp : NodeId) (s : WidthVisitor) :
    List (NodeId × NodeId) :=
  let s1 := dpiOpenParentInc oldTaskp s
  let newTaskp := (openArrayClone nodep oldTaskp s1).1
  let s2 := (openArrayClone nodep oldTaskp s1).2
  (c.taskConnects nodep (s2.node newTaskp).stmtsp s2).1

/-- The role invariant of the open-array shells: no node is both an open-array
child and an open-array parent. -/
def dpiRolesExclusive (s : WidthVisitor) : Prop :=
  ∀ m, ¬ ((s.node m).dpiOpenChild = true ∧ (s.node m).dpiOpenParent ≠ 0)

/-- `portp->isDpiOpenArray(flag)`. -/
def setIsDpiOpenArray (nodep : NodeId) (flag : Bool) (s : WidthVisitor) : WidthVisitor :=
  { s with node := Function.update s.node nodep { s.node nodep with isDpiOpenArray := flag } }

/-- The loop of `markHasOpenArray` over the statements left, with the value of
`hasOpen` so far.  A variable that is flagged is not tested for its type (`||`);
a fatal end is a null descriptor or a type test that does not return. -/
def markHasOpenArrayStmts (fuel : Nat) :
    List NodeId → Bool → WidthVisitor → Except String (Bool × WidthVisitor)
  | [], hasOpen, s => .ok (hasOpen, s)
  | stmtp :: rest, hasOpen, s =>
    if (s.node stmtp).type = VNType.Var then
      if (s.node stmtp).isDpiOpenArray then
        markHasOpenArrayStmts fuel rest true (setIsDpiOpenArray stmtp true s)
      else
        match (s.node stmtp).dtypep with
        | none => .error "null pointer dereference"
        | some d =>
          match hasOpenArrayDTypeRecurse s fuel d with
          | none => .error "hasOpenArrayDTypeRecurse does not return"
          | some true => markHasOpenArrayStmts fuel rest true (setIsDpiOpenArray stmtp true s)
          | some false => markHasOpenArrayStmts fuel rest hasOpen s
    else markHasOpenArrayStmts fuel rest hasOpen s

/-- `WidthVisitor::markHasOpenArray`. -/
def markHasOpenArray (fuel : Nat) (nodep : NodeId) (s : WidthVisitor) :
    Except String (Bool × WidthVisitor) :=
  markHasOpenArrayStmts fuel (s.node nodep).stmtsp false s

/-- Whether a statement is a variable that is flagged as a DPI open array or
whose type contains an open array. -/
def isOpenArrayVar (s : WidthVisitor) (fuel : Nat) (stmtp : NodeId) : Bool :=
  decide ((s.node stmtp).type = VNType.Var) &&
    ((s.node stmtp).isDpiOpenArray ||
      match (s.node stmtp).dtypep with
      | some d => hasOpenArrayDTypeRecurse s fuel d == some true
      | none => false)

/-- Whether the type test of `markHasOpenArray` returns on every variable of the
list that is not flagged: the variable has a descriptor and the recursion over
it ends within `fuel`. -/
def openArrayTestsReturn (s : WidthVisitor) (fuel : Nat) (stmts : List NodeId) : Prop :=
  ∀ p ∈ stmts, (s.node p).type = VNType.Var → (s.node p).isDpiOpenArray = false →
    ∃ d b, (s.node p).dtypep = some d ∧ hasOpenArrayDTypeRecurse s fuel d = some b

/-! ## WidthVisitor -- clocking block members (V3WidthHelpers.cpp) -/

/-- Modelled from the spec: `nodep->prettyNameQ()`, the pretty name of the node
between single quotes. -/
def prettyNameQ (c : Collaborators) (name : String) : String :=
  "'" ++ c.prettyName name ++ "'"

/-- The loop of `memberSelClocking` over the items of the clocking block, with
the name looked for and the candidates pushed to the speller so far: an item
that is not a clocking item is passed over; the variable of the first clocking
item whose variable has the name ends the loop (`Sum.inl`); every other clocking
item pushes the pretty name of its variable.  When the list is exhausted the
candidates are returned (`Sum.inr`). -/
def memberSelClockingItems (c : Collaborators) (s : WidthVisitor) (name : String) :
    List NodeId → List String → Except String (NodeId ⊕ List String)
  | [], candidates => .ok (.inr candidates)
  | itemp :: rest, candidates =>
    if (s.node itemp).type = VNType.ClockingItem then
      match (s.node itemp).varp with
      | none => .error "null pointer dereference"
      | some varp =>
        if (s.node varp).name = name then .ok (.inl varp)
        else
          memberSelClockingItems c s name rest
            (candidates ++ [c.prettyName (s.node varp).name])
    else memberSelClockingItems c s name rest candidates

/-- Text of the user error of `memberSelClocking`: the suggestion follows the
line break, after `warnMore()` of the reference's location, unless it is
empty. -/
def memberNotFoundMsg (c : Collaborators) (s : WidthVisitor) (nodep clockingp : NodeId)
    (suggest : String) : String :=
  "Member " ++ prettyNameQ c (s.node nodep).name ++ " not found in clocking block " ++
    prettyNameQ c (s.node clockingp).name ++ "\n" ++
    (if suggest = "" then "" else c.warnMore (s.fileLine (s.node nodep).fileline) ++ suggest)

/-- `WidthVisitor::memberSelClocking`: the variable found, or null after the user
error. -/
def memberSelClocking (c : Collaborators) (nodep clockingp : NodeId) : W (Option NodeId) :=
  fun s =>
    match memberSelClockingItems c s (s.node nodep).name (s.node clockingp).itemsp [] with
    | .error e => .error e
    | .ok (.inl varp) => .ok (some varp, s, [])
    | .ok (.inr candidates) =>
      let suggest := c.bestCandidateMsg candidates (c.prettyName (s.node nodep).name)
      .ok (none, v3error nodep (memberNotFoundMsg c s nodep clockingp suggest) s, [])

/-- The variables of the clocking items of a block, in the order of its item
list. -/
def clockingVars (s : WidthVisitor) (clockingp : NodeId) : List NodeId :=
  (s.node clockingp).itemsp.filterMap fun itemp =>
    if (s.node itemp).type = VNType.ClockingItem then (s.node itemp).varp else none

/-! ## Suggestions (`VSpellCheck`) -/

/-- Modelled from the spec: one row of the edit-distance table.  `a` is the
character of the row, `diag` and `left` the entries to the upper left and to the
left of the next cell, the list of characters the remaining columns and the list
of numbers the entries above them. -/
def VSpellCheck.editDistanceRow (a : Char) : Nat → Nat → List Char → List Nat → List Nat
  | diag, left, b :: t, up :: ups =>
    let cur := min (min (up + 1) (left + 1)) (diag + (if a = b then 0 else 1))
    cur :: VSpellCheck.editDistanceRow a up cur t ups
  | _, _, _, _ => []

/-- Modelled from the spec: the rows of the edit-distance table of `t` for the
characters of the first list, from the row above (without its first entry, which
is `i`). -/
def VSpellCheck.editDistanceRows (t : List Char) : List Char → Nat → List Nat → List Nat
  | [], i, row => i :: row
  | a :: s, i, row =>
    VSpellCheck.editDistanceRows t s (i + 1) (VSpellCheck.editDistanceRow a i (i + 1) t row)

/-- Modelled from the spec: the edit distance (insertions, deletions and
substitutions of one character) between two names. -/
def VSpellCheck.editDistance (a b : String) : Nat :=
  (VSpellCheck.editDistanceRows b.data a.data 0 (List.range' 1 b.data.length)).getLastD 0

/-- Modelled from the spec: the best candidate for `goal`, the first of the
candidates at the least edit distance from it. -/
def VSpellCheck.bestCandidate (goal : String) : List String → Option String
  | [] => none
  | candidate :: rest =>
    match VSpellCheck.bestCandidate goal rest with
    | none => some candidate
    | some other =>
      if VSpellCheck.editDistance goal other < VSpellCheck.editDistance goal candidate then
        some other
      else some candidate

/-- Modelled from the spec: `VSpellCheck::bestCandidateMsg(goal)` over the
candidates pushed (class `VSpellCheck` is not among the sources): the suggestion
of the best candidate, empty when there is none. -/
def VSpellCheck.bestCandidateMsg (candidates : List String) (goal : String) : String :=
  match VSpellCheck.bestCandidate goal candidates with
  | none => ""
  | some candidate => "Suggested alternative: '" ++ candidate ++ "'"

/-! ## WidthVisitor -- entry point (V3WidthVisitor.h) -/

/-- `WidthVisitor::mainAcceptEdit`: the temporary `WidthVP{SELF, BOTH}` is
constructed, then the root is visited under it. -/
def mainAcceptEdit (c : Collaborators) (nodep : Option NodeId) : W (Option NodeId) := do
  let vup ← W.ofExcept (WidthVP.ofDeterm Determ.SELF Stage.BOTH)
  userIterateSubtreeReturnEdits c nodep (some vup)

/-! ## Sub-type chains -/

/-- The type that follows a descriptor on its sub-type chain: its sub-type with
the reference wrappers skipped, when it has a sub-type. -/
def subDTypeNext (s : WidthVisitor) (d : DTypeId) : Option DTypeId :=
  (s.dtype d).subDTypep.map fun subp => (s.dtype subp).skipRefp

/-- The descriptor `d` followed by the next `n` types of its sub-type chain, or
by all of them when the chain is shorter. -/
def subDTypeChain (s : WidthVisitor) : Nat → DTypeId → List DTypeId
  | 0, d => [d]
  | n + 1, d =>
    d :: match subDTypeNext s d with
      | some next => subDTypeChain s n next
      | none => []

/-- Whether the sub-type chain of `d` ends, at a type without sub-type, after at
most `n` steps. -/
def subDTypeChainEnds (s : WidthVisitor) : Nat → DTypeId → Bool
  | 0, d => (subDTypeNext s d).isNone
  | n + 1, d =>
    match subDTypeNext s d with
    | some next => subDTypeChainEnds s n next
    | none => true

/-! ## WidthVisitor -- array sizes (V3WidthHelpers.cpp) -/

/-- The loop of `areSameSize` over the dimension index, on the dimensions left
of two vectors of the same size: the first pair whose `elementsConst()` differ
ends it with `false`. -/
def areSameSizeDims (s : WidthVisitor) : List DTypeId → List DTypeId → Bool
  | dim0 :: dims0, dim1 :: dims1 =>
    if (s.dtype dim0).elementsConst ≠ (s.dtype dim1).elementsConst then false
    else areSameSizeDims s dims0 dims1
  | _, _ => true

/-- `WidthVisitor::areSameSize`. -/
def areSameSize (s : WidthVisitor) (dtypep0 dtypep1 : DTypeId) : Bool :=
  let dims0 := (s.dtype dtypep0).unpackDimensions
  let dims1 := (s.dtype dtypep1).unpackDimensions
  if dims0.length ≠ dims1.length then false
  else areSameSizeDims s dims0 dims1

/-! ## WidthVisitor -- miscellaneous core helpers (V3WidthHelpers.cpp) -/

/-- The member `m_containingClassp`: a map from nodes to classes, in which a null
pointer is a value like any other. -/
abbrev ClassCache := NodeId → Option (Option NodeId)

/-- `WidthVisitor::containingClass` on the tree `s`, from the cache before the
call to the result and the cache after it.  The recursion climbs the tree, so
its depth is bounded by `fuel`; `none` is a run that does not return within
it. -/
def containingClass (c : Collaborators) (s : WidthVisitor) :
    Nat → NodeId → ClassCache → Option (Option NodeId × ClassCache)
  | 0, _, _ => none
  | fuel + 1, nodep, cache =>
    if (s.node nodep).type = VNType.Class then
      some (some nodep, Function.update cache nodep (some (some nodep)))
    else if (s.node nodep).type = VNType.ClassPackage then
      some ((s.node nodep).classp, Function.update cache nodep (some (s.node nodep).classp))
    else
      match cache nodep with
      | some classp => some (classp, cache)
      | none =>
        match c.aboveLoopp s nodep with
        | some abovep =>
          match containingClass c s fuel abovep cache with
          | none => none
          | some (classp, cache1) => some (classp, Function.update cache1 nodep (some classp))
        | none => some (none, Function.update cache nodep (some none))

/-- The enclosing class without the cache, in the words of the claim: the node
itself if it is a class, the class of a class package, otherwise the result for
the node above, or null when there is none. -/
def containingClassUncached (c : Collaborators) (s : WidthVisitor) :
    Nat → NodeId → Option (Option NodeId)
  | 0, _ => none
  | fuel + 1, nodep =>
    if (s.node nodep).type = VNType.Class then some (some nodep)
    else if (s.node nodep).type = VNType.ClassPackage then some (s.node nodep).classp
    else
      match c.aboveLoopp s nodep with
      | some abovep => containingClassUncached c s fuel abovep
      | none => some none

/-- The caches reachable from the empty cache by calls of `containingClass` on
the tree `s`. -/
inductive ClassCacheReachable (c : Collaborators) (s : WidthVisitor) : ClassCache → Prop where
  | empty : ClassCacheReachable c s (fun _ => none)
  | call (fuel : Nat) (nodep : NodeId) (cache : ClassCache) (classp : Option NodeId)
      (cache1 : ClassCache) :
      ClassCacheReachable c s cache →
      containingClass c s fuel nodep cache = some (classp, cache1) →
      ClassCacheReachable c s cache1

/-- What every entry of a cache built by `containingClass` is: the result of the
cache-free definition. -/
def ClassCacheValid (c : Collaborators) (s : WidthVisitor) (cache : ClassCache) : Prop :=
  ∀ m v, cache m = some v → ∃ fuel, containingClassUncached c s fuel m = some v

/-! ## WidthVisitor -- inline helpers (V3WidthVisitor.h) -/

/-- Modelled from the spec: the value of type `int` a product computed in 32-bit
machine arithmetic has: the exact value reduced modulo 2^32 into the range from
-2^31 to 2^31 - 1. -/
def toInt32 (x : Int) : Int := (x + 2147483648) % 4294967296 - 2147483648

/-- `WidthVisitor::widthUnpacked`; `none` is a null `subDTypep()`. -/
def widthUnpacked (s : WidthVisitor) (dtypep : DTypeId) : Option Int :=
  if (s.dtype dtypep).isUnpackArrayDType then
    match (s.dtype dtypep).subDTypep with
    | none => none
    | some subp =>
      some (toInt32 ((s.dtype subp).width * ((s.dtype dtypep).arrayUnpackedElements : Int)))
  else some (s.dtype dtypep).width

/-- Modelled from the spec: which link of its back node holds a node
(`VNRelinker::RelinkWhatEn`). -/
inductive RelinkWhatEn where
  | RELINK_NEXT
  | RELINK_OP1
  | RELINK_OP2
  | RELINK_OP3
  | RELINK_OP4
  deriving DecidableEq, Repr

/-- Modelled from the spec: class `VNRelinker`, the place a node was unlinked
from: its back node and the link of the back node that held it. -/
structure VNRelinker where
  m_backp : NodeId
  m_chg : RelinkWhatEn
  deriving DecidableEq, Repr

/-- The link of a node record named by `chg`. -/
def AstNode.link (b : AstNode) : RelinkWhatEn → Option NodeId
  | .RELINK_NEXT => b.nextp
  | .RELINK_OP1 => b.op1p
  | .RELINK_OP2 => b.op2p
  | .RELINK_OP3 => b.op3p
  | .RELINK_OP4 => b.op4p

/-- The node record with the link named by `chg` set to `v`. -/
def AstNode.setLink (b : AstNode) (chg : RelinkWhatEn) (v : Option NodeId) : AstNode :=
  match chg with
  | .RELINK_NEXT => { b with nextp := v }
  | .RELINK_OP1 => { b with op1p := v }
  | .RELINK_OP2 => { b with op2p := v }
  | .RELINK_OP3 => { b with op3p := v }
  | .RELINK_OP4 => { b with op4p := v }

/-- The link of the back node record `b` that holds `nodep`, if any. -/
def relinkWhat (b : AstNode) (nodep : NodeId) : Option RelinkWhatEn :=
  if b.nextp = some nodep then some .RELINK_NEXT
  else if b.op1p = some nodep then some .RELINK_OP1
  else if b.op2p = some nodep then some .RELINK_OP2
  else if b.op3p = some nodep then some .RELINK_OP3
  else if b.op4p = some nodep then some .RELINK_OP4
  else none

/-- Modelled from the spec: `nodep->unlinkFrBack(&relinker)`: the node is
detached as by `unlinkFrBack()` and the relinker records where it was. -/
def unlinkFrBackRelinker (nodep : NodeId) : W VNRelinker := fun s =>
  match (s.node nodep).backp with
  | none => .error "Node has no back, already unlinked?"
  | some b =>
    match relinkWhat (s.node b) nodep with
    | none => .error "Unlink of node with back not pointing to it."
    | some chg => .ok ({ m_backp := b, m_chg := chg }, unlinkFrBackFrom nodep b s, [])

/-- Modelled from the spec: `relinker.relink(newp)`: `newp` is put into the
recorded link of the recorded back node, in front of what that link holds. -/
def VNRelinker.relink (relinker : VNRelinker) (newp : NodeId) (s : WidthVisitor) :
    WidthVisitor :=
  let b := relinker.m_backp
  let old := (s.node b).link relinker.m_chg
  let s1 : WidthVisitor :=
    { s with node := Function.update s.node b ((s.node b).setLink relinker.m_chg (some newp)) }
  let s2 : WidthVisitor :=
    { s1 with node :=
        Function.update s1.node newp { s1.node newp with backp := some b, nextp := old } }
  setBackOfNext old (some newp) s2

/-- Modelled from the spec: what `new AstCvtArrayToPacked{fl, fromp, dtp}` does to
the tree: at the allocation mark there is a new expression node of that kind at
location `fl` with the descriptor `dtp`, whose operand slot holds `fromp`, and it
is the back node of `fromp`. -/
def newAstCvtArrayToPackedState (fl : FileLineId) (fromp : NodeId) (dtp : DTypeId)
    (s : WidthVisitor) : WidthVisitor :=
  let newp := s.nodeNext
  let s1 : WidthVisitor :=
    { s with
      node := Function.update s.node newp
        { isNodeExpr := true, dtypep := some dtp, fileline := fl, didWidth := false,
          type := VNType.CvtArrayToPacked, op1p := some fromp }
      nodeNext := newp + 1 }
  { s1 with node := Function.update s1.node fromp { s1.node fromp with backp := some newp } }

/-- `WidthVisitor::packIfUnpacked`.  The arguments of the constructor, the
registry request among them, are evaluated after the node is unlinked. -/
def packIfUnpacked (c : Collaborators) (nodep : NodeId) : W Unit := do
  let s ← W.get
  match (s.node nodep).dtypep with
  | none => W.pure ()
  | some unpackDTypep =>
    if (s.dtype unpackDTypep).isUnpackArrayDType then
      let elementsNum := toInt32 (s.dtype unpackDTypep).arrayUnpackedElements
      let subp ← W.deref (s.dtype unpackDTypep).subDTypep
      let unpackMinBits := toInt32 (elementsNum * (s.dtype subp).widthMin)
      let unpackBits := toInt32 (elementsNum * (s.dtype subp).width)
      let relinker ← unlinkFrBackRelinker nodep
      let dtp ← W.callFind
        (Event.findLogicDType nodep unpackBits unpackMinBits VSigning.UNSIGNED)
        (c.findLogicDType nodep unpackBits unpackMinBits VSigning.UNSIGNED)
      let s1 ← W.get
      W.modify (newAstCvtArrayToPackedState (s1.node nodep).fileline nodep dtp)
      W.modify (relinker.relink s1.nodeNext)
    else W.pure ()

/-- Whether the call, if it is a request for a logic type, asks for the width
64, the minimum width 64 and no sign. -/
def Event.requestIs64 : Event → Bool
  | .findLogicDType _ width widthMin numeric =>
    decide (width = 64 ∧ widthMin = 64 ∧ numeric = VSigning.UNSIGNED)
  | _ => true

/-- What is asked of every request for a logic type a run makes itself: width
64, minimum width 64, unsigned. -/
def requestsOnly64 {α : Type} (run : W α) : Prop :=
  ∀ s a s1 evs, run s = .ok (a, s1, evs) → ∀ e ∈ evs, e.requestIs64 = true

/-! ## Successive open-array shells -/

/-- The number a list of decimal digit characters stands for, most significant
digit first. -/
def digitsValue (digits : List Char) : Nat :=
  digits.foldl (fun acc ch => acc * 10 + (ch.toNat - 48)) 0

/-- Successive successful runs of `makeOpenArrayShell` for calls of the same
declaration `oldTaskp`, from the tree before the first to the tree after the
last, with the clones made, in order.  Each call is an allocated node that
refers to `oldTaskp` when its run starts and is neither the declaration nor one
of the clones made so far. -/
inductive OpenArrayRuns (c : Collaborators) (fuel : Nat) (oldTaskp : NodeId) :
    WidthVisitor → List NodeId → WidthVisitor → Prop where
  | nil (s : WidthVisitor) : OpenArrayRuns c fuel oldTaskp s [] s
  | snoc (s0 s sF : WidthVisitor) (clones : List NodeId) (nodep : NodeId) (evs : List Event) :
      OpenArrayRuns c fuel oldTaskp s0 clones s →
      (s.node nodep).taskp = some oldTaskp →
      nodep < s.nodeNext → nodep ≠ oldTaskp → nodep ∉ clones →
      makeOpenArrayShell c fuel nodep s = .ok (sF, evs) →
      OpenArrayRuns c fuel oldTaskp s0 (clones ++ [s.nodeNext]) sF

/-- Spec, section 4.2, in its own words: "Each wrapper is expressed purely in
terms of the core operation plus a fixed parameter set".  The wrapper for the
registry descriptor `find` asks the registry for it through the parent and
hands parent, side label, child and stage, unchanged, to the typed
self-determined operation; it does nothing else. -/
def specFixedTypeWrapper (find : NodeId → WidthVisitor → DTypeId × WidthVisitor)
    (findEvent : NodeId → Event) (c : Collaborators) (parentp : NodeId) (side : String)
    (underp : Option NodeId) (stage : Stage) : W Unit := fun s =>
  match iterateCheckTypedSelfPrelim c parentp side underp (some (find parentp s).1) stage
      (find parentp s).2 with
  | .error e => .error e
  | .ok (r, s1, evs) => .ok (r, s1, findEvent parentp :: evs)

/-! ## Concrete trees and rule sets used to run the definitions -/

/-- A location with no warning switched off. -/
def FileLine.plain : FileLine :=
  { filename := "t.v", lineno := 1, warnIsOff := fun _ => false }

/-- A small tree: node 0 is a parent statement, node 1 an expression already
marked as processed whose descriptor 1 is `double`, node 2 an expression whose
descriptor 2 is a 16-bit vector, node 3 an expression whose descriptor 3 is a
string; all share location 0.  Descriptor 4 is a reference wrapper around
descriptor 1. -/
def demoTree : WidthVisitor :=
  { m_vup := some (WidthVP.ofDType (some 2) Stage.FINAL)
    node := fun n =>
      { isNodeExpr := decide (n ≠ 0)
        dtypep := if n = 0 then none else some n
        fileline := 0
        didWidth := decide (n = 1) }
    dtype := fun d =>
      { skipRefp := if d = 4 then 1 else d
        skipRefToEnump := if d = 4 then 1 else d
        isDouble := decide (d = 1)
        isIntegralOrPacked := decide (d = 2)
        prettyDTypeNameQ := if d = 3 then "'string'" else "'logic'" }
    fileLine := fun _ => FileLine.plain
    fileLineNext := 1
    diags := []
    nodeNext := 5 }

/-- A rule set in which no visitor and no check changes anything: every
traversal returns at once, `iterateCheck` and `checkCvtUS` give the child back,
and the registry answers with fixed descriptors. -/
def Collaborators.inert : Collaborators :=
  { iterate := fun _ s => .ok s
    iterateAndNextNull := fun _ s => .ok s
    iterateChildren := fun _ s => .ok s
    iterateChildrenBackwardsConst := fun _ s => .ok s
    iterateSubtreeReturnEdits := fun n s => .ok (some n, s)
    iterateCheck := fun _ _ underp _ _ _ _ _ s => .ok (underp, s)
    checkCvtUS := fun n _ s => .ok (some n, s)
    findDoubleDType := fun _ s => (1, s)
    findSigned8DType := fun _ s => (5, s)
    findSigned32DType := fun _ s => (6, s)
    findUInt32DType := fun _ s => (7, s)
    findLogicDType := fun _ _ _ _ s => (8, s)
    findUInt64DType := fun _ s => (9, s)
    assertAtExpr := fun _ _ => .ok ()
    taskConnects := fun _ _ s => ([], s)
    prettyName := fun name => name
    bestCandidateMsg := fun _ _ => ""
    warnMore := fun _ => "... "
    aboveLoopp := fun s nodep => (s.node nodep).backp }

/-- A rule set in which the visitor of every node reports one user error at the
node it is dispatched on, and nothing else happens. -/
def Collaborators.reporting : Collaborators :=
  { Collaborators.inert with
    iterate := fun n s => .ok (v3error n "visited" s)
    iterateAndNextNull := fun n s => .ok (v3error n "visited" s)
    iterateChildren := fun n s => .ok (v3error n "visited" s)
    iterateChildrenBackwardsConst := fun n s => .ok (v3error n "visited" s)
    iterateSubtreeReturnEdits := fun n s => .ok (some n, v3error n "visited" s) }

/-- A tree around conversion nodes, visited in a self-determined context of
stage BOTH: node 0 is a parent whose three operand slots hold nodes 1, 3 and 5;
node 1 is an `IToRD` over node 2, whose descriptor 3 is signed; node 3 is an
`IToRD` over node 4, whose descriptor 2 is unsigned; node 5 is an `RToIS` over
node 6, whose descriptor 1 is double. -/
def convTree : WidthVisitor :=
  { demoTree with
    m_vup := some { m_dtypep := none, m_stage := Stage.BOTH }
    node := fun n =>
      { isNodeExpr := decide (n ≠ 0)
        dtypep := if n = 2 then some 3 else if n = 4 then some 2 else if n = 6 then some 1
          else none
        fileline := 0
        didWidth := false
        type := if n = 1 ∨ n = 3 then VNType.IToRD else if n = 5 then VNType.RToIS
          else VNType.Other
        op1p := if n = 0 then some 1 else if n = 1 then some 2 else if n = 3 then some 4
          else if n = 5 then some 6 else none
        op2p := if n = 0 then some 3 else none
        op3p := if n = 0 then some 5 else none
        backp := if n = 1 ∨ n = 3 ∨ n = 5 then some 0 else if n = 2 then some 1
          else if n = 4 then some 3 else if n = 6 then some 5 else none }
    dtype := fun d =>
      { skipRefp := d
        skipRefToEnump := d
        isDouble := decide (d = 1)
        isIntegralOrPacked := decide (d = 2 ∨ d = 3)
        prettyDTypeNameQ := "'logic'"
        isSigned := decide (d = 3) }
    nodeNext := 7 }

/-- A tree around a call of an open-array function: node 1 is the function `f`
with the formals 2 (`a`, whose descriptor 10 has the unsized array 11 as its
sub-type) and 3 (`n`, descriptor 2), followed by the declaration 4; node 5 is
the call of `f` with the arguments 6 and 8, whose expressions 7 and 9 have the
descriptors 12 (a fixed array) and 2. -/
def openArrayTree : WidthVisitor :=
  { demoTree with
    m_vup := none
    node := fun n =>
      { isNodeExpr := decide (n = 5 ∨ n = 7 ∨ n = 9)
        dtypep := if n = 2 then some 10 else if n = 3 ∨ n = 9 then some 2
          else if n = 7 then some 12 else none
        fileline := 0
        didWidth := false
        type := if n = 1 then VNType.Func else if n = 2 ∨ n = 3 then VNType.Var
          else if n = 5 then VNType.FuncRef else if n = 6 ∨ n = 8 then VNType.Arg
          else VNType.Other
        name := if n = 1 ∨ n = 5 then "f" else if n = 2 then "a" else if n = 3 then "n" else ""
        op1p := if n = 6 then some 7 else if n = 8 then some 9 else none
        nextp := if n = 1 then some 4 else none
        backp := if n = 1 then some 0 else if n = 4 then some 1 else none
        stmtsp := if n = 1 then [2, 3] else []
        taskp := if n = 5 then some 1 else none }
    dtype := fun d =>
      { skipRefp := d
        skipRefToEnump := d
        isDouble := false
        isIntegralOrPacked := decide (d = 2)
        prettyDTypeNameQ := "'logic'"
        isUnsizedArrayDType := decide (d = 11)
        subDTypep := if d = 10 then some 11 else if d = 11 ∨ d = 12 then some 2 else none }
    nodeNext := 10 }

/-- The same tree in which the function the call refers to is already marked as
an open-array child. -/
def openArrayChildTree : WidthVisitor :=
  setDpiOpenChild 1 true openArrayTree

/-- A rule set for the call of `openArrayTree`: `taskConnects` pairs the
statements it is given, in order, with the arguments 6 and 8 and leaves the
tree as it is. -/
def Collaborators.connecting : Collaborators :=
  { Collaborators.inert with
    taskConnects := fun _ stmtsp s => (stmtsp.zip [6, 8], s) }

/-- The tree `makeOpenArrayShell` leaves of `openArrayTree` for the call 5: the
clone 10 of the function 1 with the formals 11 and 12, of which 11 has the
descriptor 12 of the expression 7. -/
def openArrayTreeAfter : WidthVisitor :=
  setDTypep 11 (some 12) (openArrayClone 5 1 (dpiOpenParentInc 1 openArrayTree)).2

/-- A clocking block: node 0 is the block `cb` with the items 1, 2 and 3, of which
1 and 2 are clocking items for the variables 4 (`clock`) and 5 (`reset`) and 3
is a node of another kind; node 6 is a member reference to `clk` and node 7 a
member reference to `reset`. -/
def clockingTree : WidthVisitor :=
  { demoTree with
    m_vup := none
    node := fun n =>
      { isNodeExpr := decide (n = 6 ∨ n = 7)
        dtypep := none
        fileline := 0
        didWidth := false
        type := if n = 0 then VNType.Clocking
          else if n = 1 ∨ n = 2 then VNType.ClockingItem
          else if n = 4 ∨ n = 5 then VNType.Var
          else if n = 6 ∨ n = 7 then VNType.MemberSel
          else VNType.Other
        name := if n = 0 then "cb" else if n = 4 then "clock" else if n = 5 then "reset"
          else if n = 6 then "clk" else if n = 7 then "reset" else ""
        itemsp := if n = 0 then [1, 2, 3] else []
        varp := if n = 1 then some 4 else if n = 2 then some 5 else none }
    nodeNext := 8 }

/-- The clocking block of `clockingTree` with the clocking items 1 and 2 alone:
the declared names are `clock` and `reset`. -/
def clockResetTree : WidthVisitor :=
  { clockingTree with
    node := fun n =>
      if n = 0 then { clockingTree.node 0 with itemsp := [1, 2] } else clockingTree.node n }

/-- A rule set for `clockingTree`: names are printed as they are and the
suggestions are those of `VSpellCheck.bestCandidateMsg`. -/
def Collaborators.spelling : Collaborators :=
  { Collaborators.inert with bestCandidateMsg := VSpellCheck.bestCandidateMsg }

/-- Array descriptors: 20 and 21 have two unpacked dimensions each, of 4 and 8
elements (the dimensions 22, 23 and 24, 25); 26 has the single dimension 27 of
4 elements. -/
def arrayTypes : WidthVisitor :=
  { demoTree with
    dtype := fun d =>
      { skipRefp := d
        skipRefToEnump := d
        isDouble := false
        isIntegralOrPacked := false
        prettyDTypeNameQ := "'logic'"
        isUnpackArrayDType := decide (20 ≤ d)
        unpackDimensions :=
          if d = 20 then [22, 23] else if d = 21 then [24, 25] else if d = 26 then [27] else []
        elementsConst :=
          if d = 22 ∨ d = 24 ∨ d = 27 then 4 else if d = 23 ∨ d = 25 then 8 else 0 } }

/-- Whether the call is a request to the descriptor registry. -/
def Event.isRegistry : Event → Bool
  | .findDoubleDType .. => true
  | .findSigned8DType .. => true
  | .findSigned32DType .. => true
  | .findUInt32DType .. => true
  | .findLogicDType .. => true
  | .findUInt64DType .. => true
  | _ => false

/-- The effect of a run apart from its requests to the registry: the fatal end,
or the value, the state and the other calls in order. -/
def effect {α : Type} (run : W α) (s : WidthVisitor) :
    Except String (α × WidthVisitor × List Event) :=
  match run s with
  | .error e => .error e
  | .ok (a, s1, evs) => .ok (a, s1, evs.filter fun ev => !ev.isRegistry)

/-- A tree with a class: node 0 is a class, node 1 a statement of it and node 2 a
node under that statement; node 3 is at the top of another tree. -/
def classTree : WidthVisitor :=
  { demoTree with
    node := fun n =>
      { isNodeExpr := false
        dtypep := none
        fileline := 0
        didWidth := false
        type := if n = 0 then VNType.Class else VNType.Other
        backp := if n = 1 then some 0 else if n = 2 then some 1 else none }
    nodeNext := 4 }

/-- A tree with an expression of unpacked array type: node 1, the operand in
slot 1 of node 0, has the descriptor 30, an unpacked array of `elements`
elements of the type 31, which has the width 8 and the minimum width `widthMin`;
node 2 is an expression of the type 31. -/
def packTreeOf (elements : Nat) (widthMin : Int) : WidthVisitor :=
  { demoTree with
    m_vup := none
    node := fun n =>
      { isNodeExpr := decide (n = 1 ∨ n = 2)
        dtypep := if n = 1 then some 30 else if n = 2 then some 31 else none
        fileline := 0
        didWidth := false
        op1p := if n = 0 then some 1 else none
        op2p := if n = 0 then some 2 else none
        backp := if n = 1 ∨ n = 2 then some 0 else none }
    dtype := fun d =>
      { skipRefp := d
        skipRefToEnump := d
        isDouble := false
        isIntegralOrPacked := decide (d = 31)
        prettyDTypeNameQ := "'logic'"
        isUnpackArrayDType := decide (d = 30)
        subDTypep := if d = 30 then some 31 else none
        width := if d = 31 then 8 else 0
        widthMin := if d = 31 then widthMin else 0
        arrayUnpackedElements := if d = 30 then elements else 0 }
    nodeNext := 3 }

/-- An array of 4 elements of width 8 and minimum width 5. -/
def packTree : WidthVisitor := packTreeOf 4 5

/-- An array of 2^28 elements of width 8 and minimum width 4. -/
def bigPackTree : WidthVisitor := packTreeOf 268435456 4

/-- The tree `openArrayTree` with a second call of the function 1: node 10 is a
call of `f` without arguments. -/
def twoCallsTree : WidthVisitor :=
  { openArrayTree with
    node := fun n =>
      if n = 10 then
        { isNodeExpr := true, dtypep := none, fileline := 0, didWidth := false,
          type := VNType.FuncRef, name := "f", taskp := some 1 }
      else openArrayTree.node n
    nodeNext := 11 }

/-- The tree `twoCallsTree` after the shell for the call 5 (with connections of
no formal): the clone is node 11. -/
def twoCallsAfterFirst : WidthVisitor :=
  (openArrayClone 5 1 (dpiOpenParentInc 1 twoCallsTree)).2

/-- The tree after the shell for the call 10 as well: the second clone is node
14. -/
def twoCallsAfterSecond : WidthVisitor :=
  (openArrayClone 10 1 (dpiOpenParentInc 1 twoCallsAfterFirst)).2

/-- A rule set whose registry creates: `findLogicDType` writes a descriptor of
the requested width, minimum width and signedness into slot 40 of the
descriptor arena and answers with that slot. -/
def Collaborators.creating : Collaborators :=
  { Collaborators.inert with
    findLogicDType := fun _ w m sg s =>
      (40, { s with
        dtype := Function.update s.dtype 40
          { skipRefp := 40, skipRefToEnump := 40, isDouble := false,
            isIntegralOrPacked := true, prettyDTypeNameQ := "'logic'",
            isSigned := decide (sg = VSigning.SIGNED), width := w, widthMin := m } }) }

/-- Contract of the descriptor registry towards the syntax tree: a request for
the double type or for a logic type may create descriptors, but it leaves every
syntax node and the allocation mark of the nodes as they are. -/
def RegistryKeepsTree (c : Collaborators) : Prop :=
  (∀ n st, (c.findDoubleDType n st).2.node = st.node ∧
    (c.findDoubleDType n st).2.nodeNext = st.nodeNext) ∧
  (∀ n w m sg st, (c.findLogicDType n w m sg st).2.node = st.node ∧
    (c.findLogicDType n w m sg st).2.nodeNext = st.nodeNext)

/-- Contract of the visitors towards the holder of the visited node: the visit
dispatched on `n` may edit the tree, and replace `n` in the slot that holds it,
but it does not lower the allocation mark of the nodes and it leaves the kind
and the descriptor of every allocated node whose first operand slot holds
`n`. -/
def VisitKeepsHolder (c : Collaborators) : Prop :=
  ∀ n st st2, c.iterateAndNextNull n st = .ok st2 →
    st.nodeNext ≤ st2.nodeNext ∧
    ∀ b, b < st.nodeNext → (st.node b).op1p = some n →
      (st2.node b).type = (st.node b).type ∧ (st2.node b).dtypep = (st.node b).dtypep

/-- Contract of `iterateCheck` towards the parent it is given: the check may
edit the tree under the parent, but it leaves the kind and the descriptor of an
allocated parent. -/
def CheckKeepsParent (c : Collaborators) : Prop :=
  ∀ parentp side underp determ stage expDTypep extendRule warnOn st ret st2,
    c.iterateCheck parentp side underp determ stage expDTypep extendRule warnOn st
      = .ok (ret, st2) →
    parentp < st.nodeNext →
      (st2.node parentp).type = (st.node parentp).type ∧
      (st2.node parentp).dtypep = (st.node parentp).dtypep

/-- The tree in which the node `n` has been replaced, in the first operand slot
of `b`, by a new copy of it at the allocation mark. -/
def replaceOperandCopy (b n : NodeId) (s : WidthVisitor) : WidthVisitor :=
  { s with
    node := Function.update (Function.update s.node s.nodeNext (s.node n)) b
      { s.node b with op1p := some s.nodeNext }
    nodeNext := s.nodeNext + 1 }

/-- A rule set whose visitors edit the tree: the visit dispatched on a node that
has a back node replaces the node, in the first operand slot of the back node,
by a new copy of it; everything else is as in `Collaborators.inert`. -/
def Collaborators.replacing : Collaborators :=
  { Collaborators.inert with
    iterateAndNextNull := fun n s =>
      match (s.node n).backp with
      | none => .ok s
      | some b => .ok (replaceOperandCopy b n s) }

/-- A tree around two conversions to real, visited in a self-determined context
of stage BOTH: node 0 is a parent whose operand slots hold the nodes 1 and 3;
node 1 is a `BitsToRealD` over node 2, whose descriptor 2 is unsigned; node 3 is
an `ISToRD` over node 4, whose descriptor 3 is signed. -/
def realConvTree : WidthVisitor :=
  { convTree with
    node := fun n =>
      { isNodeExpr := decide (n ≠ 0)
        dtypep := if n = 2 then some 2 else if n = 4 then some 3 else none
        fileline := 0
        didWidth := false
        type := if n = 1 then VNType.BitsToRealD else if n = 3 then VNType.ISToRD
          else VNType.Other
        op1p := if n = 0 then some 1 else if n = 1 then some 2 else if n = 3 then some 4
          else none
        op2p := if n = 0 then some 3 else none
        backp := if n = 1 ∨ n = 3 then some 0 else if n = 2 then some 1
          else if n = 4 then some 3 else none }
    nodeNext := 5 }

/-- The context recorded with a traversal call, nothing for the other calls. -/
def Event.context : Event → Option (Option WidthVP)
  | .iterate _ vup => some vup
  | .iterateAndNextNull _ vup => some vup
  | .iterateChildren _ vup => some vup
  | .iterateChildrenBackwardsConst _ vup => some vup
  | .iterateSubtreeReturnEdits _ vup => some vup
  | _ => none

/-- Whether the call is a call of the core `iterateCheck`. -/
def Event.isIterateCheck : Event → Bool
  | .iterateCheck .. => true
  | _ => false

/-- What C2 asks of a driver run from state `s`: when it returns, `m_vup` is
again what it was in `s`, and every traversal call it made was made while
`m_vup` was the passed context `vup`. -/
def KeepsContext {α : Type} (run : W α) (vup : Option WidthVP) (s : WidthVisitor) : Prop :=
  ∀ r s1 evs, run s = .ok (r, s1, evs) →
    s1.m_vup = s.m_vup ∧ ∀ e ∈ evs, e.context = some vup

/-- The run returns to its caller (no fatal end). -/
def Returns {α : Type} (run : W α) (s : WidthVisitor) : Prop :=
  ∃ out, run s = .ok out

/-- A well-formed operand site in state `s`: `nodep` sits in a slot of `parent`,
`lhsp` sits alone in a slot of `nodep`, the three are distinct nodes created
before the allocation mark, and so is the sibling following `nodep`, if any. -/
structure OperandSite (s : WidthVisitor) (nodep lhsp parent : NodeId) : Prop where
  back : (s.node nodep).backp = some parent
  operandBack : (s.node lhsp).backp = some nodep
  operandAlone : (s.node lhsp).nextp = none
  operand_ne : lhsp ≠ nodep
  parent_ne : parent ≠ nodep
  parent_ne_operand : parent ≠ lhsp
  allocated : nodep < s.nodeNext ∧ lhsp < s.nodeNext ∧ parent < s.nodeNext
  next : ∀ x, (s.node nodep).nextp = some x → x < s.nodeNext ∧ x ≠ lhsp ∧ x ≠ nodep

/-! ## Theorems -/

section Basics

theorem W.bind_apply {α β : Type} (m : W α) (f : α → W β) (s : WidthVisitor) :
    (m >>= f) s = W.bind m f s := rfl

theorem W.pure_apply {α : Type} (a : α) (s : WidthVisitor) :
    (Pure.pure a : W α) s = .ok (a, s, []) := rfl

theorem stage_andPRELIM (stage : Stage) :
    stage.andPRELIM = true ↔ stage = Stage.PRELIM ∨ stage = Stage.BOTH := by
  cases stage <;> decide

theorem stage_andFINAL (stage : Stage) :
    stage.andFINAL = true ↔ stage = Stage.FINAL ∨ stage = Stage.BOTH := by
  cases stage <;> decide

end Basics

/-! ### C1: classification of the width warning -/

/-- C1, as stated, fails: with equal widths (`b = a = 8`) `v3widthWarn` still
reports a warning, of the generic code `WIDTH`. -/
theorem v3widthWarn_equal_widths_reports :
    (v3widthWarn 2 8 8 "width" demoTree).diags
      = [{ code := some V3ErrorCode.WIDTH, nodep := 2, msg := "width" }] := by
  decide

/-- C1, amended: `v3widthWarn(b, a, msg)` with target width `b` and child width
`a` selects `WIDTHTRUNC` exactly when `b < a`, `WIDTHEXPAND` exactly when `b > a`
and the generic `WIDTH` exactly when `b = a`; it reports exactly one warning of
the selected code, at the node, unless that code is switched off at the node's
location, in which case it reports nothing. -/
theorem v3widthWarn_classification (nodep : NodeId) (b a : Int) (msg : String)
    (s : WidthVisitor) :
    (v3widthWarnCode b a = V3ErrorCode.WIDTHTRUNC ↔ b < a) ∧
    (v3widthWarnCode b a = V3ErrorCode.WIDTHEXPAND ↔ b > a) ∧
    (v3widthWarnCode b a = V3ErrorCode.WIDTH ↔ b = a) ∧
    (v3widthWarn nodep b a msg s).diags =
      if (s.fileLine (s.node nodep).fileline).warnIsOff (v3widthWarnCode b a) then s.diags
      else s.diags ++ [{ code := some (v3widthWarnCode b a), nodep := nodep, msg := msg }] := by
  refine ⟨?_, ?_, ?_, ?_⟩
  · unfold v3widthWarnCode
    split_ifs <;> simp_all
  · unfold v3widthWarnCode
    split_ifs <;> simp_all
    omega
  · unfold v3widthWarnCode
    split_ifs <;> simp_all <;> omega
  · unfold v3widthWarn v3warnCode
    split_ifs <;> rfl

/-! ### C4, C5: construction of the downward context -/

/-- C4: `WidthVP(determ, stage)` raises the fatal internal error if and only if
`determ` is not `SELF` and `stage` is not `PRELIM`; in every other case the
construction succeeds and yields a context with no target type (`selfDtm()`)
carrying exactly the given stage. -/
theorem WidthVP_ofDeterm_fatal_iff (determ : Determ) (stage : Stage) :
    ((∃ msg, WidthVP.ofDeterm determ stage = .error msg) ↔
        (determ ≠ Determ.SELF ∧ stage ≠ Stage.PRELIM)) ∧
    (¬ (determ ≠ Determ.SELF ∧ stage ≠ Stage.PRELIM) →
        ∃ vup, WidthVP.ofDeterm determ stage = .ok vup ∧ vup.selfDtm = true ∧
          vup.dtypeNullp = none ∧ vup.m_stage = stage) := by
  cases determ <;> cases stage <;> simp [WidthVP.ofDeterm, WidthVP.selfDtm, WidthVP.dtypeNullp]

/-- C5, as stated, fails: `WidthVP(dtype, PRELIM)` with a non-null `dtype` is
constructed without any check; it is target-determined and its stage holds no
FINAL bit. -/
theorem WidthVP_ofDType_prelim_constructible :
    (WidthVP.ofDType (some 2) Stage.PRELIM).selfDtm = false ∧
    (WidthVP.ofDType (some 2) Stage.PRELIM).final = false ∧
    (WidthVP.ofDType (some 2) Stage.PRELIM).prelim = true := by
  decide

/-- C5, amended: `WidthVP(dtype, stage)` accepts every descriptor with every
stage and carries exactly what it was given, so a target-determined context has
`final()` exactly when its stage is `FINAL` or `BOTH` and `prelim()` exactly when
it is `PRELIM` or `BOTH`. -/
theorem WidthVP_ofDType_carries (dtypep : Option DTypeId) (stage : Stage) :
    (WidthVP.ofDType dtypep stage).dtypeNullp = dtypep ∧
    (WidthVP.ofDType dtypep stage).m_stage = stage ∧
    ((WidthVP.ofDType dtypep stage).selfDtm = false ↔ dtypep ≠ none) ∧
    ((WidthVP.ofDType dtypep stage).final = true ↔
        (stage = Stage.FINAL ∨ stage = Stage.BOTH)) ∧
    ((WidthVP.ofDType dtypep stage).prelim = true ↔
        (stage = Stage.PRELIM ∨ stage = Stage.BOTH)) := by
  refine ⟨rfl, rfl, ?_, stage_andFINAL stage, stage_andPRELIM stage⟩
  cases dtypep <;> simp [WidthVP.ofDType, WidthVP.selfDtm]

/-! ### C2, C3: the traversal drivers -/

section Drivers

theorem restorer_run {α : Type} (body : W α) (vup : Option WidthVP) (s : WidthVisitor) :
    VL_RESTORER_m_vup (set_m_vup vup >>= fun _ => body) s =
      match body { s with m_vup := vup } with
      | .error e => .error e
      | .ok (a, s1, ev) => .ok (a, { s1 with m_vup := s.m_vup }, ev) := by
  simp only [VL_RESTORER_m_vup, set_m_vup, W.modify, W.bind_apply, W.bind]
  cases h : body { s with m_vup := vup } with
  | error e => rfl
  | ok out => obtain ⟨a, s1, ev⟩ := out; simp

theorem userIterate_some (c : Collaborators) (n : NodeId) (vup : Option WidthVP)
    (s : WidthVisitor) :
    userIterate c (some n) vup s =
      match c.iterate n { s with m_vup := vup } with
      | .error e => .error e
      | .ok s1 => .ok ((), { s1 with m_vup := s.m_vup }, [Event.iterate n vup]) := by
  show VL_RESTORER_m_vup (set_m_vup vup >>= fun _ => _) s = _
  rw [restorer_run]
  simp only [W.callUnit]
  cases c.iterate n { s with m_vup := vup } <;> rfl

theorem userIterateChildren_some (c : Collaborators) (n : NodeId) (vup : Option WidthVP)
    (s : WidthVisitor) :
    userIterateChildren c (some n) vup s =
      match c.iterateChildren n { s with m_vup := vup } with
      | .error e => .error e
      | .ok s1 => .ok ((), { s1 with m_vup := s.m_vup }, [Event.iterateChildren n vup]) := by
  show VL_RESTORER_m_vup (set_m_vup vup >>= fun _ => _) s = _
  rw [restorer_run]
  simp only [W.callUnit]
  cases c.iterateChildren n { s with m_vup := vup } <;> rfl

theorem userIterateChildrenBackwardsConst_some (c : Collaborators) (n : NodeId)
    (vup : Option WidthVP) (s : WidthVisitor) :
    userIterateChildrenBackwardsConst c (some n) vup s =
      match c.iterateChildrenBackwardsConst n { s with m_vup := vup } with
      | .error e => .error e
      | .ok s1 =>
        .ok ((), { s1 with m_vup := s.m_vup }, [Event.iterateChildrenBackwardsConst n vup]) := by
  show VL_RESTORER_m_vup (set_m_vup vup >>= fun _ => _) s = _
  rw [restorer_run]
  simp only [W.callUnit]
  cases c.iterateChildrenBackwardsConst n { s with m_vup := vup } <;> rfl

theorem userIterateSubtreeReturnEdits_some (c : Collaborators) (n : NodeId)
    (vup : Option WidthVP) (s : WidthVisitor) :
    userIterateSubtreeReturnEdits c (some n) vup s =
      match c.iterateSubtreeReturnEdits n { s with m_vup := vup } with
      | .error e => .error e
      | .ok (ret, s1) =>
        .ok (ret, { s1 with m_vup := s.m_vup }, [Event.iterateSubtreeReturnEdits n vup]) := by
  show VL_RESTORER_m_vup (set_m_vup vup >>= fun _ => _) s = _
  rw [restorer_run]
  simp only [W.call]
  cases c.iterateSubtreeReturnEdits n { s with m_vup := vup } <;> rfl

theorem userIterateAndNext_didWidth (c : Collaborators) (n : NodeId) (vup : Option WidthVP)
    (s : WidthVisitor) (h : (s.node n).didWidth = true) :
    userIterateAndNext c (some n) vup s = .ok ((), s, []) := by
  simp [userIterateAndNext, W.bind_apply, W.bind, W.get, h, W.pure]

theorem userIterateAndNext_some (c : Collaborators) (n : NodeId) (vup : Option WidthVP)
    (s : WidthVisitor) (h : (s.node n).didWidth = false) :
    userIterateAndNext c (some n) vup s =
      match c.iterateAndNextNull n { s with m_vup := vup } with
      | .error e => .error e
      | .ok s1 => .ok ((), { s1 with m_vup := s.m_vup }, [Event.iterateAndNextNull n vup]) := by
  have e : userIterateAndNext c (some n) vup s =
      VL_RESTORER_m_vup (set_m_vup vup >>= fun _ =>
        W.callUnit (fun s => Event.iterateAndNextNull n s.m_vup) (c.iterateAndNextNull n)) s := by
    simp only [userIterateAndNext, W.bind_apply, W.bind, W.get, h]
    simp only [Bool.false_eq_true, if_false]
    cases VL_RESTORER_m_vup (do
        set_m_vup vup
        W.callUnit (fun s => Event.iterateAndNextNull n s.m_vup) (c.iterateAndNextNull n)) s with
    | error e => rfl
    | ok out => obtain ⟨a, s1, ev⟩ := out; simp
  rw [e, restorer_run]
  simp only [W.callUnit]
  cases c.iterateAndNextNull n { s with m_vup := vup } <;> rfl

/-- C2: for each of the five drivers, every node (null, already processed or not)
and every context `vup`: whenever the driver returns, `m_vup` is again the value
it had before the call, and the nested iteration ran with `m_vup` equal to the
passed `vup`.  The driver returns at once on a null node, and on a non-null node
exactly when the nested iteration, started in the state whose `m_vup` is `vup`,
returns (for `userIterateAndNext`, also when the node is already processed). -/
theorem userIterate_keeps_context (c : Collaborators) (nodep : Option NodeId)
    (vup : Option WidthVP) (s : WidthVisitor) :
    (KeepsContext (userIterate c nodep vup) vup s ∧
      KeepsContext (userIterateAndNext c nodep vup) vup s ∧
      KeepsContext (userIterateChildren c nodep vup) vup s ∧
      KeepsContext (userIterateChildrenBackwardsConst c nodep vup) vup s ∧
      KeepsContext (userIterateSubtreeReturnEdits c nodep vup) vup s) ∧
    (nodep = none →
      userIterate c nodep vup s = .ok ((), s, []) ∧
      userIterateAndNext c nodep vup s = .ok ((), s, []) ∧
      userIterateChildren c nodep vup s = .ok ((), s, []) ∧
      userIterateChildrenBackwardsConst c nodep vup s = .ok ((), s, []) ∧
      userIterateSubtreeReturnEdits c nodep vup s = .ok (none, s, [])) ∧
    (∀ n, nodep = some n →
      (Returns (userIterate c nodep vup) s ↔
        ∃ s1, c.iterate n { s with m_vup := vup } = .ok s1) ∧
      (Returns (userIterateAndNext c nodep vup) s ↔
        ((s.node n).didWidth = true ∨
          ∃ s1, c.iterateAndNextNull n { s with m_vup := vup } = .ok s1)) ∧
      (Returns (userIterateChildren c nodep vup) s ↔
        ∃ s1, c.iterateChildren n { s with m_vup := vup } = .ok s1) ∧
      (Returns (userIterateChildrenBackwardsConst c nodep vup) s ↔
        ∃ s1, c.iterateChildrenBackwardsConst n { s with m_vup := vup } = .ok s1) ∧
      (Returns (userIterateSubtreeReturnEdits c nodep vup) s ↔
        ∃ out, c.iterateSubtreeReturnEdits n { s with m_vup := vup } = .ok out)) := by
  cases nodep with
  | none =>
    refine ⟨⟨?_, ?_, ?_, ?_, ?_⟩, fun _ => ⟨rfl, rfl, rfl, rfl, rfl⟩, fun n h => by cases h⟩ <;>
    · intro r s1 evs h
      cases h
      exact ⟨rfl, by simp⟩
  | some n =>
    refine ⟨⟨?_, ?_, ?_, ?_, ?_⟩, (fun h => by cases h), ?_⟩
    · intro r s1 evs h
      rw [userIterate_some] at h
      cases hc : c.iterate n { s with m_vup := vup } with
      | error e => rw [hc] at h; cases h
      | ok s2 => rw [hc] at h; cases h; exact ⟨rfl, by simp [Event.context]⟩
    · intro r s1 evs h
      cases hd : (s.node n).didWidth with
      | true => rw [userIterateAndNext_didWidth c n vup s hd] at h; cases h; exact ⟨rfl, by simp⟩
      | false =>
        rw [userIterateAndNext_some c n vup s hd] at h
        cases hc : c.iterateAndNextNull n { s with m_vup := vup } with
        | error e => rw [hc] at h; cases h
        | ok s2 => rw [hc] at h; cases h; exact ⟨rfl, by simp [Event.context]⟩
    · intro r s1 evs h
      rw [userIterateChildren_some] at h
      cases hc : c.iterateChildren n { s with m_vup := vup } with
      | error e => rw [hc] at h; cases h
      | ok s2 => rw [hc] at h; cases h; exact ⟨rfl, by simp [Event.context]⟩
    · intro r s1 evs h
      rw [userIterateChildrenBackwardsConst_some] at h
      cases hc : c.iterateChildrenBackwardsConst n { s with m_vup := vup } with
      | error e => rw [hc] at h; cases h
      | ok s2 => rw [hc] at h; cases h; exact ⟨rfl, by simp [Event.context]⟩
    · intro r s1 evs h
      rw [userIterateSubtreeReturnEdits_some] at h
      cases hc : c.iterateSubtreeReturnEdits n { s with m_vup := vup } with
      | error e => rw [hc] at h; cases h
      | ok out => obtain ⟨ret, s2⟩ := out; rw [hc] at h; cases h; exact ⟨rfl, by simp [Event.context]⟩
    · intro m hm
      cases hm
      refine ⟨?_, ?_, ?_, ?_, ?_⟩
      · unfold Returns
        rw [userIterate_some]
        cases c.iterate n { s with m_vup := vup } with
        | error e => exact ⟨(fun ⟨_, h⟩ => by cases h), (fun ⟨_, h⟩ => by cases h)⟩
        | ok s2 => exact ⟨fun _ => ⟨_, rfl⟩, fun _ => ⟨_, rfl⟩⟩
      · unfold Returns
        cases hd : (s.node n).didWidth with
        | true =>
          rw [userIterateAndNext_didWidth c n vup s hd]
          exact ⟨fun _ => Or.inl rfl, fun _ => ⟨_, rfl⟩⟩
        | false =>
          rw [userIterateAndNext_some c n vup s hd]
          cases c.iterateAndNextNull n { s with m_vup := vup } with
          | error e =>
            exact ⟨(fun ⟨_, h⟩ => by cases h),
              (fun h => by rcases h with h | ⟨_, h⟩ <;> cases h)⟩
          | ok s2 => exact ⟨fun _ => Or.inr ⟨_, rfl⟩, fun _ => ⟨_, rfl⟩⟩
      · unfold Returns
        rw [userIterateChildren_some]
        cases c.iterateChildren n { s with m_vup := vup } with
        | error e => exact ⟨(fun ⟨_, h⟩ => by cases h), (fun ⟨_, h⟩ => by cases h)⟩
        | ok s2 => exact ⟨fun _ => ⟨_, rfl⟩, fun _ => ⟨_, rfl⟩⟩
      · unfold Returns
        rw [userIterateChildrenBackwardsConst_some]
        cases c.iterateChildrenBackwardsConst n { s with m_vup := vup } with
        | error e => exact ⟨(fun ⟨_, h⟩ => by cases h), (fun ⟨_, h⟩ => by cases h)⟩
        | ok s2 => exact ⟨fun _ => ⟨_, rfl⟩, fun _ => ⟨_, rfl⟩⟩
      · unfold Returns
        rw [userIterateSubtreeReturnEdits_some]
        cases c.iterateSubtreeReturnEdits n { s with m_vup := vup } with
        | error e => exact ⟨(fun ⟨_, h⟩ => by cases h), (fun ⟨_, h⟩ => by cases h)⟩
        | ok out => exact ⟨fun _ => ⟨_, rfl⟩, fun _ => ⟨_, rfl⟩⟩

/-- C3, as stated, fails: `userIterate`, `userIterateChildren` and
`userIterateSubtreeReturnEdits` do not look at the marker.  Node 1 of `demoTree`
is marked as processed, yet each of them dispatches the nested iteration on it,
and with a rule set whose visitors report an error a diagnostic is reported. -/
theorem userIterate_ignores_didWidth :
    (demoTree.node 1).didWidth = true ∧
    userIterate Collaborators.reporting (some 1) none demoTree =
      .ok ((), v3error 1 "visited" demoTree, [Event.iterate 1 none]) ∧
    userIterateChildren Collaborators.reporting (some 1) none demoTree =
      .ok ((), v3error 1 "visited" demoTree, [Event.iterateChildren 1 none]) ∧
    userIterateSubtreeReturnEdits Collaborators.reporting (some 1) none demoTree =
      .ok (some 1, v3error 1 "visited" demoTree, [Event.iterateSubtreeReturnEdits 1 none]) ∧
    (v3error 1 "visited" demoTree).diags =
      [{ code := none, nodep := 1, msg := "visited" }] := by
  refine ⟨rfl, ?_, ?_, ?_, rfl⟩
  · rw [userIterate_some]; rfl
  · rw [userIterateChildren_some]; rfl
  · rw [userIterateSubtreeReturnEdits_some]; rfl

/-- C3, amended: for a node whose `didWidth` marker is set and every context,
`userIterateAndNext` is a no-op: it returns with the state unchanged (no
conversion inserted, no diagnostic) and without any call, so no visitor is
dispatched.  The other drivers do not consult the marker: on such a node they
run the nested iteration exactly as on an unmarked one. -/
theorem userIterateAndNext_didWidth_noop (c : Collaborators) (n : NodeId)
    (vup : Option WidthVP) (s : WidthVisitor) (h : (s.node n).didWidth = true) :
    userIterateAndNext c (some n) vup s = .ok ((), s, []) ∧
    (∀ s1, c.iterate n { s with m_vup := vup } = .ok s1 →
      userIterate c (some n) vup s =
        .ok ((), { s1 with m_vup := s.m_vup }, [Event.iterate n vup])) ∧
    (∀ s1, c.iterateChildren n { s with m_vup := vup } = .ok s1 →
      userIterateChildren c (some n) vup s =
        .ok ((), { s1 with m_vup := s.m_vup }, [Event.iterateChildren n vup])) ∧
    (∀ ret s1, c.iterateSubtreeReturnEdits n { s with m_vup := vup } = .ok (ret, s1) →
      userIterateSubtreeReturnEdits c (some n) vup s =
        .ok (ret, { s1 with m_vup := s.m_vup }, [Event.iterateSubtreeReturnEdits n vup])) := by
  refine ⟨userIterateAndNext_didWidth c n vup s h, ?_, ?_, ?_⟩
  · intro s1 h1
    rw [userIterate_some, h1]
  · intro s1 h1
    rw [userIterateChildren_some, h1]
  · intro ret s1 h1
    rw [userIterateSubtreeReturnEdits_some, h1]

/-- Witness of C3 (amended) on node 1 of `demoTree`, which is marked as
processed. -/
theorem userIterateAndNext_didWidth_noop_witness :
    userIterateAndNext Collaborators.reporting (some 1) none demoTree = .ok ((), demoTree, []) :=
  (userIterateAndNext_didWidth_noop Collaborators.reporting 1 none demoTree rfl).1

end Drivers

/-! ### C6, C7: the typed wrapper and its fixed-type instances -/

section Wrappers

theorem prelimStage_skip (c : Collaborators) (stage : Stage) (underp : Option NodeId)
    (s : WidthVisitor) (h : stage.andPRELIM = false) :
    prelimStage c stage underp s = .ok (underp, s, []) := by
  simp [prelimStage, h, W.pure]

theorem prelimStage_visit (c : Collaborators) (stage : Stage) (n : NodeId)
    (s : WidthVisitor) (h : stage.andPRELIM = true) :
    prelimStage c stage (some n) s =
      match c.iterateSubtreeReturnEdits n
          { s with m_vup := some { m_dtypep := none, m_stage := Stage.PRELIM } } with
      | .error e => .error e
      | .ok (ret, s1) =>
        .ok (ret, { s1 with m_vup := s.m_vup },
          [Event.iterateSubtreeReturnEdits n
            (some { m_dtypep := none, m_stage := Stage.PRELIM })]) := by
  have e : prelimStage c stage (some n) s =
      userIterateSubtreeReturnEdits c (some n)
        (some { m_dtypep := none, m_stage := Stage.PRELIM }) s := by
    simp only [prelimStage, h, if_true, prelimSelfVisit, W.bind_apply, W.bind, W.ofExcept,
      WidthVP.ofDeterm, W.pure]
    simp only [ne_eq, not_true_eq_false, false_and, and_self, if_false, W.ofExcept, W.pure]
    cases userIterateSubtreeReturnEdits c (some n)
        (some { m_dtypep := none, m_stage := Stage.PRELIM }) s with
    | error e => rfl
    | ok out => obtain ⟨a, s1, ev⟩ := out; simp
  rw [e, userIterateSubtreeReturnEdits_some]

theorem iterateCheckTypedSelfPrelim_run (c : Collaborators) (parentp : NodeId) (side : String)
    (underp : Option NodeId) (expDTypep : Option DTypeId) (stage : Stage) (s : WidthVisitor) :
    iterateCheckTypedSelfPrelim c parentp side underp expDTypep stage s =
      match prelimStage c stage underp s with
      | .error e => .error e
      | .ok (child, s1, evs1) =>
        if stage.andFINAL then
          match c.iterateCheck parentp side child Determ.SELF Stage.FINAL expDTypep
              ExtendRule.EXTEND_EXP true s1 with
          | .error e => .error e
          | .ok (_, s2) =>
            .ok ((), s2, evs1 ++ [Event.iterateCheck parentp side child Determ.SELF Stage.FINAL
              expDTypep ExtendRule.EXTEND_EXP true])
        else .ok ((), s1, evs1) := by
  simp only [iterateCheckTypedSelfPrelim, W.bind_apply, W.bind]
  cases prelimStage c stage underp s with
  | error e => rfl
  | ok out =>
    obtain ⟨child, s1, evs1⟩ := out
    cases hF : stage.andFINAL with
    | false => simp [W.pure]
    | true =>
      simp only [if_true, W.bind_apply, W.bind, W.call]
      cases c.iterateCheck parentp side child Determ.SELF Stage.FINAL expDTypep
          ExtendRule.EXTEND_EXP true s1 with
      | error e => rfl
      | ok out2 => obtain ⟨r, s2⟩ := out2; simp [W.pure]

/-- C6: for every parent, child, expected type and stage, a run of
`iterateCheckTypedSelfPrelim` returns exactly when its calls return, and then:
the self-determined PRELIM visit of the child is made if and only if the stage
contains PRELIM; `iterateCheck(parent, side, child1, SELF, FINAL, expectedType,
EXTEND_EXP, true)` is called if and only if the stage contains FINAL, after the
visit and in the state the visit left (with `m_vup` restored), `child1` being
the node the visit returned (the child itself when there was no visit).  With
stage PRELIM alone no call of `iterateCheck` is made. -/
theorem iterateCheckTypedSelfPrelim_calls (c : Collaborators) (parentp : NodeId)
    (side : String) (underp : NodeId) (expDTypep : Option DTypeId) (stage : Stage)
    (s : WidthVisitor) :
    (∀ s2 evs,
      iterateCheckTypedSelfPrelim c parentp side (some underp) expDTypep stage s
          = .ok ((), s2, evs) ↔
        ∃ child1 s1 evs1,
          (if stage.andPRELIM then
            (∃ s0, c.iterateSubtreeReturnEdits underp
                { s with m_vup := some { m_dtypep := none, m_stage := Stage.PRELIM } }
                  = .ok (child1, s0) ∧
              s1 = { s0 with m_vup := s.m_vup }) ∧
            evs1 = [Event.iterateSubtreeReturnEdits underp
              (some { m_dtypep := none, m_stage := Stage.PRELIM })]
          else child1 = some underp ∧ s1 = s ∧ evs1 = []) ∧
          (if stage.andFINAL then
            (∃ ret, c.iterateCheck parentp side child1 Determ.SELF Stage.FINAL expDTypep
                ExtendRule.EXTEND_EXP true s1 = .ok (ret, s2)) ∧
            evs = evs1 ++ [Event.iterateCheck parentp side child1 Determ.SELF Stage.FINAL
              expDTypep ExtendRule.EXTEND_EXP true]
          else s2 = s1 ∧ evs = evs1)) ∧
    (stage.andPRELIM = true ↔ (stage = Stage.PRELIM ∨ stage = Stage.BOTH)) ∧
    (stage.andFINAL = true ↔ (stage = Stage.FINAL ∨ stage = Stage.BOTH)) ∧
    (stage = Stage.PRELIM →
      ∀ r s2 evs,
        iterateCheckTypedSelfPrelim c parentp side (some underp) expDTypep stage s
            = .ok (r, s2, evs) →
          ∀ e ∈ evs, e.isIterateCheck = false) := by
  have key : ∀ s2 evs,
      iterateCheckTypedSelfPrelim c parentp side (some underp) expDTypep stage s
          = .ok ((), s2, evs) ↔
        ∃ child1 s1 evs1,
          (if stage.andPRELIM then
            (∃ s0, c.iterateSubtreeReturnEdits underp
                { s with m_vup := some { m_dtypep := none, m_stage := Stage.PRELIM } }
                  = .ok (child1, s0) ∧
              s1 = { s0 with m_vup := s.m_vup }) ∧
            evs1 = [Event.iterateSubtreeReturnEdits underp
              (some { m_dtypep := none, m_stage := Stage.PRELIM })]
          else child1 = some underp ∧ s1 = s ∧ evs1 = []) ∧
          (if stage.andFINAL then
            (∃ ret, c.iterateCheck parentp side child1 Determ.SELF Stage.FINAL expDTypep
                ExtendRule.EXTEND_EXP true s1 = .ok (ret, s2)) ∧
            evs = evs1 ++ [Event.iterateCheck parentp side child1 Determ.SELF Stage.FINAL
              expDTypep ExtendRule.EXTEND_EXP true]
          else s2 = s1 ∧ evs = evs1) := by
    intro s2 evs
    rw [iterateCheckTypedSelfPrelim_run]
    cases hP : stage.andPRELIM with
    | false =>
      rw [prelimStage_skip c stage (some underp) s hP]
      simp only [Bool.false_eq_true, if_false]
      cases hF : stage.andFINAL with
      | false =>
        simp only [Bool.false_eq_true, if_false]
        constructor
        · intro h
          cases h
          exact ⟨_, _, _, ⟨rfl, rfl, rfl⟩, rfl, rfl⟩
        · rintro ⟨_, _, _, ⟨rfl, rfl, rfl⟩, rfl, rfl⟩
          rfl
      | true =>
        simp only [if_true]
        cases hc : c.iterateCheck parentp side (some underp) Determ.SELF Stage.FINAL expDTypep
            ExtendRule.EXTEND_EXP true s with
        | error e =>
          constructor
          · intro h; cases h
          · rintro ⟨_, _, _, ⟨rfl, rfl, rfl⟩, ⟨ret, h⟩, _⟩
            rw [hc] at h; cases h
        | ok out =>
          obtain ⟨ret, s3⟩ := out
          constructor
          · intro h
            cases h
            exact ⟨_, _, _, ⟨rfl, rfl, rfl⟩, ⟨ret, hc⟩, rfl⟩
          · rintro ⟨_, _, _, ⟨rfl, rfl, rfl⟩, ⟨ret2, h⟩, rfl⟩
            rw [hc] at h; cases h; rfl
    | true =>
      rw [prelimStage_visit c stage underp s hP]
      simp only [if_true]
      cases hv : c.iterateSubtreeReturnEdits underp
          { s with m_vup := some { m_dtypep := none, m_stage := Stage.PRELIM } } with
      | error e =>
        constructor
        · intro h; cases h
        · rintro ⟨_, _, _, ⟨⟨s0, h, _⟩, _⟩, _⟩
          cases h
      | ok outv =>
        obtain ⟨child, s0⟩ := outv
        cases hF : stage.andFINAL with
        | false =>
          simp only [Bool.false_eq_true, if_false]
          constructor
          · intro h
            cases h
            exact ⟨_, _, _, ⟨⟨s0, rfl, rfl⟩, rfl⟩, rfl, rfl⟩
          · rintro ⟨_, _, _, ⟨⟨s0, h, rfl⟩, rfl⟩, rfl, rfl⟩
            cases h; rfl
        | true =>
          simp only [if_true]
          cases hc : c.iterateCheck parentp side child Determ.SELF Stage.FINAL expDTypep
              ExtendRule.EXTEND_EXP true { s0 with m_vup := s.m_vup } with
          | error e =>
            constructor
            · intro h; cases h
            · rintro ⟨_, _, _, ⟨⟨s0, h, rfl⟩, rfl⟩, ⟨ret, h2⟩, _⟩
              cases h
              rw [hc] at h2; cases h2
          | ok out =>
            obtain ⟨ret, s3⟩ := out
            constructor
            · intro h
              cases h
              exact ⟨_, _, _, ⟨⟨s0, rfl, rfl⟩, rfl⟩, ⟨ret, hc⟩, rfl⟩
            · rintro ⟨_, _, _, ⟨⟨s0, h, rfl⟩, rfl⟩, ⟨ret2, h2⟩, rfl⟩
              cases h
              rw [hc] at h2; cases h2; rfl
  refine ⟨key, stage_andPRELIM stage, stage_andFINAL stage, ?_⟩
  rintro rfl r s2 evs h e he
  obtain ⟨child1, s1, evs1, h1, h2⟩ := (key s2 evs).1 h
  have hP : Stage.PRELIM.andPRELIM = true := rfl
  have hF : Stage.PRELIM.andFINAL = false := rfl
  simp only [hP, hF, if_true, Bool.false_eq_true, if_false] at h1 h2
  obtain ⟨_, rfl⟩ := h1
  obtain ⟨_, rfl⟩ := h2
  simp only [List.mem_singleton] at he
  subst he
  rfl

/-- Witness of C6: with stage BOTH on node 2 of `demoTree` and a rule set that
changes nothing, the prelim visit is followed by the one `iterateCheck` call. -/
theorem iterateCheckTypedSelfPrelim_calls_witness :
    iterateCheckTypedSelfPrelim Collaborators.inert 0 "LHS" (some 2) (some 9) Stage.BOTH demoTree =
      .ok ((), demoTree,
        [Event.iterateSubtreeReturnEdits 2 (some { m_dtypep := none, m_stage := Stage.PRELIM }),
          Event.iterateCheck 0 "LHS" (some 2) Determ.SELF Stage.FINAL (some 9)
            ExtendRule.EXTEND_EXP true]) := by
  refine ((iterateCheckTypedSelfPrelim_calls Collaborators.inert 0 "LHS" 2 (some 9) Stage.BOTH
    demoTree).1 demoTree _).2 ⟨some 2, demoTree,
      [Event.iterateSubtreeReturnEdits 2 (some { m_dtypep := none, m_stage := Stage.PRELIM })],
      ?_, ?_⟩
  · rw [if_pos (show Stage.BOTH.andPRELIM = true from rfl)]
    exact ⟨⟨_, rfl, rfl⟩, rfl⟩
  · rw [if_pos (show Stage.BOTH.andFINAL = true from rfl)]
    exact ⟨⟨some 2, rfl⟩, rfl⟩

theorem callFind_bind {β : Type} (ev : Event) (f : WidthVisitor → DTypeId × WidthVisitor)
    (k : DTypeId → W β) (s : WidthVisitor) :
    (W.callFind ev f >>= k) s =
      match k (f s).1 (f s).2 with
      | .error e => .error e
      | .ok (r, s1, evs) => .ok (r, s1, ev :: evs) := by
  simp only [W.bind_apply, W.bind, W.callFind]
  cases k (f s).1 (f s).2 with
  | error e => rfl
  | ok out => obtain ⟨r, s1, evs⟩ := out; simp

/-- C7: `iterateCheckReal`, `iterateCheckSigned8`, `iterateCheckSigned32` and
`iterateCheckUInt32` are each equal, for every parent, side label, child and
stage, to `iterateCheckTypedSelfPrelim` called with the same arguments and the
fixed expected type the registry gives for double, signed 8-bit, signed 32-bit
and unsigned 32-bit respectively; apart from that registry request they make no
call and take no decision of their own. -/
theorem iterateCheck_fixed_type_wrappers (c : Collaborators) (parentp : NodeId)
    (side : String) (underp : Option NodeId) (stage : Stage) :
    iterateCheckReal c parentp side underp stage =
      specFixedTypeWrapper c.findDoubleDType Event.findDoubleDType c parentp side underp stage ∧
    iterateCheckSigned8 c parentp side underp stage =
      specFixedTypeWrapper c.findSigned8DType Event.findSigned8DType c parentp side underp
        stage ∧
    iterateCheckSigned32 c parentp side underp stage =
      specFixedTypeWrapper c.findSigned32DType Event.findSigned32DType c parentp side underp
        stage ∧
    iterateCheckUInt32 c parentp side underp stage =
      specFixedTypeWrapper c.findUInt32DType Event.findUInt32DType c parentp side underp
        stage := by
  refine ⟨?_, ?_, ?_, ?_⟩ <;>
  · funext s
    simp only [iterateCheckReal, iterateCheckSigned8, iterateCheckSigned32, iterateCheckUInt32,
      specFixedTypeWrapper]
    rw [callFind_bind]
    split <;> simp_all

end Wrappers

/-! ### C8, C9: the delay wrapper -/

section Delay

theorem iterateCheckDelay_prelim_only (c : Collaborators) (parentp : NodeId) (side : String)
    (underp : Option NodeId) (stage : Stage) (s : WidthVisitor)
    (hF : stage.andFINAL = false) :
    iterateCheckDelay c parentp side underp stage s =
      match prelimStage c stage underp s with
      | .error e => .error e
      | .ok (_, s1, evs1) => .ok ((), s1, evs1) := by
  simp only [iterateCheckDelay, W.bind_apply, W.bind, hF]
  cases prelimStage c stage underp s with
  | error e => rfl
  | ok out => obtain ⟨child, s1, evs1⟩ := out; simp [W.pure]

theorem iterateCheckDelay_final (c : Collaborators) (parentp : NodeId) (side : String)
    (underp : Option NodeId) (stage : Stage) (s : WidthVisitor)
    (hF : stage.andFINAL = true) :
    iterateCheckDelay c parentp side underp stage s =
      match prelimStage c stage underp s with
      | .error e => .error e
      | .ok (none, _, _) => .error "null pointer dereference"
      | .ok (some u, s1, evs1) =>
        match (s1.node u).dtypep with
        | none => .error "null pointer dereference"
        | some dtp =>
          if (s1.dtype (s1.dtype dtp).skipRefp).isDouble then
            match c.iterateCheck parentp side (some u) Determ.SELF Stage.FINAL
                (some (c.findDoubleDType parentp s1).1) ExtendRule.EXTEND_EXP false
                (c.findDoubleDType parentp s1).2 with
            | .error e => .error e
            | .ok (_, s2) =>
              .ok ((), s2, evs1 ++ [Event.findDoubleDType parentp,
                Event.iterateCheck parentp side (some u) Determ.SELF Stage.FINAL
                  (some (c.findDoubleDType parentp s1).1) ExtendRule.EXTEND_EXP false])
          else
            match c.iterateCheck parentp side (some u) Determ.SELF Stage.FINAL
                (some (c.findLogicDType parentp 64 64 VSigning.UNSIGNED
                  (delayWarnOffExpand u s1)).1) ExtendRule.EXTEND_EXP false
                (c.findLogicDType parentp 64 64 VSigning.UNSIGNED (delayWarnOffExpand u s1)).2 with
            | .error e => .error e
            | .ok (_, s2) =>
              .ok ((), s2, evs1 ++ [Event.findLogicDType parentp 64 64 VSigning.UNSIGNED,
                Event.iterateCheck parentp side (some u) Determ.SELF Stage.FINAL
                  (some (c.findLogicDType parentp 64 64 VSigning.UNSIGNED
                    (delayWarnOffExpand u s1)).1) ExtendRule.EXTEND_EXP false]) := by
  simp only [iterateCheckDelay, W.bind_apply, W.bind, hF, if_true]
  cases prelimStage c stage underp s with
  | error e => rfl
  | ok out =>
    obtain ⟨child, s1, evs1⟩ := out
    cases child with
    | none => rfl
    | some u =>
      cases hd : (s1.node u).dtypep with
      | none => simp [W.deref, W.pure, W.get, W.fatal, hd]
      | some dtp =>
        cases hD : (s1.dtype (s1.dtype dtp).skipRefp).isDouble with
        | true =>
          simp only [W.deref, W.pure, W.get, hd, hD, if_true, W.callFind, W.call, W.bind_apply,
            W.bind]
          cases c.iterateCheck parentp side (some u) Determ.SELF Stage.FINAL
                (some (c.findDoubleDType parentp s1).1) ExtendRule.EXTEND_EXP false
                (c.findDoubleDType parentp s1).2 with
          | error e => rfl
          | ok out2 => obtain ⟨r, s2⟩ := out2; simp
        | false =>
          simp only [W.deref, W.pure, W.get, hd, hD, Bool.false_eq_true, if_false, W.callFind,
            W.call, W.bind_apply, W.bind, W.modify]
          cases c.iterateCheck parentp side (some u) Determ.SELF Stage.FINAL
                (some (c.findLogicDType parentp 64 64 VSigning.UNSIGNED
                  (delayWarnOffExpand u s1)).1) ExtendRule.EXTEND_EXP false
                (c.findLogicDType parentp 64 64 VSigning.UNSIGNED (delayWarnOffExpand u s1)).2 with
          | error e => rfl
          | ok out2 => obtain ⟨r, s2⟩ := out2; simp

theorem prelimStage_events (c : Collaborators) (stage : Stage) (n : NodeId)
    (s : WidthVisitor) (child : Option NodeId) (s1 : WidthVisitor) (evs1 : List Event)
    (h : prelimStage c stage (some n) s = .ok (child, s1, evs1)) :
    ∀ e ∈ evs1, e.isIterateCheck = false := by
  cases hP : stage.andPRELIM with
  | false =>
    rw [prelimStage_skip c stage (some n) s hP] at h
    cases h
    simp
  | true =>
    rw [prelimStage_visit c stage n s hP] at h
    cases hv : c.iterateSubtreeReturnEdits n
        { s with m_vup := some { m_dtypep := none, m_stage := Stage.PRELIM } } with
    | error e => rw [hv] at h; cases h
    | ok out =>
      obtain ⟨ret, s0⟩ := out
      rw [hv] at h
      cases h
      intro e he
      simp only [List.mem_singleton] at he
      subst he
      rfl

/-- C8: in the FINAL stage of `iterateCheckDelay` the expected type handed to
`iterateCheck` is the registry's double descriptor if and only if the child's
effective type (its descriptor behind `skipRefp()`) is double, and otherwise the
registry's answer to `findLogicDType(64, 64, UNSIGNED)`; in both cases
`iterateCheck` is called with `SELF`, `FINAL`, `EXTEND_EXP` and warnings off, on
the child the prelim stage returned, and the run returns exactly when these
calls return.  When the stage holds no FINAL bit (PRELIM alone) no call of
`iterateCheck` is made. -/
theorem iterateCheckDelay_expected_type (c : Collaborators) (parentp : NodeId)
    (side : String) (underp : NodeId) (stage : Stage) (s : WidthVisitor) :
    (stage.andFINAL = true →
      ∀ s2 evs,
        iterateCheckDelay c parentp side (some underp) stage s = .ok ((), s2, evs) ↔
          ∃ u s1 evs1 dtp,
            prelimStage c stage (some underp) s = .ok (some u, s1, evs1) ∧
            (s1.node u).dtypep = some dtp ∧
            ∃ expDTypep sR findEv ret,
              (if (s1.dtype (s1.dtype dtp).skipRefp).isDouble then
                  expDTypep = (c.findDoubleDType parentp s1).1 ∧
                  sR = (c.findDoubleDType parentp s1).2 ∧
                  findEv = Event.findDoubleDType parentp
                else
                  expDTypep = (c.findLogicDType parentp 64 64 VSigning.UNSIGNED
                    (delayWarnOffExpand u s1)).1 ∧
                  sR = (c.findLogicDType parentp 64 64 VSigning.UNSIGNED
                    (delayWarnOffExpand u s1)).2 ∧
                  findEv = Event.findLogicDType parentp 64 64 VSigning.UNSIGNED) ∧
              c.iterateCheck parentp side (some u) Determ.SELF Stage.FINAL (some expDTypep)
                ExtendRule.EXTEND_EXP false sR = .ok (ret, s2) ∧
              evs = evs1 ++ [findEv,
                Event.iterateCheck parentp side (some u) Determ.SELF Stage.FINAL
                  (some expDTypep) ExtendRule.EXTEND_EXP false]) ∧
    (stage.andFINAL = false →
      ∀ r s2 evs,
        iterateCheckDelay c parentp side (some underp) stage s = .ok (r, s2, evs) →
          ∀ e ∈ evs, e.isIterateCheck = false) := by
  constructor
  · intro hF s2 evs
    rw [iterateCheckDelay_final c parentp side (some underp) stage s hF]
    generalize hp : prelimStage c stage (some underp) s = p
    cases p with
    | error e =>
      constructor
      · intro h; cases h
      · rintro ⟨_, _, _, _, h, _⟩; cases h
    | ok out =>
      obtain ⟨child, s1, evs1⟩ := out
      cases child with
      | none =>
        constructor
        · intro h; cases h
        · rintro ⟨_, _, _, _, h, _⟩; cases h
      | some u =>
        dsimp only
        cases hd : (s1.node u).dtypep with
        | none =>
          dsimp only
          constructor
          · intro h; cases h
          · rintro ⟨_, _, _, _, h, h2, _⟩
            cases h
            rw [hd] at h2; cases h2
        | some dtp =>
          dsimp only
          cases hD : (s1.dtype (s1.dtype dtp).skipRefp).isDouble with
          | true =>
            simp only [if_true]
            cases hc : c.iterateCheck parentp side (some u) Determ.SELF Stage.FINAL
                (some (c.findDoubleDType parentp s1).1) ExtendRule.EXTEND_EXP false
                (c.findDoubleDType parentp s1).2 with
            | error e =>
              constructor
              · intro h; cases h
              · rintro ⟨_, _, _, _, h, h2, _, _, _, _, h3, h4, _⟩
                cases h
                rw [hd] at h2; cases h2
                rw [hD] at h3
                simp only [if_true] at h3
                obtain ⟨rfl, rfl, rfl⟩ := h3
                rw [hc] at h4; cases h4
            | ok out2 =>
              obtain ⟨ret, s3⟩ := out2
              constructor
              · intro h
                cases h
                refine ⟨u, s1, evs1, dtp, rfl, hd, _, _, _, ret, ?_, hc, rfl⟩
                rw [hD]
                exact ⟨rfl, rfl, rfl⟩
              · rintro ⟨_, _, _, _, h, h2, _, _, _, _, h3, h4, rfl⟩
                cases h
                rw [hd] at h2; cases h2
                rw [hD] at h3
                simp only [if_true] at h3
                obtain ⟨rfl, rfl, rfl⟩ := h3
                rw [hc] at h4; cases h4
                rfl
          | false =>
            simp only [Bool.false_eq_true, if_false]
            cases hc : c.iterateCheck parentp side (some u) Determ.SELF Stage.FINAL
                (some (c.findLogicDType parentp 64 64 VSigning.UNSIGNED
                  (delayWarnOffExpand u s1)).1) ExtendRule.EXTEND_EXP false
                (c.findLogicDType parentp 64 64 VSigning.UNSIGNED (delayWarnOffExpand u s1)).2 with
            | error e =>
              constructor
              · intro h; cases h
              · rintro ⟨_, _, _, _, h, h2, _, _, _, _, h3, h4, _⟩
                cases h
                rw [hd] at h2; cases h2
                rw [hD] at h3
                simp only [Bool.false_eq_true, if_false] at h3
                obtain ⟨rfl, rfl, rfl⟩ := h3
                rw [hc] at h4; cases h4
            | ok out2 =>
              obtain ⟨ret, s3⟩ := out2
              constructor
              · intro h
                cases h
                refine ⟨u, s1, evs1, dtp, rfl, hd, _, _, _, ret, ?_, hc, rfl⟩
                rw [hD]
                exact ⟨rfl, rfl, rfl⟩
              · rintro ⟨_, _, _, _, h, h2, _, _, _, _, h3, h4, rfl⟩
                cases h
                rw [hd] at h2; cases h2
                rw [hD] at h3
                simp only [Bool.false_eq_true, if_false] at h3
                obtain ⟨rfl, rfl, rfl⟩ := h3
                rw [hc] at h4; cases h4
                rfl
  · intro hF r s2 evs h
    rw [iterateCheckDelay_prelim_only c parentp side (some underp) stage s hF] at h
    generalize hp : prelimStage c stage (some underp) s = p at h
    cases p with
    | error e => cases h
    | ok out =>
      obtain ⟨child, s1, evs1⟩ := out
      cases h
      exact prelimStage_events c stage underp s child s2 evs hp

/-- Witness of C8: the delay coercion of node 2 of `demoTree` (not double), stage
BOTH, asks the registry for the 64-bit unsigned vector and calls `iterateCheck`
with warnings off; that of node 1 (double), stage FINAL, asks for double. -/
theorem iterateCheckDelay_expected_type_witness :
    iterateCheckDelay Collaborators.inert 0 "delay" (some 2) Stage.BOTH demoTree =
      .ok ((), delayWarnOffExpand 2 demoTree,
        [Event.iterateSubtreeReturnEdits 2 (some { m_dtypep := none, m_stage := Stage.PRELIM }),
          Event.findLogicDType 0 64 64 VSigning.UNSIGNED,
          Event.iterateCheck 0 "delay" (some 2) Determ.SELF Stage.FINAL (some 8)
            ExtendRule.EXTEND_EXP false]) ∧
    iterateCheckDelay Collaborators.inert 0 "delay" (some 1) Stage.FINAL demoTree =
      .ok ((), demoTree,
        [Event.findDoubleDType 0,
          Event.iterateCheck 0 "delay" (some 1) Determ.SELF Stage.FINAL (some 1)
            ExtendRule.EXTEND_EXP false]) := by
  constructor
  · refine ((iterateCheckDelay_expected_type Collaborators.inert 0 "delay" 2 Stage.BOTH
      demoTree).1 rfl _ _).2 ⟨2, demoTree,
        [Event.iterateSubtreeReturnEdits 2 (some { m_dtypep := none, m_stage := Stage.PRELIM })],
        2, rfl, rfl, 8, delayWarnOffExpand 2 demoTree,
        Event.findLogicDType 0 64 64 VSigning.UNSIGNED, some 2, ?_, rfl, rfl⟩
    rw [if_neg (by decide)]
    exact ⟨rfl, rfl, rfl⟩
  · refine ((iterateCheckDelay_expected_type Collaborators.inert 0 "delay" 1 Stage.FINAL
      demoTree).1 rfl _ _).2 ⟨1, demoTree, [], 1, rfl, rfl, 1, demoTree,
        Event.findDoubleDType 0, some 1, ?_, rfl, rfl⟩
    rw [if_pos (by decide)]
    exact ⟨rfl, rfl, rfl⟩

end Delay

section DelayLocation

theorem delayWarnOffExpand_props (u : NodeId) (s1 : WidthVisitor) :
    ((delayWarnOffExpand u s1).node u).fileline = s1.fileLineNext ∧
    (delayWarnOffExpand u s1).fileLineNext = s1.fileLineNext + 1 ∧
    (delayWarnOffExpand u s1).fileLine s1.fileLineNext =
      (s1.fileLine (s1.node u).fileline).warnOff V3ErrorCode.WIDTHEXPAND true ∧
    (∀ fl, fl ≠ s1.fileLineNext → (delayWarnOffExpand u s1).fileLine fl = s1.fileLine fl) ∧
    (∀ m, m ≠ u → (delayWarnOffExpand u s1).node m = s1.node m) ∧
    ((delayWarnOffExpand u s1).node u).isNodeExpr = (s1.node u).isNodeExpr ∧
    ((delayWarnOffExpand u s1).node u).dtypep = (s1.node u).dtypep ∧
    ((delayWarnOffExpand u s1).node u).didWidth = (s1.node u).didWidth ∧
    (delayWarnOffExpand u s1).m_vup = s1.m_vup ∧
    (delayWarnOffExpand u s1).dtype = s1.dtype ∧
    (delayWarnOffExpand u s1).diags = s1.diags := by
  refine ⟨?_, rfl, ?_, ?_, ?_, ?_, ?_, ?_, rfl, rfl, rfl⟩
  · simp [delayWarnOffExpand, newFileLine]
  · simp [delayWarnOffExpand, newFileLine]
  · intro fl hfl
    simp [delayWarnOffExpand, newFileLine, Function.update, hfl]
  · intro m hm
    simp [delayWarnOffExpand, newFileLine, Function.update, hm]
  · simp [delayWarnOffExpand, newFileLine]
  · simp [delayWarnOffExpand, newFileLine]
  · simp [delayWarnOffExpand, newFileLine]

/-- C9: when `iterateCheckDelay` runs its FINAL stage on a child whose effective
type is not double, the registry and the coercion run in the state in which the
child's location pointer is a fresh location object, a copy of the child's
former location on which exactly `WIDTHEXPAND` is switched off (every other
warning setting, the file name and the line are as before); every location
object that existed before is unchanged and every other node keeps its location
pointer, so nodes sharing the original object are unaffected.  When the child is
double the registry and the coercion run in the state the prelim stage left, and
when the stage is PRELIM alone the run ends in that state: the child's location
is not touched. -/
theorem iterateCheckDelay_fileline (c : Collaborators) (parentp : NodeId) (side : String)
    (underp : NodeId) (stage : Stage) (s : WidthVisitor) (u : NodeId) (s1 : WidthVisitor)
    (evs1 : List Event) (dtp : DTypeId)
    (hPre : prelimStage c stage (some underp) s = .ok (some u, s1, evs1))
    (hDt : (s1.node u).dtypep = some dtp) :
    (stage.andFINAL = true → (s1.dtype (s1.dtype dtp).skipRefp).isDouble = false →
      iterateCheckDelay c parentp side (some underp) stage s =
        (match c.iterateCheck parentp side (some u) Determ.SELF Stage.FINAL
            (some (c.findLogicDType parentp 64 64 VSigning.UNSIGNED
              (delayWarnOffExpand u s1)).1) ExtendRule.EXTEND_EXP false
            (c.findLogicDType parentp 64 64 VSigning.UNSIGNED (delayWarnOffExpand u s1)).2 with
          | .error e => .error e
          | .ok (_, s2) =>
            .ok ((), s2, evs1 ++ [Event.findLogicDType parentp 64 64 VSigning.UNSIGNED,
              Event.iterateCheck parentp side (some u) Determ.SELF Stage.FINAL
                (some (c.findLogicDType parentp 64 64 VSigning.UNSIGNED
                  (delayWarnOffExpand u s1)).1) ExtendRule.EXTEND_EXP false])) ∧
      ((delayWarnOffExpand u s1).node u).fileline = s1.fileLineNext ∧
      (delayWarnOffExpand u s1).fileLine s1.fileLineNext =
        (s1.fileLine (s1.node u).fileline).warnOff V3ErrorCode.WIDTHEXPAND true ∧
      ((delayWarnOffExpand u s1).fileLine s1.fileLineNext).warnIsOff V3ErrorCode.WIDTHEXPAND
        = true ∧
      (∀ code, code ≠ V3ErrorCode.WIDTHEXPAND →
        ((delayWarnOffExpand u s1).fileLine s1.fileLineNext).warnIsOff code =
          (s1.fileLine (s1.node u).fileline).warnIsOff code) ∧
      ((delayWarnOffExpand u s1).fileLine s1.fileLineNext).filename =
        (s1.fileLine (s1.node u).fileline).filename ∧
      ((delayWarnOffExpand u s1).fileLine s1.fileLineNext).lineno =
        (s1.fileLine (s1.node u).fileline).lineno ∧
      (∀ fl, fl ≠ s1.fileLineNext → (delayWarnOffExpand u s1).fileLine fl = s1.fileLine fl) ∧
      (∀ m, m ≠ u → (delayWarnOffExpand u s1).node m = s1.node m) ∧
      (∀ m, m ≠ u → (s1.node m).fileline < s1.fileLineNext →
        (delayWarnOffExpand u s1).fileLine ((delayWarnOffExpand u s1).node m).fileline =
          s1.fileLine (s1.node m).fileline) ∧
      ((delayWarnOffExpand u s1).node u).dtypep = (s1.node u).dtypep ∧
      ((delayWarnOffExpand u s1).node u).isNodeExpr = (s1.node u).isNodeExpr ∧
      ((delayWarnOffExpand u s1).node u).didWidth = (s1.node u).didWidth ∧
      (delayWarnOffExpand u s1).dtype = s1.dtype ∧
      (delayWarnOffExpand u s1).diags = s1.diags ∧
      (delayWarnOffExpand u s1).m_vup = s1.m_vup) ∧
    (stage.andFINAL = true → (s1.dtype (s1.dtype dtp).skipRefp).isDouble = true →
      iterateCheckDelay c parentp side (some underp) stage s =
        (match c.iterateCheck parentp side (some u) Determ.SELF Stage.FINAL
            (some (c.findDoubleDType parentp s1).1) ExtendRule.EXTEND_EXP false
            (c.findDoubleDType parentp s1).2 with
          | .error e => .error e
          | .ok (_, s2) =>
            .ok ((), s2, evs1 ++ [Event.findDoubleDType parentp,
              Event.iterateCheck parentp side (some u) Determ.SELF Stage.FINAL
                (some (c.findDoubleDType parentp s1).1) ExtendRule.EXTEND_EXP false]))) ∧
    (stage.andFINAL = false →
      iterateCheckDelay c parentp side (some underp) stage s = .ok ((), s1, evs1)) := by
  obtain ⟨p1, -, p3, p4, p5, p6, p7, p8, p9, p10, p11⟩ := delayWarnOffExpand_props u s1
  refine ⟨?_, ?_, ?_⟩
  · intro hF hD
    refine ⟨?_, p1, p3, ?_, ?_, ?_, ?_, p4, p5, ?_, p7, p6, p8, p10, p11, p9⟩
    · rw [iterateCheckDelay_final c parentp side (some underp) stage s hF, hPre]
      simp only [hDt, hD, Bool.false_eq_true, if_false]
    · rw [p3]; simp [FileLine.warnOff]
    · intro code hcode
      rw [p3]; simp [FileLine.warnOff, hcode]
    · rw [p3]; rfl
    · rw [p3]; rfl
    · intro m hm hlt
      rw [p5 m hm, p4 _ (Nat.ne_of_lt hlt)]
  · intro hF hD
    rw [iterateCheckDelay_final c parentp side (some underp) stage s hF, hPre]
    simp only [hDt, hD, if_true]
  · intro hF
    rw [iterateCheckDelay_prelim_only c parentp side (some underp) stage s hF, hPre]

/-- Witness of C9: the delay coercion of node 2 of `demoTree` (a 16-bit vector),
stage BOTH: the child gets the fresh location 1, on which `WIDTHEXPAND` is off
while it stays on at the shared location 0, which nodes 1 and 3 still use. -/
theorem iterateCheckDelay_fileline_witness :
    ((delayWarnOffExpand 2 demoTree).node 2).fileline = 1 ∧
    ((delayWarnOffExpand 2 demoTree).fileLine 1).warnIsOff V3ErrorCode.WIDTHEXPAND = true ∧
    ((delayWarnOffExpand 2 demoTree).fileLine 0).warnIsOff V3ErrorCode.WIDTHEXPAND = false ∧
    ((delayWarnOffExpand 2 demoTree).node 3).fileline = 0 := by
  have h := (iterateCheckDelay_fileline Collaborators.inert 0 "delay" 2 Stage.BOTH demoTree 2
    demoTree [Event.iterateSubtreeReturnEdits 2 (some { m_dtypep := none, m_stage := Stage.PRELIM })]
    2 rfl rfl).1 rfl rfl
  refine ⟨h.2.1, h.2.2.2.1, ?_, ?_⟩
  · rw [h.2.2.2.2.2.2.2.1 0 (by decide)]; rfl
  · rw [h.2.2.2.2.2.2.2.2.1 3 (by decide)]; rfl

end DelayLocation

/-! ### C10: the sized self-determined wrapper -/

section SizedSelf

/-- C10: for determ `SELF` and stage `FINAL` or `BOTH`, when the prelim stage, the
unpacked-struct conversion check and the self-determined `iterateCheck` of the
child return, `iterateCheckSizedSelf` returns as well (the error is no abort);
it has called `iterateCheck(parent, side, child, SELF, FINAL, child's type,
EXTEND_EXP, true)` and, after that call, it has reported the user error
"Expected numeric type, but got a ... data type" at the parent, once, if and
only if the child's type (read after the conversion check, skipped to an enum)
is not integral-or-packed; otherwise it has reported nothing. -/
theorem iterateCheckSizedSelf_error_iff (c : Collaborators) (parentp : NodeId)
    (side : String) (underp : NodeId) (determ : Determ) (stage : Stage) (s : WidthVisitor)
    (child0 : Option NodeId) (s1 : WidthVisitor) (evs1 : List Event)
    (u : NodeId) (s2 : WidthVisitor) (evs2 : List Event) (e : DTypeId)
    (ret : Option NodeId) (s3 : WidthVisitor)
    (hDet : determ = Determ.SELF) (hSt : stage = Stage.FINAL ∨ stage = Stage.BOTH)
    (hPre : prelimStage c stage (some underp) s = .ok (child0, s1, evs1))
    (hCvt : checkCvtUSStep c false child0 s1 = .ok (some u, s2, evs2))
    (hDt : (s2.node u).dtypep = some e)
    (hChk : c.iterateCheck parentp side (some u) Determ.SELF Stage.FINAL (some e)
      ExtendRule.EXTEND_EXP true s2 = .ok (ret, s3)) :
    ∃ sF,
      iterateCheckSizedSelf c parentp side (some underp) determ stage s =
        .ok ((), sF, evs1 ++ evs2 ++
          [Event.iterateCheck parentp side (some u) Determ.SELF Stage.FINAL (some e)
            ExtendRule.EXTEND_EXP true]) ∧
      sF.diags = s3.diags ++
        (if (s3.dtype (s3.dtype e).skipRefToEnump).isIntegralOrPacked then []
         else [{ code := none, nodep := parentp,
                 msg := expectedNumericMsg
                   (s3.dtype (s3.dtype e).skipRefToEnump).prettyDTypeNameQ }]) ∧
      sF.node = s3.node ∧ sF.dtype = s3.dtype ∧ sF.fileLine = s3.fileLine ∧
      sF.fileLineNext = s3.fileLineNext ∧ sF.m_vup = s3.m_vup := by
  have hSt2 : (decide (stage = Stage.FINAL) || decide (stage = Stage.BOTH)) = true := by
    rcases hSt with h | h <;> simp [h]
  cases hI : (s3.dtype (s3.dtype e).skipRefToEnump).isIntegralOrPacked with
  | true =>
    refine ⟨s3, ?_, by simp, rfl, rfl, rfl, rfl, rfl⟩
    simp only [iterateCheckSizedSelf, UASSERT_OBJ, hDet, hSt2, W.bind_apply, W.bind, W.pure,
      decide_True, if_true, hPre, hCvt, W.deref, W.get, hDt, W.call, hChk, hI, Bool.not_true,
      Bool.false_eq_true, if_false, List.nil_append, List.append_nil, List.append_assoc]
  | false =>
    refine ⟨v3error parentp (expectedNumericMsg
      (s3.dtype (s3.dtype e).skipRefToEnump).prettyDTypeNameQ) s3, ?_, by simp [v3error],
      rfl, rfl, rfl, rfl, rfl⟩
    simp only [iterateCheckSizedSelf, UASSERT_OBJ, hDet, hSt2, W.bind_apply, W.bind, W.pure,
      decide_True, if_true, hPre, hCvt, W.deref, W.get, hDt, W.call, hChk, hI, Bool.not_false,
      W.modify, List.nil_append, List.append_nil, List.append_assoc]

/-- Witness of C10: node 3 of `demoTree` has the string type, which is not
integral-or-packed; with stage BOTH the error is reported once at parent 0,
after the prelim visit, the conversion check and `iterateCheck`. -/
theorem iterateCheckSizedSelf_error_iff_witness :
    ∃ sF,
      iterateCheckSizedSelf Collaborators.inert 0 "LHS" (some 3) Determ.SELF Stage.BOTH demoTree =
        .ok ((), sF,
          [Event.iterateSubtreeReturnEdits 3 (some { m_dtypep := none, m_stage := Stage.PRELIM }),
            Event.checkCvtUS 3 false,
            Event.iterateCheck 0 "LHS" (some 3) Determ.SELF Stage.FINAL (some 3)
              ExtendRule.EXTEND_EXP true]) ∧
      sF.diags = [{ code := none, nodep := 0,
                    msg := "Expected numeric type, but got a 'string' data type" }] := by
  obtain ⟨sF, h1, h2, -⟩ :=
    iterateCheckSizedSelf_error_iff Collaborators.inert 0 "LHS" 3 Determ.SELF Stage.BOTH demoTree
      (some 3) demoTree
      [Event.iterateSubtreeReturnEdits 3 (some { m_dtypep := none, m_stage := Stage.PRELIM })]
      3 demoTree [Event.checkCvtUS 3 false] 3 (some 3) demoTree
      rfl (Or.inr rfl) rfl rfl rfl rfl
  refine ⟨sF, h1, ?_⟩
  rw [h2]
  decide

end SizedSelf

/-! ### C11, C12: the visitors of the conversion nodes -/

section Conversions

theorem visitor_guard (c : Collaborators) (nodep : NodeId) (body : W Unit) (s : WidthVisitor) :
    (assertAtExpr c nodep >>= fun _ =>
      m_vup_prelim >>= fun b => if b = true then body else W.pure ()) s =
      match c.assertAtExpr nodep s with
      | .error e => .error e
      | .ok _ =>
        match s.m_vup with
        | none => .error "null pointer dereference"
        | some vup =>
          if vup.prelim = true then
            match body s with
            | .error e => .error e
            | .ok (r, s1, evs) => .ok (r, s1, Event.assertAtExpr nodep :: evs)
          else .ok ((), s, [Event.assertAtExpr nodep]) := by
  simp only [W.bind_apply, W.bind, assertAtExpr, m_vup_prelim, W.get]
  cases c.assertAtExpr nodep s with
  | error e => rfl
  | ok u =>
    cases hv : s.m_vup with
    | none => simp [W.deref, W.fatal, hv]
    | some vup =>
      cases hp : vup.prelim with
      | false => simp [W.deref, W.pure, hv, hp]
      | true =>
        simp only [W.deref, W.pure, if_true, List.nil_append, hv, hp, List.append_nil]
        cases body s with
        | error e => rfl
        | ok out => obtain ⟨r, s1, evs⟩ := out; simp

theorem dtypeSetDouble_run (c : Collaborators) (nodep : NodeId) (s : WidthVisitor) :
    dtypeSetDouble c nodep s =
      .ok ((), setDTypep nodep (some (c.findDoubleDType nodep s).1) (c.findDoubleDType nodep s).2,
        [Event.findDoubleDType nodep]) := by
  simp [dtypeSetDouble, W.bind_apply, W.bind, W.callFind, W.modify]

theorem dtypeSetSigned32_run (c : Collaborators) (nodep : NodeId) (s : WidthVisitor) :
    dtypeSetSigned32 c nodep s =
      .ok ((), setDTypep nodep (some (c.findSigned32DType nodep s).1)
        (c.findSigned32DType nodep s).2, [Event.findSigned32DType nodep]) := by
  simp [dtypeSetSigned32, W.bind_apply, W.bind, W.callFind, W.modify]

theorem dtypeSetUInt64_run (c : Collaborators) (nodep : NodeId) (s : WidthVisitor) :
    dtypeSetUInt64 c nodep s =
      .ok ((), setDTypep nodep (some (c.findUInt64DType nodep s).1)
        (c.findUInt64DType nodep s).2, [Event.findUInt64DType nodep]) := by
  simp [dtypeSetUInt64, W.bind_apply, W.bind, W.callFind, W.modify]

theorem bind_ok {α β : Type} (m : W α) (f : α → W β) (s s1 : WidthVisitor) (a : α)
    (ev1 : List Event) (h : m s = .ok (a, s1, ev1)) :
    (m >>= f) s =
      match f a s1 with
      | .error e => .error e
      | .ok (b, s2, ev2) => .ok (b, s2, ev1 ++ ev2) := by
  simp only [W.bind_apply, W.bind, h]

theorem bind_error {α β : Type} (m : W α) (f : α → W β) (s : WidthVisitor) (e : String)
    (h : m s = .error e) : (m >>= f) s = .error e := by
  simp only [W.bind_apply, W.bind, h]

theorem replaceByISToRD_run (s1 : WidthVisitor) (nodep lhsp parent : NodeId)
    (h : OperandSite s1 nodep lhsp parent) :
    replaceByISToRD nodep lhsp s1 =
      .ok ((), deleteTree nodep (replaceWithAt nodep s1.nodeNext parent
        (newAstISToRDState (s1.node nodep).fileline lhsp (unlinkFrBackFrom lhsp nodep s1))),
        []) := by
  obtain ⟨hb, hlb, hla, hne1, hne2, hne3, ⟨hn, hl, hp⟩, hnx⟩ := h
  have hn' : nodep ≠ s1.nodeNext := Nat.ne_of_lt hn
  have hl' : lhsp ≠ s1.nodeNext := Nat.ne_of_lt hl
  have e1 : unlinkFrBack lhsp s1 = .ok (lhsp, unlinkFrBackFrom lhsp nodep s1, []) := by
    simp [unlinkFrBack, hlb]
  have e2 : ((newAstISToRDState (s1.node nodep).fileline lhsp
      (unlinkFrBackFrom lhsp nodep s1)).node nodep).backp = some parent := by
    simp [newAstISToRDState, unlinkFrBackFrom, setBackOfNext, hla, Function.update, hne1,
      hne1.symm, hn', hb, AstNode.relink]
  have e3 : (unlinkFrBackFrom lhsp nodep s1).nodeNext = s1.nodeNext := by
    simp [unlinkFrBackFrom, setBackOfNext, hla]
  simp only [replaceByISToRD, W.bind_apply, W.bind, W.get, e1, newAstISToRD, replaceWith, e2, e3,
    W.modify, List.append_nil]

theorem replaceByISToRD_state (s1 : WidthVisitor) (nodep lhsp parent : NodeId)
    (h : OperandSite s1 nodep lhsp parent) (sF : WidthVisitor)
    (hF : sF = deleteTree nodep (replaceWithAt nodep s1.nodeNext parent
        (newAstISToRDState (s1.node nodep).fileline lhsp (unlinkFrBackFrom lhsp nodep s1)))) :
    sF.nodeNext = s1.nodeNext + 1 ∧
      (sF.node s1.nodeNext).type = VNType.ISToRD ∧
      (sF.node s1.nodeNext).op1p = some lhsp ∧
      (sF.node s1.nodeNext).backp = some parent ∧
      (sF.node s1.nodeNext).nextp = (s1.node nodep).nextp ∧
      (sF.node s1.nodeNext).fileline = (s1.node nodep).fileline ∧
      (sF.node lhsp).backp = some s1.nodeNext ∧
      (sF.node nodep).deleted = true ∧
      (sF.node nodep).backp = none ∧
      (sF.node parent).op1p =
        (if (s1.node parent).op1p = some nodep then some s1.nodeNext
          else (s1.node parent).op1p) ∧
      (sF.node parent).op2p =
        (if (s1.node parent).op2p = some nodep then some s1.nodeNext
          else (s1.node parent).op2p) ∧
      (sF.node parent).op3p =
        (if (s1.node parent).op3p = some nodep then some s1.nodeNext
          else (s1.node parent).op3p) ∧
      (sF.node parent).op4p =
        (if (s1.node parent).op4p = some nodep then some s1.nodeNext
          else (s1.node parent).op4p) ∧
      (sF.node parent).nextp =
        (if (s1.node parent).nextp = some nodep then some s1.nodeNext
          else (s1.node parent).nextp) := by
  obtain ⟨hb, hlb, hla, hne1, hne2, hne3, ⟨hn, hl, hp⟩, hnx⟩ := h
  have hn' : nodep ≠ s1.nodeNext := Nat.ne_of_lt hn
  have hl' : lhsp ≠ s1.nodeNext := Nat.ne_of_lt hl
  have hp' : parent ≠ s1.nodeNext := Nat.ne_of_lt hp
  subst hF
  cases hx : (s1.node nodep).nextp with
  | none =>
    simp [deleteTree, replaceWithAt, newAstISToRDState, unlinkFrBackFrom, setBackOfNext,
      Function.update, hne1, hne1.symm, hne2, hne2.symm, hne3, hne3.symm,
      hn', hn'.symm, hl', hl'.symm, hp', hp'.symm, AstNode.relink, hb, hx, hla]
  | some x =>
    obtain ⟨hx1, hx2, hx3⟩ := hnx x hx
    have hx' : x ≠ s1.nodeNext := Nat.ne_of_lt hx1
    by_cases hpx : parent = x
    · subst hpx
      simp [deleteTree, replaceWithAt, newAstISToRDState, unlinkFrBackFrom, setBackOfNext,
        Function.update, hne1, hne1.symm, hne2, hne2.symm, hne3, hne3.symm,
        hn', hn'.symm, hl', hl'.symm, hp', hp'.symm, AstNode.relink, hb, hx, hla]
    · have hpx2 : ¬ x = parent := fun h => hpx h.symm
      simp [deleteTree, replaceWithAt, newAstISToRDState, unlinkFrBackFrom, setBackOfNext,
        Function.update, hne1, hne1.symm, hne2, hne2.symm, hne3, hne3.symm,
        hn', hn'.symm, hl', hl'.symm, hp', hp'.symm, AstNode.relink, hb, hx, hla,
        hx2, hx2.symm, hx3, hx3.symm, hx', hx'.symm, hpx, hpx2]

theorem prelim_body_run (c : Collaborators) (nodep : NodeId) (s : WidthVisitor)
    (vup : WidthVP) (body : W Unit)
    (hA : c.assertAtExpr nodep s = .ok ()) (hV : s.m_vup = some vup) :
    (assertAtExpr c nodep >>= fun _ =>
      m_vup_prelim >>= fun b => if b = true then body else W.pure ()) s =
      if vup.prelim = true then
        match body s with
        | .error e => .error e
        | .ok (r, s1, evs) => .ok (r, s1, Event.assertAtExpr nodep :: evs)
      else .ok ((), s, [Event.assertAtExpr nodep]) := by
  rw [visitor_guard, hA]
  simp only [hV]

theorem visit_AstIToRD_run (c : Collaborators) (nodep : NodeId) (s : WidthVisitor)
    (vup : WidthVP) (s1 : WidthVisitor) (evs1 : List Event) (lhsp : NodeId)
    (hA : c.assertAtExpr nodep s = .ok ()) (hV : s.m_vup = some vup)
    (hP : vup.prelim = true)
    (hVisit : prelimOperandVisit c nodep
      (setDTypep nodep (some (c.findDoubleDType nodep s).1) (c.findDoubleDType nodep s).2)
        = .ok ((), s1, evs1))
    (hL : (s1.node nodep).op1p = some lhsp) :
    visit_AstIToRD c nodep s =
      if isSigned s1 lhsp = true then
        match replaceByISToRD nodep lhsp s1 with
        | .error e => .error e
        | .ok (_, sF, evs2) =>
          .ok ((), sF, Event.assertAtExpr nodep :: Event.findDoubleDType nodep :: (evs1 ++ evs2))
      else .ok ((), s1, Event.assertAtExpr nodep :: Event.findDoubleDType nodep :: evs1) := by
  unfold visit_AstIToRD
  rw [prelim_body_run c nodep s vup _ hA hV]
  simp only [hP, if_true]
  rw [bind_ok _ _ _ _ _ _ (dtypeSetDouble_run c nodep s)]
  rw [bind_ok _ _ _ _ _ _ hVisit]
  simp only [W.bind_apply, W.bind, W.get, hL, W.deref, W.pure, List.nil_append]
  cases hS : isSigned s1 lhsp with
  | false => simp [W.pure]
  | true =>
    simp only [if_true]
    cases replaceByISToRD nodep lhsp s1 with
    | error e => rfl
    | ok out => obtain ⟨r, sF, evs2⟩ := out; simp

theorem prelimOperandVisit_unfold (c : Collaborators) (nodep : NodeId) (t : WidthVisitor) :
    prelimOperandVisit c nodep t =
      userIterateAndNext c (t.node nodep).op1p
        (some { m_dtypep := none, m_stage := Stage.PRELIM }) t := by
  unfold prelimOperandVisit
  rw [bind_ok _ _ t t t [] rfl]
  have h : W.ofExcept (WidthVP.ofDeterm Determ.SELF Stage.PRELIM) t =
      .ok ({ m_dtypep := none, m_stage := Stage.PRELIM }, t, []) := rfl
  rw [bind_ok _ _ _ _ _ _ h]
  cases userIterateAndNext c (t.node nodep).op1p
      (some { m_dtypep := none, m_stage := Stage.PRELIM }) t with
  | error e => rfl
  | ok out => obtain ⟨r, s2, evs2⟩ := out; rfl

/-- Under the contract of the visitors, the prelim visit of the operand leaves
the kind and the descriptor of the node that holds the operand. -/
theorem prelimOperandVisit_keeps (c : Collaborators) (hH : VisitKeepsHolder c)
    (nodep : NodeId) (t s1 : WidthVisitor) (evs1 : List Event)
    (hVisit : prelimOperandVisit c nodep t = .ok ((), s1, evs1))
    (hAlloc : nodep < t.nodeNext) :
    (s1.node nodep).type = (t.node nodep).type ∧
    (s1.node nodep).dtypep = (t.node nodep).dtypep ∧
    t.nodeNext ≤ s1.nodeNext := by
  rw [prelimOperandVisit_unfold] at hVisit
  cases hop : (t.node nodep).op1p with
  | none =>
    rw [hop] at hVisit
    cases hVisit
    exact ⟨rfl, rfl, Nat.le_refl _⟩
  | some n =>
    rw [hop] at hVisit
    cases hd : (t.node n).didWidth with
    | true =>
      rw [userIterateAndNext_didWidth c n _ t hd] at hVisit
      cases hVisit
      exact ⟨rfl, rfl, Nat.le_refl _⟩
    | false =>
      rw [userIterateAndNext_some c n _ t hd] at hVisit
      cases hr : c.iterateAndNextNull n
          { t with m_vup := some { m_dtypep := none, m_stage := Stage.PRELIM } } with
      | error e => rw [hr] at hVisit; cases hVisit
      | ok st2 =>
        rw [hr] at hVisit
        cases hVisit
        obtain ⟨h1, h2⟩ := hH n _ st2 hr
        obtain ⟨h3, h4⟩ := h2 nodep hAlloc hop
        exact ⟨h3, h4, h1⟩

theorem replacing_contracts :
    RegistryKeepsTree Collaborators.replacing ∧ VisitKeepsHolder Collaborators.replacing ∧
    CheckKeepsParent Collaborators.replacing := by
  refine ⟨⟨fun _ _ => ⟨rfl, rfl⟩, fun _ _ _ _ _ => ⟨rfl, rfl⟩⟩, ?_, ?_⟩
  · intro n st st2 h
    have h' : (match (st.node n).backp with
        | none => (Except.ok st : Except String WidthVisitor)
        | some b => .ok (replaceOperandCopy b n st)) = .ok st2 := h
    cases hb : (st.node n).backp with
    | none =>
      rw [hb] at h'
      cases h'
      exact ⟨Nat.le_refl _, fun _ _ _ => ⟨rfl, rfl⟩⟩
    | some b =>
      rw [hb] at h'
      cases h'
      refine ⟨Nat.le_succ _, ?_⟩
      intro b2 hlt _
      have hne : b2 ≠ st.nodeNext := Nat.ne_of_lt hlt
      by_cases hbb : b2 = b
      · subst hbb
        simp [replaceOperandCopy]
      · simp [replaceOperandCopy, Function.update, hbb, hne]
  · intro parentp side underp determ stage expDTypep extendRule warnOn st ret st2 h _
    cases h
    exact ⟨rfl, rfl⟩

/-- C11: the PRELIM visit of an integer-to-real conversion node (`IToRD`),
once its operand has been prelim-visited (the visit leaves state `s1`).  If the
operand is then signed, at a well-formed site the node has been replaced in
every slot of its parent that held it by a new node of the signed-source kind
(`ISToRD`) holding that same operand, and the original node is deleted and
unlinked; so the position holds no `IToRD` over a signed operand.  If the
operand is unsigned the tree is left as the operand's visit left it, and for
every registry that leaves the syntax nodes and every visitor that leaves the
kind and the descriptor of the node holding the visited operand, an allocated
node is at the end of the same kind as before, an `IToRD` when it was one,
typed with the registry's double descriptor, also when the visit has replaced
the operand. -/
theorem visit_AstIToRD_canonical (c : Collaborators) (nodep : NodeId) (s : WidthVisitor)
    (vup : WidthVP) (s1 : WidthVisitor) (evs1 : List Event) (lhsp : NodeId)
    (hA : c.assertAtExpr nodep s = .ok ()) (hV : s.m_vup = some vup)
    (hP : vup.prelim = true)
    (hVisit : prelimOperandVisit c nodep
      (setDTypep nodep (some (c.findDoubleDType nodep s).1) (c.findDoubleDType nodep s).2)
        = .ok ((), s1, evs1))
    (hL : (s1.node nodep).op1p = some lhsp) :
    (isSigned s1 lhsp = true → ∀ parent, OperandSite s1 nodep lhsp parent →
      ∃ sF,
        visit_AstIToRD c nodep s =
          .ok ((), sF, Event.assertAtExpr nodep :: Event.findDoubleDType nodep :: evs1) ∧
        sF.nodeNext = s1.nodeNext + 1 ∧
        (sF.node s1.nodeNext).type = VNType.ISToRD ∧
        (sF.node s1.nodeNext).op1p = some lhsp ∧
        (sF.node s1.nodeNext).backp = some parent ∧
        (sF.node s1.nodeNext).nextp = (s1.node nodep).nextp ∧
        (sF.node s1.nodeNext).fileline = (s1.node nodep).fileline ∧
        (sF.node lhsp).backp = some s1.nodeNext ∧
        (sF.node nodep).deleted = true ∧
        (sF.node nodep).backp = none ∧
        (sF.node parent).op1p =
          (if (s1.node parent).op1p = some nodep then some s1.nodeNext
            else (s1.node parent).op1p) ∧
        (sF.node parent).op2p =
          (if (s1.node parent).op2p = some nodep then some s1.nodeNext
            else (s1.node parent).op2p) ∧
        (sF.node parent).op3p =
          (if (s1.node parent).op3p = some nodep then some s1.nodeNext
            else (s1.node parent).op3p) ∧
        (sF.node parent).op4p =
          (if (s1.node parent).op4p = some nodep then some s1.nodeNext
            else (s1.node parent).op4p) ∧
        (sF.node parent).nextp =
          (if (s1.node parent).nextp = some nodep then some s1.nodeNext
            else (s1.node parent).nextp)) ∧
    (isSigned s1 lhsp = false →
      visit_AstIToRD c nodep s =
        .ok ((), s1, Event.assertAtExpr nodep :: Event.findDoubleDType nodep :: evs1) ∧
      ((setDTypep nodep (some (c.findDoubleDType nodep s).1)
          (c.findDoubleDType nodep s).2).node nodep).dtypep
        = some (c.findDoubleDType nodep s).1 ∧
      (RegistryKeepsTree c → VisitKeepsHolder c → nodep < s.nodeNext →
        (s1.node nodep).type = (s.node nodep).type ∧
        ((s.node nodep).type = VNType.IToRD → (s1.node nodep).type = VNType.IToRD) ∧
        (s1.node nodep).dtypep = some (c.findDoubleDType nodep s).1)) := by
  have hrun := visit_AstIToRD_run c nodep s vup s1 evs1 lhsp hA hV hP hVisit hL
  constructor
  · intro hS parent hSite
    rw [hS] at hrun
    simp only [if_true, replaceByISToRD_run s1 nodep lhsp parent hSite, List.append_nil] at hrun
    exact ⟨_, hrun, replaceByISToRD_state s1 nodep lhsp parent hSite _ rfl⟩
  · intro hS
    rw [hS] at hrun
    simp only [Bool.false_eq_true, if_false] at hrun
    refine ⟨hrun, by simp [setDTypep], ?_⟩
    intro hR hH hAlloc
    obtain ⟨hRn, hRm⟩ := hR.1 nodep s
    have hk := prelimOperandVisit_keeps c hH nodep _ s1 evs1 hVisit
      (by show nodep < (c.findDoubleDType nodep s).2.nodeNext; rw [hRm]; exact hAlloc)
    have ht : (s1.node nodep).type = (s.node nodep).type := by
      rw [hk.1]
      simp [setDTypep, hRn]
    refine ⟨ht, fun h => by rw [ht, h], ?_⟩
    rw [hk.2.1]
    simp [setDTypep]

/-- Witness of C11 on `convTree`.  Node 1 is an `IToRD` over the signed node 2 in
slot 1 of node 0; after the visit slot 1 of node 0 holds the new node 7, an
`ISToRD` over node 2, and node 1 is deleted.  Node 3 is an `IToRD` over the
unsigned node 4; with the rule set `Collaborators.replacing` the visit of the
operand replaces node 4 by the new node 7 in the operand slot of node 3, and
after the visit node 3 is still an `IToRD`, typed double (descriptor 1), over
the unsigned node 7. -/
theorem visit_AstIToRD_canonical_witness :
    (∃ sF,
      visit_AstIToRD Collaborators.inert 1 convTree =
        .ok ((), sF, [Event.assertAtExpr 1, Event.findDoubleDType 1,
          Event.iterateAndNextNull 2 (some { m_dtypep := none, m_stage := Stage.PRELIM })]) ∧
      (sF.node 0).op1p = some 7 ∧ (sF.node 7).type = VNType.ISToRD ∧
      (sF.node 7).op1p = some 2 ∧ (sF.node 2).backp = some 7 ∧
      (sF.node 1).deleted = true) ∧
    (∃ sF,
      visit_AstIToRD Collaborators.replacing 3 convTree =
        .ok ((), sF, [Event.assertAtExpr 3, Event.findDoubleDType 3,
          Event.iterateAndNextNull 4 (some { m_dtypep := none, m_stage := Stage.PRELIM })]) ∧
      (convTree.node 3).op1p = some 4 ∧ (sF.node 3).op1p = some 7 ∧
      isSigned sF 7 = false ∧
      (sF.node 3).type = VNType.IToRD ∧ (sF.node 3).dtypep = some 1) := by
  constructor
  · obtain ⟨sF, h1, -, h3, h4, -, -, -, h8, h9, -, h11, -⟩ :=
      (visit_AstIToRD_canonical Collaborators.inert 1 convTree
        { m_dtypep := none, m_stage := Stage.BOTH }
        (setDTypep 1 (some 1) convTree)
        [Event.iterateAndNextNull 2 (some { m_dtypep := none, m_stage := Stage.PRELIM })] 2
        rfl rfl rfl rfl rfl).1 rfl 0
        { back := rfl
          operandBack := rfl
          operandAlone := rfl
          operand_ne := by decide
          parent_ne := by decide
          parent_ne_operand := by decide
          allocated := by decide
          next := fun x h => by cases h }
    exact ⟨sF, h1, h11, h3, h4, h8, h9⟩
  · obtain ⟨h1, -, h3⟩ :=
      (visit_AstIToRD_canonical Collaborators.replacing 3 convTree
        { m_dtypep := none, m_stage := Stage.BOTH }
        (replaceOperandCopy 3 4 (setDTypep 3 (some 1) convTree))
        [Event.iterateAndNextNull 4 (some { m_dtypep := none, m_stage := Stage.PRELIM })] 7
        rfl rfl rfl rfl rfl).2 rfl
    obtain ⟨-, h5, h6⟩ := h3 replacing_contracts.1 replacing_contracts.2.1 (by decide)
    exact ⟨_, h1, rfl, rfl, rfl, h5 rfl, h6⟩

theorem visit_Os32_Lr_run (c : Collaborators) (nodep : NodeId) (s : WidthVisitor)
    (vup : WidthVP) (s1 : WidthVisitor) (evs1 : List Event)
    (hA : c.assertAtExpr nodep s = .ok ()) (hV : s.m_vup = some vup)
    (hP : vup.prelim = true)
    (hC : iterateCheckReal c nodep "LHS" (s.node nodep).op1p Stage.BOTH s = .ok ((), s1, evs1)) :
    visit_Os32_Lr c nodep s =
      .ok ((), setDTypep nodep (some (c.findSigned32DType nodep s1).1)
        (c.findSigned32DType nodep s1).2,
        Event.assertAtExpr nodep :: (evs1 ++ [Event.findSigned32DType nodep])) := by
  unfold visit_Os32_Lr
  rw [prelim_body_run c nodep s vup _ hA hV]
  simp only [hP, if_true, W.bind_apply, W.bind, W.get, hC, dtypeSetSigned32_run, List.nil_append]

theorem visit_Ou64_Lr_run (c : Collaborators) (nodep : NodeId) (s : WidthVisitor)
    (vup : WidthVP) (s1 : WidthVisitor) (evs1 : List Event)
    (hA : c.assertAtExpr nodep s = .ok ()) (hV : s.m_vup = some vup)
    (hP : vup.prelim = true)
    (hC : iterateCheckReal c nodep "LHS" (s.node nodep).op1p Stage.BOTH s = .ok ((), s1, evs1)) :
    visit_Ou64_Lr c nodep s =
      .ok ((), setDTypep nodep (some (c.findUInt64DType nodep s1).1)
        (c.findUInt64DType nodep s1).2,
        Event.assertAtExpr nodep :: (evs1 ++ [Event.findUInt64DType nodep])) := by
  unfold visit_Ou64_Lr
  rw [prelim_body_run c nodep s vup _ hA hV]
  simp only [hP, if_true, W.bind_apply, W.bind, W.get, hC, dtypeSetUInt64_run, List.nil_append]

theorem visit_AstISToRD_run (c : Collaborators) (nodep : NodeId) (s : WidthVisitor)
    (vup : WidthVP) (s1 : WidthVisitor) (evs1 : List Event)
    (hA : c.assertAtExpr nodep s = .ok ()) (hV : s.m_vup = some vup)
    (hP : vup.prelim = true)
    (hVisit : prelimOperandVisit c nodep
      (setDTypep nodep (some (c.findDoubleDType nodep s).1) (c.findDoubleDType nodep s).2)
        = .ok ((), s1, evs1)) :
    visit_AstISToRD c nodep s =
      .ok ((), s1, Event.assertAtExpr nodep :: Event.findDoubleDType nodep :: evs1) := by
  unfold visit_AstISToRD
  rw [prelim_body_run c nodep s vup _ hA hV]
  simp only [hP, if_true]
  rw [bind_ok _ _ _ _ _ _ (dtypeSetDouble_run c nodep s)]
  simp only [hVisit, List.singleton_append]

theorem visit_Or_Lu64_run (c : Collaborators) (nodep : NodeId) (s : WidthVisitor)
    (vup : WidthVP) (s1 : WidthVisitor) (evs1 : List Event) (ret : Option NodeId)
    (s2 : WidthVisitor)
    (hA : c.assertAtExpr nodep s = .ok ()) (hV : s.m_vup = some vup)
    (hP : vup.prelim = true)
    (hVisit : prelimOperandVisit c nodep
      (c.findLogicDType nodep 64 64 VSigning.UNSIGNED
        (setDTypep nodep (some (c.findDoubleDType nodep s).1)
          (c.findDoubleDType nodep s).2)).2 = .ok ((), s1, evs1))
    (hC : c.iterateCheck nodep "LHS" (s1.node nodep).op1p Determ.SELF Stage.FINAL
      (some (c.findLogicDType nodep 64 64 VSigning.UNSIGNED
        (setDTypep nodep (some (c.findDoubleDType nodep s).1)
          (c.findDoubleDType nodep s).2)).1) ExtendRule.EXTEND_EXP true s1 = .ok (ret, s2)) :
    visit_Or_Lu64 c nodep s =
      .ok ((), s2, Event.assertAtExpr nodep :: Event.findDoubleDType nodep ::
        Event.findLogicDType nodep 64 64 VSigning.UNSIGNED ::
        (evs1 ++ [Event.iterateCheck nodep "LHS" (s1.node nodep).op1p Determ.SELF Stage.FINAL
          (some (c.findLogicDType nodep 64 64 VSigning.UNSIGNED
            (setDTypep nodep (some (c.findDoubleDType nodep s).1)
              (c.findDoubleDType nodep s).2)).1) ExtendRule.EXTEND_EXP true])) := by
  unfold visit_Or_Lu64
  rw [prelim_body_run c nodep s vup _ hA hV]
  simp only [hP, if_true]
  rw [bind_ok _ _ _ _ _ _ (dtypeSetDouble_run c nodep s)]
  simp only [W.bind_apply, W.bind, W.callFind, hVisit, W.get, W.call, hC, W.pure,
    List.nil_append, List.append_nil, List.singleton_append, List.cons_append]

theorem visitor_final_only (c : Collaborators) (nodep : NodeId) (s : WidthVisitor)
    (vup : WidthVP) (hA : c.assertAtExpr nodep s = .ok ()) (hV : s.m_vup = some vup)
    (hP : vup.prelim = false) :
    visit_Or_Lu64 c nodep s = .ok ((), s, [Event.assertAtExpr nodep]) ∧
    visit_Os32_Lr c nodep s = .ok ((), s, [Event.assertAtExpr nodep]) ∧
    visit_Ou64_Lr c nodep s = .ok ((), s, [Event.assertAtExpr nodep]) ∧
    visit_AstISToRD c nodep s = .ok ((), s, [Event.assertAtExpr nodep]) ∧
    visit_AstIToRD c nodep s = .ok ((), s, [Event.assertAtExpr nodep]) := by
  refine ⟨?_, ?_, ?_, ?_, ?_⟩
  · unfold visit_Or_Lu64
    rw [prelim_body_run c nodep s vup _ hA hV]
    simp [hP]
  · unfold visit_Os32_Lr
    rw [prelim_body_run c nodep s vup _ hA hV]
    simp [hP]
  · unfold visit_Ou64_Lr
    rw [prelim_body_run c nodep s vup _ hA hV]
    simp [hP]
  · unfold visit_AstISToRD
    rw [prelim_body_run c nodep s vup _ hA hV]
    simp [hP]
  · unfold visit_AstIToRD
    rw [prelim_body_run c nodep s vup _ hA hV]
    simp [hP]

/-- C12: the fixed-type conversion visitors, in any context `vup` (whatever its
target type).  When the stage contains PRELIM: `RToIS` ends typed with the
registry's signed 32-bit descriptor and `RealToBits` with its unsigned 64-bit
descriptor, each after its operand was coerced to real by
`iterateCheckReal(nodep, "LHS", lhsp, BOTH)`; `BitsToRealD` is typed double,
then asks for `findLogicDType(64, 64, UNSIGNED)`, prelim-visits its operand and
checks it against that descriptor (`SELF`, `FINAL`, `EXTEND_EXP`, warnings on);
`ISToRD` is typed double, then prelim-visits its operand.  For every registry
that leaves the syntax nodes, every visitor that leaves the kind and the
descriptor of the node holding the visited operand and every `iterateCheck`
that leaves the kind and the descriptor of its parent, an allocated
`BitsToRealD` or `ISToRD` is at the end of the same kind as before and typed
with the registry's double descriptor, whatever the visit and the check did to
the operand.  When the stage is FINAL alone, each visitor returns with the
state unchanged. -/
theorem visit_fixed_type_conversions (c : Collaborators) (nodep : NodeId) (s : WidthVisitor)
    (vup : WidthVP) (hA : c.assertAtExpr nodep s = .ok ()) (hV : s.m_vup = some vup) :
    (vup.prelim = false →
      visit_AstBitsToRealD c nodep s = .ok ((), s, [Event.assertAtExpr nodep]) ∧
      visit_AstRToIS c nodep s = .ok ((), s, [Event.assertAtExpr nodep]) ∧
      visit_AstRealToBits c nodep s = .ok ((), s, [Event.assertAtExpr nodep]) ∧
      visit_AstISToRD c nodep s = .ok ((), s, [Event.assertAtExpr nodep])) ∧
    (vup.prelim = true →
      (∀ s1 evs1,
        iterateCheckReal c nodep "LHS" (s.node nodep).op1p Stage.BOTH s = .ok ((), s1, evs1) →
        ∃ sF,
          visit_AstRToIS c nodep s =
            .ok ((), sF, Event.assertAtExpr nodep ::
              (evs1 ++ [Event.findSigned32DType nodep])) ∧
          sF = setDTypep nodep (some (c.findSigned32DType nodep s1).1)
            (c.findSigned32DType nodep s1).2 ∧
          (sF.node nodep).dtypep = some (c.findSigned32DType nodep s1).1) ∧
      (∀ s1 evs1,
        iterateCheckReal c nodep "LHS" (s.node nodep).op1p Stage.BOTH s = .ok ((), s1, evs1) →
        ∃ sF,
          visit_AstRealToBits c nodep s =
            .ok ((), sF, Event.assertAtExpr nodep ::
              (evs1 ++ [Event.findUInt64DType nodep])) ∧
          sF = setDTypep nodep (some (c.findUInt64DType nodep s1).1)
            (c.findUInt64DType nodep s1).2 ∧
          (sF.node nodep).dtypep = some (c.findUInt64DType nodep s1).1) ∧
      (∀ s1 evs1 ret s2,
        prelimOperandVisit c nodep
          (c.findLogicDType nodep 64 64 VSigning.UNSIGNED
            (setDTypep nodep (some (c.findDoubleDType nodep s).1)
              (c.findDoubleDType nodep s).2)).2 = .ok ((), s1, evs1) →
        c.iterateCheck nodep "LHS" (s1.node nodep).op1p Determ.SELF Stage.FINAL
          (some (c.findLogicDType nodep 64 64 VSigning.UNSIGNED
            (setDTypep nodep (some (c.findDoubleDType nodep s).1)
              (c.findDoubleDType nodep s).2)).1) ExtendRule.EXTEND_EXP true s1
            = .ok (ret, s2) →
        visit_AstBitsToRealD c nodep s =
          .ok ((), s2, Event.assertAtExpr nodep :: Event.findDoubleDType nodep ::
            Event.findLogicDType nodep 64 64 VSigning.UNSIGNED ::
            (evs1 ++ [Event.iterateCheck nodep "LHS" (s1.node nodep).op1p Determ.SELF
              Stage.FINAL
              (some (c.findLogicDType nodep 64 64 VSigning.UNSIGNED
                (setDTypep nodep (some (c.findDoubleDType nodep s).1)
                  (c.findDoubleDType nodep s).2)).1) ExtendRule.EXTEND_EXP true])) ∧
        ((setDTypep nodep (some (c.findDoubleDType nodep s).1)
            (c.findDoubleDType nodep s).2).node nodep).dtypep
          = some (c.findDoubleDType nodep s).1 ∧
        (RegistryKeepsTree c → VisitKeepsHolder c → CheckKeepsParent c →
          nodep < s.nodeNext →
          (s2.node nodep).type = (s.node nodep).type ∧
          (s2.node nodep).dtypep = some (c.findDoubleDType nodep s).1)) ∧
      (∀ s1 evs1,
        prelimOperandVisit c nodep
          (setDTypep nodep (some (c.findDoubleDType nodep s).1)
            (c.findDoubleDType nodep s).2) = .ok ((), s1, evs1) →
        visit_AstISToRD c nodep s =
          .ok ((), s1, Event.assertAtExpr nodep :: Event.findDoubleDType nodep :: evs1) ∧
        ((setDTypep nodep (some (c.findDoubleDType nodep s).1)
            (c.findDoubleDType nodep s).2).node nodep).dtypep
          = some (c.findDoubleDType nodep s).1 ∧
        (RegistryKeepsTree c → VisitKeepsHolder c → nodep < s.nodeNext →
          (s1.node nodep).type = (s.node nodep).type ∧
          (s1.node nodep).dtypep = some (c.findDoubleDType nodep s).1))) := by
  have hset : ∀ (d : DTypeId) (t : WidthVisitor),
      ((setDTypep nodep (some d) t).node nodep).dtypep = some d := by
    intro d t
    simp [setDTypep]
  constructor
  · intro hP
    obtain ⟨h1, h2, h3, h4, -⟩ := visitor_final_only c nodep s vup hA hV hP
    exact ⟨h1, h2, h3, h4⟩
  · intro hP
    refine ⟨?_, ?_, ?_, ?_⟩
    · intro s1 evs1 hC
      exact ⟨_, visit_Os32_Lr_run c nodep s vup s1 evs1 hA hV hP hC, rfl, hset _ _⟩
    · intro s1 evs1 hC
      exact ⟨_, visit_Ou64_Lr_run c nodep s vup s1 evs1 hA hV hP hC, rfl, hset _ _⟩
    · intro s1 evs1 ret s2 hVisit hC
      refine ⟨visit_Or_Lu64_run c nodep s vup s1 evs1 ret s2 hA hV hP hVisit hC, hset _ _, ?_⟩
      intro hR hH hK hAlloc
      obtain ⟨hDn, hDm⟩ := hR.1 nodep s
      obtain ⟨hLn, hLm⟩ := hR.2 nodep 64 64 VSigning.UNSIGNED
        (setDTypep nodep (some (c.findDoubleDType nodep s).1) (c.findDoubleDType nodep s).2)
      have hk := prelimOperandVisit_keeps c hH nodep _ s1 evs1 hVisit
        (by rw [hLm]; show nodep < (c.findDoubleDType nodep s).2.nodeNext
            rw [hDm]; exact hAlloc)
      have hk2 := hK _ _ _ _ _ _ _ _ _ _ _ hC
        (Nat.lt_of_lt_of_le
          (by rw [hLm]; show nodep < (c.findDoubleDType nodep s).2.nodeNext
              rw [hDm]; exact hAlloc) hk.2.2)
      constructor
      · rw [hk2.1, hk.1, hLn]
        simp [setDTypep, hDn]
      · rw [hk2.2, hk.2.1, hLn]
        exact hset _ _
    · intro s1 evs1 hVisit
      refine ⟨visit_AstISToRD_run c nodep s vup s1 evs1 hA hV hP hVisit, hset _ _, ?_⟩
      intro hR hH hAlloc
      obtain ⟨hDn, hDm⟩ := hR.1 nodep s
      have hk := prelimOperandVisit_keeps c hH nodep _ s1 evs1 hVisit
        (by show nodep < (c.findDoubleDType nodep s).2.nodeNext; rw [hDm]; exact hAlloc)
      constructor
      · rw [hk.1]
        simp [setDTypep, hDn]
      · rw [hk.2.1]
        exact hset _ _

/-- Witness of C12.  On `convTree` the visit of node 5, an `RToIS` over the double
node 6, coerces the operand to real and leaves node 5 with the registry's signed
32-bit descriptor (descriptor 6 of the rule set).  On `realConvTree`, with the
rule set `Collaborators.replacing`, whose visit replaces the operand by a new
node 5: the `BitsToRealD` node 1 asks for the logic type of width 64 and minimum
width 64, has its new operand checked against the answer (descriptor 8) and is
at the end a `BitsToRealD` typed double (descriptor 1); the `ISToRD` node 3 is
at the end an `ISToRD` typed double. -/
theorem visit_fixed_type_conversions_witness :
    (∃ sF,
      visit_AstRToIS Collaborators.inert 5 convTree =
        .ok ((), sF, [Event.assertAtExpr 5, Event.findDoubleDType 5,
          Event.iterateSubtreeReturnEdits 6
            (some { m_dtypep := none, m_stage := Stage.PRELIM }),
          Event.iterateCheck 5 "LHS" (some 6) Determ.SELF Stage.FINAL (some 1)
            ExtendRule.EXTEND_EXP true,
          Event.findSigned32DType 5]) ∧
      (sF.node 5).dtypep = some 6) ∧
    (∃ sF,
      visit_AstBitsToRealD Collaborators.replacing 1 realConvTree =
        .ok ((), sF, [Event.assertAtExpr 1, Event.findDoubleDType 1,
          Event.findLogicDType 1 64 64 VSigning.UNSIGNED,
          Event.iterateAndNextNull 2 (some { m_dtypep := none, m_stage := Stage.PRELIM }),
          Event.iterateCheck 1 "LHS" (some 5) Determ.SELF Stage.FINAL (some 8)
            ExtendRule.EXTEND_EXP true]) ∧
      (realConvTree.node 1).op1p = some 2 ∧ (sF.node 1).op1p = some 5 ∧
      (sF.node 1).type = VNType.BitsToRealD ∧ (sF.node 1).dtypep = some 1) ∧
    (∃ sF,
      visit_AstISToRD Collaborators.replacing 3 realConvTree =
        .ok ((), sF, [Event.assertAtExpr 3, Event.findDoubleDType 3,
          Event.iterateAndNextNull 4 (some { m_dtypep := none, m_stage := Stage.PRELIM })]) ∧
      (realConvTree.node 3).op1p = some 4 ∧ (sF.node 3).op1p = some 5 ∧
      (sF.node 3).type = VNType.ISToRD ∧ (sF.node 3).dtypep = some 1) := by
  refine ⟨?_, ?_, ?_⟩
  · obtain ⟨sF, h1, -, h3⟩ :=
      ((visit_fixed_type_conversions Collaborators.inert 5 convTree
        { m_dtypep := none, m_stage := Stage.BOTH } rfl rfl).2 rfl).1 convTree
        [Event.findDoubleDType 5,
          Event.iterateSubtreeReturnEdits 6 (some { m_dtypep := none, m_stage := Stage.PRELIM }),
          Event.iterateCheck 5 "LHS" (some 6) Determ.SELF Stage.FINAL (some 1)
            ExtendRule.EXTEND_EXP true] rfl
    exact ⟨sF, h1, h3⟩
  · obtain ⟨h1, -, h3⟩ :=
      ((visit_fixed_type_conversions Collaborators.replacing 1 realConvTree
        { m_dtypep := none, m_stage := Stage.BOTH } rfl rfl).2 rfl).2.2.1
        (replaceOperandCopy 1 2 (setDTypep 1 (some 1) realConvTree))
        [Event.iterateAndNextNull 2 (some { m_dtypep := none, m_stage := Stage.PRELIM })]
        (some 5) (replaceOperandCopy 1 2 (setDTypep 1 (some 1) realConvTree)) rfl rfl
    obtain ⟨h4, h5⟩ := h3 replacing_contracts.1 replacing_contracts.2.1
      replacing_contracts.2.2 (by decide)
    exact ⟨_, h1, rfl, rfl, h4, h5⟩
  · obtain ⟨h1, -, h3⟩ :=
      ((visit_fixed_type_conversions Collaborators.replacing 3 realConvTree
        { m_dtypep := none, m_stage := Stage.BOTH } rfl rfl).2 rfl).2.2.2
        (replaceOperandCopy 3 4 (setDTypep 3 (some 1) realConvTree))
        [Event.iterateAndNextNull 4 (some { m_dtypep := none, m_stage := Stage.PRELIM })] rfl
    obtain ⟨h4, h5⟩ := h3 replacing_contracts.1 replacing_contracts.2.1 (by decide)
    exact ⟨_, h1, rfl, rfl, h4, h5⟩

end Conversions

/-! ### C13 to C18: the open-array shell -/

section OpenArray

theorem hasOpenArrayDTypeRecurse_congr (s t : WidthVisitor) (h : t.dtype = s.dtype)
    (fuel : Nat) (d : DTypeId) :
    hasOpenArrayDTypeRecurse t fuel d = hasOpenArrayDTypeRecurse s fuel d := by
  induction fuel generalizing d with
  | zero => rfl
  | succ n ih =>
    simp only [hasOpenArrayDTypeRecurse, h]
    split
    · rfl
    · split
      · exact ih _
      · rfl

theorem setDTypep_node (p : NodeId) (d : Option DTypeId) (s : WidthVisitor) (m : NodeId) :
    (setDTypep p d s).node m =
      if m = p then { s.node p with dtypep := d } else s.node m := by
  by_cases h : m = p
  · subst h; simp [setDTypep]
  · simp [setDTypep, Function.update, h]

/-- The loop writes descriptor pointers of connected formals and nothing else. -/
theorem openArrayPorts_frame (fuel : Nat) (tc : List (NodeId × NodeId)) :
    ∀ (sT sF : WidthVisitor), openArrayPorts fuel tc sT = .ok sF →
      sF.dtype = sT.dtype ∧ sF.nodeNext = sT.nodeNext ∧ sF.m_vup = sT.m_vup ∧
      sF.diags = sT.diags ∧ sF.fileLine = sT.fileLine ∧
      (∀ m, sF.node m = { sT.node m with dtypep := (sF.node m).dtypep }) ∧
      (∀ m, m ∉ tc.map Prod.fst → sF.node m = sT.node m) := by
  induction tc with
  | nil =>
    intro sT sF h
    simp only [openArrayPorts] at h
    cases h
    exact ⟨rfl, rfl, rfl, rfl, rfl, fun _ => rfl, fun _ _ => rfl⟩
  | cons pa rest ih =>
    obtain ⟨portp, argp⟩ := pa
    intro sT sF h
    simp only [openArrayPorts] at h
    have keep : ∀ sF, openArrayPorts fuel rest sT = .ok sF →
        sF.dtype = sT.dtype ∧ sF.nodeNext = sT.nodeNext ∧ sF.m_vup = sT.m_vup ∧
        sF.diags = sT.diags ∧ sF.fileLine = sT.fileLine ∧
        (∀ m, sF.node m = { sT.node m with dtypep := (sF.node m).dtypep }) ∧
        (∀ m, m ∉ ((portp, argp) :: rest).map Prod.fst → sF.node m = sT.node m) := by
      intro sF h
      obtain ⟨h1, h2, h3, h4, h5, h6, h7⟩ := ih sT sF h
      refine ⟨h1, h2, h3, h4, h5, h6, ?_⟩
      intro m hm
      exact h7 m (fun hmem => hm (List.mem_cons_of_mem _ hmem))
    cases hp : (sT.node argp).op1p with
    | none =>
      rw [hp] at h
      exact keep sF h
    | some pinp =>
      rw [hp] at h
      simp only [] at h
      cases hd : (sT.node portp).dtypep with
      | none => rw [hd] at h; cases h
      | some d =>
        rw [hd] at h
        simp only [] at h
        cases ho : hasOpenArrayDTypeRecurse sT fuel d with
        | none => rw [ho] at h; cases h
        | some b =>
          rw [ho] at h
          cases b with
          | false => exact keep sF h
          | true =>
            simp only [] at h
            obtain ⟨h1, h2, h3, h4, h5, h6, h7⟩ := ih _ sF h
            refine ⟨h1, h2, h3, h4, h5, ?_, ?_⟩
            · intro m
              rw [h6 m, setDTypep_node]
              by_cases hm : m = portp
              · subst hm; simp
              · simp [hm]
            · intro m hm
              have hm1 : m ≠ portp := fun e => hm (by simp [e])
              have hm2 : m ∉ rest.map Prod.fst := fun hmem => hm (List.mem_cons_of_mem _ hmem)
              rw [h7 m hm2, setDTypep_node]
              simp [hm1]

theorem setDTypep_op1p (p : NodeId) (d : Option DTypeId) (s : WidthVisitor) (m : NodeId) :
    ((setDTypep p d s).node m).op1p = (s.node m).op1p := by
  rw [setDTypep_node]
  by_cases h : m = p
  · subst h; simp
  · simp [h]

theorem setDTypep_dtypep_ne (p : NodeId) (d : Option DTypeId) (s : WidthVisitor) (m : NodeId)
    (h : m ≠ p) : ((setDTypep p d s).node m).dtypep = (s.node m).dtypep := by
  rw [setDTypep_node]
  simp [h]

/-- What the loop leaves in each connected formal, when every formal is
connected once and no argument expression is itself a connected formal. -/
theorem openArrayPorts_each (fuel : Nat) (tc : List (NodeId × NodeId)) :
    ∀ (sT sF : WidthVisitor), openArrayPorts fuel tc sT = .ok sF →
      (tc.map Prod.fst).Nodup →
      (∀ p a pin, (p, a) ∈ tc → (sT.node a).op1p = some pin → pin ∉ tc.map Prod.fst) →
      ∀ p a, (p, a) ∈ tc →
        (∀ pin d, (sT.node a).op1p = some pin → (sT.node p).dtypep = some d →
          hasOpenArrayDTypeRecurse sT fuel d = some true →
          (sF.node p).dtypep = (sT.node pin).dtypep) ∧
        (∀ d, (sT.node p).dtypep = some d →
          hasOpenArrayDTypeRecurse sT fuel d = some false →
          (sF.node p).dtypep = (sT.node p).dtypep) ∧
        ((sT.node a).op1p = none → (sF.node p).dtypep = (sT.node p).dtypep) := by
  induction tc with
  | nil => intro sT sF _ _ _ p a hmem; cases hmem
  | cons pa rest ih =>
    obtain ⟨portp, argp⟩ := pa
    intro sT sF h hnd hpins p a hmem
    have hnd' : (rest.map Prod.fst).Nodup := (List.nodup_cons.mp hnd).2
    have hp0 : portp ∉ rest.map Prod.fst := (List.nodup_cons.mp hnd).1
    -- the state the rest of the loop starts from
    have step : ∃ sM, openArrayPorts fuel rest sM = .ok sF ∧ sM.dtype = sT.dtype ∧
        (∀ m, (sM.node m).op1p = (sT.node m).op1p) ∧
        (∀ m, m ≠ portp → (sM.node m).dtypep = (sT.node m).dtypep) ∧
        (∀ pin d, (sT.node argp).op1p = some pin → (sT.node portp).dtypep = some d →
          hasOpenArrayDTypeRecurse sT fuel d = some true →
          (sM.node portp).dtypep = (sT.node pin).dtypep) ∧
        (∀ d, (sT.node portp).dtypep = some d →
          hasOpenArrayDTypeRecurse sT fuel d = some false →
          (sM.node portp).dtypep = (sT.node portp).dtypep) ∧
        ((sT.node argp).op1p = none → (sM.node portp).dtypep = (sT.node portp).dtypep) := by
      simp only [openArrayPorts] at h
      cases hp : (sT.node argp).op1p with
      | none =>
        rw [hp] at h
        exact ⟨sT, h, rfl, fun _ => rfl, fun _ _ => rfl, (fun pin d h1 => by cases h1),
          fun _ _ _ => rfl, fun _ => rfl⟩
      | some pinp =>
        rw [hp] at h
        simp only [] at h
        cases hd : (sT.node portp).dtypep with
        | none => rw [hd] at h; cases h
        | some d =>
          rw [hd] at h
          simp only [] at h
          cases ho : hasOpenArrayDTypeRecurse sT fuel d with
          | none => rw [ho] at h; cases h
          | some b =>
            rw [ho] at h
            cases b with
            | false =>
              refine ⟨sT, h, rfl, fun _ => rfl, fun _ _ => rfl, ?_, fun _ _ _ => hd,
                (fun h1 => by cases h1)⟩
              intro pin d' h1 h2 h3
              cases h2
              rw [ho] at h3
              cases h3
            | true =>
              refine ⟨_, h, rfl, fun m => setDTypep_op1p _ _ _ m,
                fun m hm => setDTypep_dtypep_ne _ _ _ m hm, ?_, ?_, (fun h1 => by cases h1)⟩
              · intro pin d' h1 h2 _
                cases h1
                simp [setDTypep]
              · intro d' h2 h3
                cases h2
                rw [ho] at h3
                cases h3
    obtain ⟨sM, hM, hMd, hMop, hMdt, hM1, hM2, hM3⟩ := step
    rcases List.mem_cons.mp hmem with heq | hrest
    · -- the head connection: the rest of the loop does not touch its formal
      cases heq
      have hfr := (openArrayPorts_frame fuel rest sM sF hM).2.2.2.2.2.2 portp hp0
      rw [hfr]
      exact ⟨hM1, hM2, hM3⟩
    · have hpne : p ≠ portp := by
        intro e
        subst e
        exact hp0 (List.mem_map_of_mem Prod.fst hrest)
      have hpins' : ∀ p a pin, (p, a) ∈ rest → (sM.node a).op1p = some pin →
          pin ∉ rest.map Prod.fst := by
        intro p' a' pin hm h1 hin
        rw [hMop] at h1
        exact hpins p' a' pin (List.mem_cons_of_mem _ hm) h1
          (by simp only [List.map_cons]; exact List.mem_cons_of_mem _ hin)
      obtain ⟨i1, i2, i3⟩ := ih sM sF hM hnd' hpins' p a hrest
      have hopen : ∀ d, hasOpenArrayDTypeRecurse sM fuel d = hasOpenArrayDTypeRecurse sT fuel d :=
        fun d => hasOpenArrayDTypeRecurse_congr sT sM hMd fuel d
      refine ⟨?_, ?_, ?_⟩
      · intro pin d h1 h2 h3
        have hpin : pin ≠ portp := by
          intro e
          subst e
          exact hpins p a pin hmem h1 (by simp)
        rw [i1 pin d (by rw [hMop]; exact h1) (by rw [hMdt p hpne]; exact h2)
          (by rw [hopen]; exact h3), hMdt pin hpin]
      · intro d h2 h3
        rw [i2 d (by rw [hMdt p hpne]; exact h2) (by rw [hopen]; exact h3), hMdt p hpne]
      · intro h1
        rw [i3 (by rw [hMop]; exact h1), hMdt p hpne]

theorem setBackOfNext_fields (nextp b : Option NodeId) (s : WidthVisitor) (m : NodeId) :
    ((setBackOfNext nextp b s).node m).dpiOpenChild = (s.node m).dpiOpenChild ∧
    ((setBackOfNext nextp b s).node m).dpiOpenParent = (s.node m).dpiOpenParent ∧
    ((setBackOfNext nextp b s).node m).dtypep = (s.node m).dtypep ∧
    ((setBackOfNext nextp b s).node m).stmtsp = (s.node m).stmtsp ∧
    ((setBackOfNext nextp b s).node m).name = (s.node m).name ∧
    ((setBackOfNext nextp b s).node m).taskp = (s.node m).taskp ∧
    ((setBackOfNext nextp b s).node m).nextp = (s.node m).nextp := by
  cases nextp with
  | none => exact ⟨rfl, rfl, rfl, rfl, rfl, rfl, rfl⟩
  | some x =>
    by_cases h : m = x
    · subst h; simp [setBackOfNext]
    · simp [setBackOfNext, Function.update, h]

theorem setName_fields (a : NodeId) (name : String) (s : WidthVisitor) (m : NodeId) :
    ((setName a name s).node m).dpiOpenChild = (s.node m).dpiOpenChild ∧
    ((setName a name s).node m).dpiOpenParent = (s.node m).dpiOpenParent ∧
    ((setName a name s).node m).dtypep = (s.node m).dtypep ∧
    ((setName a name s).node m).stmtsp = (s.node m).stmtsp ∧
    ((setName a name s).node m).taskp = (s.node m).taskp ∧
    ((setName a name s).node m).nextp = (s.node m).nextp ∧
    ((setName a name s).node m).backp = (s.node m).backp ∧
    ((setName a name s).node m).name = (if m = a then name else (s.node m).name) := by
  by_cases h : m = a
  · subst h; simp [setName]
  · simp [setName, Function.update, h]

theorem setTaskp_fields (a : NodeId) (taskp : Option NodeId) (s : WidthVisitor) (m : NodeId) :
    ((setTaskp a taskp s).node m).dpiOpenChild = (s.node m).dpiOpenChild ∧
    ((setTaskp a taskp s).node m).dpiOpenParent = (s.node m).dpiOpenParent ∧
    ((setTaskp a taskp s).node m).dtypep = (s.node m).dtypep ∧
    ((setTaskp a taskp s).node m).stmtsp = (s.node m).stmtsp ∧
    ((setTaskp a taskp s).node m).name = (s.node m).name ∧
    ((setTaskp a taskp s).node m).nextp = (s.node m).nextp ∧
    ((setTaskp a taskp s).node m).backp = (s.node m).backp ∧
    ((setTaskp a taskp s).node m).taskp = (if m = a then taskp else (s.node m).taskp) := by
  by_cases h : m = a
  · subst h; simp [setTaskp]
  · simp [setTaskp, Function.update, h]

theorem addNextHere_fields (a newp : NodeId) (s : WidthVisitor) (m : NodeId) :
    ((addNextHere a newp s).node m).dpiOpenChild = (s.node m).dpiOpenChild ∧
    ((addNextHere a newp s).node m).dpiOpenParent = (s.node m).dpiOpenParent ∧
    ((addNextHere a newp s).node m).dtypep = (s.node m).dtypep ∧
    ((addNextHere a newp s).node m).stmtsp = (s.node m).stmtsp ∧
    ((addNextHere a newp s).node m).name = (s.node m).name ∧
    ((addNextHere a newp s).node m).taskp = (s.node m).taskp ∧
    ((addNextHere a newp s).node m).nextp =
      (if m = a then some newp else if m = newp then (s.node a).nextp else (s.node m).nextp) := by
  have hb := fun t => setBackOfNext_fields (s.node a).nextp (some newp) t m
  by_cases h1 : m = a
  · subst h1
    simp only [addNextHere, Function.update_same, if_true]
    refine ⟨?_, ?_, ?_, ?_, ?_, ?_, trivial⟩
    · rw [(hb _).1]; by_cases h : m = newp
      · subst h; simp
      · simp [Function.update, h]
    · rw [(hb _).2.1]; by_cases h : m = newp
      · subst h; simp
      · simp [Function.update, h]
    · rw [(hb _).2.2.1]; by_cases h : m = newp
      · subst h; simp
      · simp [Function.update, h]
    · rw [(hb _).2.2.2.1]; by_cases h : m = newp
      · subst h; simp
      · simp [Function.update, h]
    · rw [(hb _).2.2.2.2.1]; by_cases h : m = newp
      · subst h; simp
      · simp [Function.update, h]
    · rw [(hb _).2.2.2.2.2.1]; by_cases h : m = newp
      · subst h; simp
      · simp [Function.update, h]
  · simp only [addNextHere, Function.update_noteq h1, h1, if_false]
    rw [(hb _).1, (hb _).2.1, (hb _).2.2.1, (hb _).2.2.2.1, (hb _).2.2.2.2.1,
      (hb _).2.2.2.2.2.1, (hb _).2.2.2.2.2.2]
    by_cases h : m = newp
    · subst h; simp
    · simp [Function.update, h]

theorem addNextHere_backp (a newp : NodeId) (s : WidthVisitor)
    (h1 : newp ≠ a) (h2 : (s.node a).nextp ≠ some newp) :
    ((addNextHere a newp s).node newp).backp = some a := by
  cases hx : (s.node a).nextp with
  | none => simp [addNextHere, setBackOfNext, hx, Function.update, h1]
  | some x =>
    have hx2 : newp ≠ x := fun e => h2 (by rw [hx, e])
    simp [addNextHere, setBackOfNext, hx, Function.update, h1, hx2]

theorem setDpiOpenChild_fields (a : NodeId) (b : Bool) (s : WidthVisitor) (m : NodeId) :
    ((setDpiOpenChild a b s).node m).dpiOpenParent = (s.node m).dpiOpenParent ∧
    ((setDpiOpenChild a b s).node m).dtypep = (s.node m).dtypep ∧
    ((setDpiOpenChild a b s).node m).stmtsp = (s.node m).stmtsp ∧
    ((setDpiOpenChild a b s).node m).name = (s.node m).name ∧
    ((setDpiOpenChild a b s).node m).taskp = (s.node m).taskp ∧
    ((setDpiOpenChild a b s).node m).nextp = (s.node m).nextp ∧
    ((setDpiOpenChild a b s).node m).backp = (s.node m).backp ∧
    ((setDpiOpenChild a b s).node m).dpiOpenChild =
      (if m = a then b else (s.node m).dpiOpenChild) := by
  by_cases h : m = a
  · subst h; simp [setDpiOpenChild]
  · simp [setDpiOpenChild, Function.update, h]

theorem dpiOpenParentClear_fields (a : NodeId) (s : WidthVisitor) (m : NodeId) :
    ((dpiOpenParentClear a s).node m).dpiOpenChild = (s.node m).dpiOpenChild ∧
    ((dpiOpenParentClear a s).node m).dtypep = (s.node m).dtypep ∧
    ((dpiOpenParentClear a s).node m).stmtsp = (s.node m).stmtsp ∧
    ((dpiOpenParentClear a s).node m).name = (s.node m).name ∧
    ((dpiOpenParentClear a s).node m).taskp = (s.node m).taskp ∧
    ((dpiOpenParentClear a s).node m).nextp = (s.node m).nextp ∧
    ((dpiOpenParentClear a s).node m).backp = (s.node m).backp ∧
    ((dpiOpenParentClear a s).node m).dpiOpenParent =
      (if m = a then 0 else (s.node m).dpiOpenParent) := by
  by_cases h : m = a
  · subst h; simp [dpiOpenParentClear]
  · simp [dpiOpenParentClear, Function.update, h]

theorem dpiOpenParentInc_fields (a : NodeId) (s : WidthVisitor) (m : NodeId) :
    ((dpiOpenParentInc a s).node m).dpiOpenChild = (s.node m).dpiOpenChild ∧
    ((dpiOpenParentInc a s).node m).dtypep = (s.node m).dtypep ∧
    ((dpiOpenParentInc a s).node m).stmtsp = (s.node m).stmtsp ∧
    ((dpiOpenParentInc a s).node m).name = (s.node m).name ∧
    ((dpiOpenParentInc a s).node m).taskp = (s.node m).taskp ∧
    ((dpiOpenParentInc a s).node m).nextp = (s.node m).nextp ∧
    ((dpiOpenParentInc a s).node m).backp = (s.node m).backp ∧
    ((dpiOpenParentInc a s).node m).dpiOpenParent =
      (if m = a then (s.node m).dpiOpenParent + 1 else (s.node m).dpiOpenParent) := by
  by_cases h : m = a
  · subst h; simp [dpiOpenParentInc]
  · simp [dpiOpenParentInc, Function.update, h]

theorem cloneTree_old (oldTaskp : NodeId) (s : WidthVisitor) (m : NodeId)
    (h : m < s.nodeNext) : (cloneTree oldTaskp s).2.node m = s.node m := by
  have h1 : m ≠ s.nodeNext := Nat.ne_of_lt h
  have h2 : ¬ s.nodeNext < m := Nat.not_lt_of_gt h
  simp [cloneTree, h1, h2]

theorem cloneTree_new (oldTaskp : NodeId) (s : WidthVisitor) :
    (cloneTree oldTaskp s).2.node s.nodeNext =
      { s.node oldTaskp with
        stmtsp := List.range' (s.nodeNext + 1) (s.node oldTaskp).stmtsp.length
        nextp := none
        backp := none } := by
  simp [cloneTree]

theorem cloneTree_stmt (oldTaskp : NodeId) (s : WidthVisitor) (j : Nat) (orig : NodeId)
    (h : (s.node oldTaskp).stmtsp[j]? = some orig) :
    (cloneTree oldTaskp s).2.node (s.nodeNext + 1 + j) =
      { s.node orig with nextp := none, backp := none } := by
  have h2 : s.nodeNext < s.nodeNext + 1 + j := Nat.lt_add_right j (Nat.lt_succ_self _)
  have h1 : s.nodeNext + 1 + j ≠ s.nodeNext := Nat.ne_of_gt h2
  have h3 : s.nodeNext + 1 + j - (s.nodeNext + 1) = j := Nat.add_sub_cancel_left _ _
  simp [cloneTree, h1, h2, h3, h]

theorem cloneTree_role (oldTaskp : NodeId) (s : WidthVisitor) (m : NodeId)
    (hm : m ≠ s.nodeNext) :
    ((cloneTree oldTaskp s).2.node m).dpiOpenChild = true ∧
      ((cloneTree oldTaskp s).2.node m).dpiOpenParent ≠ 0 →
    (s.node m).dpiOpenChild = true ∧ (s.node m).dpiOpenParent ≠ 0 ∨
    ∃ x ∈ (s.node oldTaskp).stmtsp,
      (s.node x).dpiOpenChild = true ∧ (s.node x).dpiOpenParent ≠ 0 := by
  intro h
  by_cases h2 : s.nodeNext < m
  · cases hj : (s.node oldTaskp).stmtsp[m - (s.nodeNext + 1)]? with
    | none =>
      left
      simpa [cloneTree, hm, h2, hj] using h
    | some orig =>
      right
      refine ⟨orig, List.getElem?_mem hj, ?_⟩
      simpa [cloneTree, hm, h2, hj] using h
  · left
    simpa [cloneTree, hm, h2] using h

theorem setBackOfNext_frame (nextp b : Option NodeId) (s : WidthVisitor) :
    (setBackOfNext nextp b s).dtype = s.dtype ∧
    (setBackOfNext nextp b s).nodeNext = s.nodeNext := by
  cases nextp <;> exact ⟨rfl, rfl⟩

theorem openArrayClone_frame (nodep oldTaskp : NodeId) (s : WidthVisitor) :
    (openArrayClone nodep oldTaskp s).1 = s.nodeNext ∧
    (openArrayClone nodep oldTaskp s).2.dtype = s.dtype ∧
    (openArrayClone nodep oldTaskp s).2.nodeNext =
      s.nodeNext + 1 + (s.node oldTaskp).stmtsp.length := by
  refine ⟨rfl, ?_, ?_⟩
  · simp only [openArrayClone, addNextHere, setTaskp, setName, dpiOpenParentClear,
      setDpiOpenChild]
    rw [(setBackOfNext_frame _ _ _).1]
    rfl
  · simp only [openArrayClone, addNextHere, setTaskp, setName, dpiOpenParentClear,
      setDpiOpenChild]
    rw [(setBackOfNext_frame _ _ _).2]
    rfl

/-- Flags, descriptor and statement list after the clone step, node by node. -/
theorem openArrayClone_fields (nodep oldTaskp : NodeId) (s : WidthVisitor) (m : NodeId) :
    ((openArrayClone nodep oldTaskp s).2.node m).dpiOpenChild =
      (if m = s.nodeNext then true else ((cloneTree oldTaskp s).2.node m).dpiOpenChild) ∧
    ((openArrayClone nodep oldTaskp s).2.node m).dpiOpenParent =
      (if m = s.nodeNext then 0 else ((cloneTree oldTaskp s).2.node m).dpiOpenParent) ∧
    ((openArrayClone nodep oldTaskp s).2.node m).dtypep =
      ((cloneTree oldTaskp s).2.node m).dtypep ∧
    ((openArrayClone nodep oldTaskp s).2.node m).stmtsp =
      ((cloneTree oldTaskp s).2.node m).stmtsp := by
  have e : (cloneTree oldTaskp s).1 = s.nodeNext := rfl
  simp only [openArrayClone, e]
  refine ⟨?_, ?_, ?_, ?_⟩
  · rw [(setName_fields _ _ _ _).1, (setTaskp_fields _ _ _ _).1, (addNextHere_fields _ _ _ _).1,
      (setName_fields _ _ _ _).1, (dpiOpenParentClear_fields _ _ _).1,
      (setDpiOpenChild_fields _ _ _ _).2.2.2.2.2.2.2]
  · rw [(setName_fields _ _ _ _).2.1, (setTaskp_fields _ _ _ _).2.1,
      (addNextHere_fields _ _ _ _).2.1, (setName_fields _ _ _ _).2.1,
      (dpiOpenParentClear_fields _ _ _).2.2.2.2.2.2.2]
    by_cases h : m = s.nodeNext
    · simp [h]
    · simp only [h, if_false]
      rw [(setDpiOpenChild_fields _ _ _ _).1]
  · rw [(setName_fields _ _ _ _).2.2.1, (setTaskp_fields _ _ _ _).2.2.1,
      (addNextHere_fields _ _ _ _).2.2.1, (setName_fields _ _ _ _).2.2.1,
      (dpiOpenParentClear_fields _ _ _).2.1, (setDpiOpenChild_fields _ _ _ _).2.1]
  · rw [(setName_fields _ _ _ _).2.2.2.1, (setTaskp_fields _ _ _ _).2.2.2.1,
      (addNextHere_fields _ _ _ _).2.2.2.1, (setName_fields _ _ _ _).2.2.2.1,
      (dpiOpenParentClear_fields _ _ _).2.2.1, (setDpiOpenChild_fields _ _ _ _).2.2.1]

/-- Name and declaration pointer after the clone step. -/
theorem openArrayClone_call (nodep oldTaskp : NodeId) (s : WidthVisitor) :
    ((openArrayClone nodep oldTaskp s).2.node nodep).taskp = some s.nodeNext ∧
    ((openArrayClone nodep oldTaskp s).2.node nodep).name =
      ((openArrayClone nodep oldTaskp s).2.node s.nodeNext).name ∧
    (∀ m, m ≠ nodep → m ≠ s.nodeNext →
      ((openArrayClone nodep oldTaskp s).2.node m).name =
        ((cloneTree oldTaskp s).2.node m).name) ∧
    (nodep ≠ s.nodeNext → oldTaskp < s.nodeNext →
      ((openArrayClone nodep oldTaskp s).2.node s.nodeNext).name =
        (s.node oldTaskp).name ++ "__Vdpioc" ++ cvtToStr (s.node oldTaskp).dpiOpenParent) := by
  have e : (cloneTree oldTaskp s).1 = s.nodeNext := rfl
  simp only [openArrayClone, e]
  refine ⟨?_, ?_, ?_, ?_⟩
  · rw [(setName_fields _ _ _ _).2.2.2.2.1, (setTaskp_fields _ _ _ _).2.2.2.2.2.2.2]
    simp
  · rw [(setName_fields _ _ _ _).2.2.2.2.2.2.2, (setName_fields _ _ _ _).2.2.2.2.2.2.2]
    simp only [if_true]
    by_cases h : s.nodeNext = nodep
    · simp [h]
    · simp only [h, if_false]
  · intro m h1 h2
    rw [(setName_fields _ _ _ _).2.2.2.2.2.2.2]
    simp only [h1, if_false]
    rw [(setTaskp_fields _ _ _ _).2.2.2.2.1,
      (addNextHere_fields _ _ _ _).2.2.2.2.1, (setName_fields _ _ _ _).2.2.2.2.2.2.2]
    simp only [h2, if_false]
    rw [(dpiOpenParentClear_fields _ _ _).2.2.2.1, (setDpiOpenChild_fields _ _ _ _).2.2.2.1]
  · intro h hOld
    have h' : s.nodeNext ≠ nodep := fun x => h x.symm
    have hne : oldTaskp ≠ s.nodeNext := Nat.ne_of_lt hOld
    rw [(setName_fields _ _ _ _).2.2.2.2.2.2.2]
    simp only [h', if_false]
    rw [(setTaskp_fields _ _ _ _).2.2.2.2.1,
      (addNextHere_fields _ _ _ _).2.2.2.2.1, (setName_fields _ _ _ _).2.2.2.2.2.2.2]
    simp only [if_true]
    rw [(dpiOpenParentClear_fields _ _ _).2.2.2.1, (setDpiOpenChild_fields _ _ _ _).2.2.2.1,
      (dpiOpenParentClear_fields _ _ _).2.2.2.2.2.2.2]
    simp only [hne, if_false]
    rw [(setDpiOpenChild_fields _ _ _ _).1, cloneTree_new, cloneTree_old _ _ _ hOld]

/-- Sibling links after the clone step. -/
theorem openArrayClone_links (nodep oldTaskp : NodeId) (s : WidthVisitor)
    (hOld : oldTaskp < s.nodeNext) :
    ((openArrayClone nodep oldTaskp s).2.node oldTaskp).nextp = some s.nodeNext ∧
    ((openArrayClone nodep oldTaskp s).2.node s.nodeNext).nextp = (s.node oldTaskp).nextp ∧
    (∀ m, m ≠ oldTaskp → m ≠ s.nodeNext →
      ((openArrayClone nodep oldTaskp s).2.node m).nextp =
        ((cloneTree oldTaskp s).2.node m).nextp) := by
  have e : (cloneTree oldTaskp s).1 = s.nodeNext := rfl
  have hne : s.nodeNext ≠ oldTaskp := Nat.ne_of_gt hOld
  simp only [openArrayClone, e]
  refine ⟨?_, ?_, ?_⟩
  · rw [(setName_fields _ _ _ _).2.2.2.2.2.1, (setTaskp_fields _ _ _ _).2.2.2.2.2.1,
      (addNextHere_fields _ _ _ _).2.2.2.2.2.2]
    simp
  · rw [(setName_fields _ _ _ _).2.2.2.2.2.1, (setTaskp_fields _ _ _ _).2.2.2.2.2.1,
      (addNextHere_fields _ _ _ _).2.2.2.2.2.2]
    simp only [hne, if_false, if_true]
    rw [(setName_fields _ _ _ _).2.2.2.2.2.1, (dpiOpenParentClear_fields _ _ _).2.2.2.2.2.1,
      (setDpiOpenChild_fields _ _ _ _).2.2.2.2.2.1, cloneTree_old _ _ _ hOld]
  · intro m h1 h2
    rw [(setName_fields _ _ _ _).2.2.2.2.2.1, (setTaskp_fields _ _ _ _).2.2.2.2.2.1,
      (addNextHere_fields _ _ _ _).2.2.2.2.2.2]
    simp only [h1, h2, if_false]
    rw [(setName_fields _ _ _ _).2.2.2.2.2.1, (dpiOpenParentClear_fields _ _ _).2.2.2.2.2.1,
      (setDpiOpenChild_fields _ _ _ _).2.2.2.2.2.1]

theorem openArrayPorts_error (fuel : Nat) (tc : List (NodeId × NodeId)) :
    ∀ (sT sA : WidthVisitor) (msg : String), openArrayPorts fuel tc sT = .error (msg, sA) →
      msg = "null pointer dereference" ∨ msg = "hasOpenArrayDTypeRecurse does not return" := by
  induction tc with
  | nil => intro sT sA msg h; simp [openArrayPorts] at h
  | cons pa rest ih =>
    obtain ⟨portp, argp⟩ := pa
    intro sT sA msg h
    simp only [openArrayPorts] at h
    split at h
    · exact ih _ _ _ h
    · split at h
      · cases h; exact Or.inl rfl
      · split at h
        · cases h; exact Or.inr rfl
        · exact ih _ _ _ h
        · exact ih _ _ _ h

/-- A successful run is the loop over `tconnects`, started from the tree the
clone step leaves, for a declaration that is not a child. -/
theorem makeOpenArrayShell_ok (c : Collaborators) (fuel : Nat) (nodep oldTaskp : NodeId)
    (s sF : WidthVisitor) (evs : List Event)
    (hTask : (s.node nodep).taskp = some oldTaskp)
    (hRun : makeOpenArrayShell c fuel nodep s = .ok (sF, evs))
    (hFrame : ∀ call stmtsp st, (c.taskConnects call stmtsp st).2 = st) :
    (s.node oldTaskp).dpiOpenChild = false ∧
    openArrayPorts fuel (tconnects c nodep oldTaskp s)
      (openArrayClone nodep oldTaskp (dpiOpenParentInc oldTaskp s)).2 = .ok sF := by
  simp only [makeOpenArrayShell, hTask, hFrame] at hRun
  rw [(dpiOpenParentInc_fields _ _ _).1] at hRun
  cases hc : (s.node oldTaskp).dpiOpenChild with
  | true => simp [hc] at hRun
  | false =>
    simp only [hc] at hRun
    refine ⟨rfl, ?_⟩
    simp only [tconnects]
    simp only [Bool.false_eq_true, if_false] at hRun
    cases h4 : openArrayPorts fuel
        (c.taskConnects nodep
          ((openArrayClone nodep oldTaskp (dpiOpenParentInc oldTaskp s)).2.node
            (openArrayClone nodep oldTaskp (dpiOpenParentInc oldTaskp s)).1).stmtsp
          (openArrayClone nodep oldTaskp (dpiOpenParentInc oldTaskp s)).2).1
        (openArrayClone nodep oldTaskp (dpiOpenParentInc oldTaskp s)).2 with
    | error e => rw [h4] at hRun; cases hRun
    | ok s4 =>
      rw [h4] at hRun
      simp only [Except.ok.injEq, Prod.mk.injEq] at hRun
      rw [hRun.1]

theorem makeOpenArrayShell_child_run (c : Collaborators) (fuel : Nat)
    (nodep oldTaskp : NodeId) (s : WidthVisitor)
    (hTask : (s.node nodep).taskp = some oldTaskp)
    (hChild : (s.node oldTaskp).dpiOpenChild = true) :
    makeOpenArrayShell c fuel nodep s = .error (dpiRoleMsg, dpiOpenParentInc oldTaskp s) := by
  simp only [makeOpenArrayShell, hTask]
  rw [(dpiOpenParentInc_fields _ _ _).1, hChild]
  rfl

theorem dpiOpenParentInc_other (a : NodeId) (s : WidthVisitor) (m : NodeId) (h : m ≠ a) :
    (dpiOpenParentInc a s).node m = s.node m := by
  simp [dpiOpenParentInc, Function.update, h]

/-- C13: `makeOpenArrayShell` on a call whose declaration is already marked as an
open-array child ends in the internal error "DPI task should be parent or child,
not both"; in the tree at that point no node has been allocated (there is no
clone), every node other than the declaration is as before, the call still
refers to the declaration under its old name and the declaration has its old
next sibling.  On a declaration that is not a child the run does not end in that
error. -/
theorem makeOpenArrayShell_child_fatal (c : Collaborators) (fuel : Nat)
    (nodep oldTaskp : NodeId) (s : WidthVisitor)
    (hTask : (s.node nodep).taskp = some oldTaskp) :
    ((s.node oldTaskp).dpiOpenChild = true →
      ∃ sA, makeOpenArrayShell c fuel nodep s = .error (dpiRoleMsg, sA) ∧
        sA.nodeNext = s.nodeNext ∧
        (∀ m, m ≠ oldTaskp → sA.node m = s.node m) ∧
        (sA.node nodep).taskp = some oldTaskp ∧
        (sA.node nodep).name = (s.node nodep).name ∧
        (sA.node oldTaskp).nextp = (s.node oldTaskp).nextp ∧
        (sA.node oldTaskp).stmtsp = (s.node oldTaskp).stmtsp) ∧
    ((s.node oldTaskp).dpiOpenChild = false →
      ∀ sA, makeOpenArrayShell c fuel nodep s ≠ .error (dpiRoleMsg, sA)) := by
  constructor
  · intro hChild
    refine ⟨dpiOpenParentInc oldTaskp s,
      makeOpenArrayShell_child_run c fuel nodep oldTaskp s hTask hChild, rfl,
      fun m h => dpiOpenParentInc_other _ _ _ h, ?_, ?_, ?_, ?_⟩
    · rw [(dpiOpenParentInc_fields _ _ _).2.2.2.2.1, hTask]
    · rw [(dpiOpenParentInc_fields _ _ _).2.2.2.1]
    · rw [(dpiOpenParentInc_fields _ _ _).2.2.2.2.2.1]
    · rw [(dpiOpenParentInc_fields _ _ _).2.2.1]
  · intro hNot sA hrun
    simp only [makeOpenArrayShell, hTask] at hrun
    rw [(dpiOpenParentInc_fields _ _ _).1, hNot] at hrun
    simp only [Bool.false_eq_true, if_false] at hrun
    split at hrun
    · rename_i e he
      cases hrun
      rcases openArrayPorts_error _ _ _ _ _ he with h | h
      · exact absurd h (by decide)
      · exact absurd h (by decide)
    · cases hrun

/-- Witness of C13 on `openArrayChildTree`: the call 5 refers to the function 1,
which is marked as a child; the run ends in the internal error, with ten nodes
allocated as before and the call still referring to node 1 as `f`. -/
theorem makeOpenArrayShell_child_fatal_witness :
    (openArrayChildTree.node 5).taskp = some 1 ∧
    (openArrayChildTree.node 1).dpiOpenChild = true ∧
    ∃ sA, makeOpenArrayShell Collaborators.connecting 5 5 openArrayChildTree =
        .error ("DPI task should be parent or child, not both", sA) ∧
      sA.nodeNext = 10 ∧ (sA.node 5).taskp = some 1 ∧ (sA.node 5).name = "f" ∧
      (sA.node 1).nextp = some 4 := by
  refine ⟨rfl, rfl, ?_⟩
  obtain ⟨sA, h1, h2, -, h4, h5, h6, -⟩ :=
    (makeOpenArrayShell_child_fatal Collaborators.connecting 5 5 1 openArrayChildTree rfl).1 rfl
  exact ⟨sA, h1, h2, h4, h5, h6⟩

/-- What the loop leaves of every node: all but the descriptor pointer. -/
theorem openArrayPorts_fields (fuel : Nat) (tc : List (NodeId × NodeId))
    (sT sF : WidthVisitor) (h : openArrayPorts fuel tc sT = .ok sF) (m : NodeId) :
    (sF.node m).dpiOpenChild = (sT.node m).dpiOpenChild ∧
    (sF.node m).dpiOpenParent = (sT.node m).dpiOpenParent ∧
    (sF.node m).stmtsp = (sT.node m).stmtsp ∧
    (sF.node m).name = (sT.node m).name ∧
    (sF.node m).taskp = (sT.node m).taskp ∧
    (sF.node m).nextp = (sT.node m).nextp ∧
    (sF.node m).backp = (sT.node m).backp ∧
    (sF.node m).op1p = (sT.node m).op1p := by
  have h6 := (openArrayPorts_frame fuel tc sT sF h).2.2.2.2.2.1 m
  have a1 := congrArg AstNode.dpiOpenChild h6
  have a2 := congrArg AstNode.dpiOpenParent h6
  have a3 := congrArg AstNode.stmtsp h6
  have a4 := congrArg AstNode.name h6
  have a5 := congrArg AstNode.taskp h6
  have a6 := congrArg AstNode.nextp h6
  have a7 := congrArg AstNode.backp h6
  have a8 := congrArg AstNode.op1p h6
  exact ⟨a1, a2, a3, a4, a5, a6, a7, a8⟩

theorem openArrayClone_backp (nodep oldTaskp : NodeId) (s : WidthVisitor)
    (hOld : oldTaskp < s.nodeNext)
    (hNext : ∀ x, (s.node oldTaskp).nextp = some x → x < s.nodeNext) :
    ((openArrayClone nodep oldTaskp s).2.node s.nodeNext).backp = some oldTaskp := by
  have e : (cloneTree oldTaskp s).1 = s.nodeNext := rfl
  have hne : s.nodeNext ≠ oldTaskp := Nat.ne_of_gt hOld
  simp only [openArrayClone, e]
  rw [(setName_fields _ _ _ _).2.2.2.2.2.2.1, (setTaskp_fields _ _ _ _).2.2.2.2.2.2.1]
  apply addNextHere_backp _ _ _ hne
  rw [(setName_fields _ _ _ _).2.2.2.2.2.1, (dpiOpenParentClear_fields _ _ _).2.2.2.2.2.1,
    (setDpiOpenChild_fields _ _ _ _).2.2.2.2.2.1, cloneTree_old _ _ _ hOld]
  intro hx
  exact Nat.lt_irrefl _ (hNext _ hx)

/-- C15: after a successful `makeOpenArrayShell` on a call of an allocated
declaration (with a `taskConnects` that leaves the tree as it is) the call
refers to the node allocated by the run, which is not the original declaration,
the call has the name of that clone, and the clone is the sibling immediately
after the original: the original's next link is the clone, the clone's next link
is the original's former next sibling and the clone's back link is the
original. -/
theorem makeOpenArrayShell_redirects_call (c : Collaborators) (fuel : Nat)
    (nodep oldTaskp : NodeId) (s sF : WidthVisitor) (evs : List Event)
    (hTask : (s.node nodep).taskp = some oldTaskp)
    (hRun : makeOpenArrayShell c fuel nodep s = .ok (sF, evs))
    (hFrame : ∀ call stmtsp st, (c.taskConnects call stmtsp st).2 = st)
    (hOld : oldTaskp < s.nodeNext)
    (hNext : ∀ x, (s.node oldTaskp).nextp = some x → x < s.nodeNext) :
    (sF.node nodep).taskp = some s.nodeNext ∧
    s.nodeNext ≠ oldTaskp ∧
    s.nodeNext < sF.nodeNext ∧
    (sF.node nodep).name = (sF.node s.nodeNext).name ∧
    (sF.node oldTaskp).nextp = some s.nodeNext ∧
    (sF.node s.nodeNext).nextp = (s.node oldTaskp).nextp ∧
    (sF.node s.nodeNext).backp = some oldTaskp := by
  obtain ⟨-, hLoop⟩ := makeOpenArrayShell_ok c fuel nodep oldTaskp s sF evs hTask hRun hFrame
  have hF := openArrayPorts_fields _ _ _ _ hLoop
  have hN := (openArrayPorts_frame _ _ _ _ hLoop).2.1
  have hOld1 : oldTaskp < (dpiOpenParentInc oldTaskp s).nodeNext := hOld
  have hcall := openArrayClone_call nodep oldTaskp (dpiOpenParentInc oldTaskp s)
  have hlinks := openArrayClone_links nodep oldTaskp (dpiOpenParentInc oldTaskp s) hOld1
  have hnx : ((dpiOpenParentInc oldTaskp s).node oldTaskp).nextp = (s.node oldTaskp).nextp :=
    (dpiOpenParentInc_fields _ _ _).2.2.2.2.2.1
  have hback := openArrayClone_backp nodep oldTaskp (dpiOpenParentInc oldTaskp s) hOld1
    (fun x hx => hNext x (hnx ▸ hx))
  have e : (dpiOpenParentInc oldTaskp s).nodeNext = s.nodeNext := rfl
  rw [e] at hcall hlinks hback
  refine ⟨?_, Nat.ne_of_gt hOld, ?_, ?_, ?_, ?_, ?_⟩
  · rw [(hF nodep).2.2.2.2.1]; exact hcall.1
  · rw [hN, (openArrayClone_frame _ _ _).2.2, e]
    exact Nat.lt_of_lt_of_le (Nat.lt_succ_self _) (Nat.le_add_right _ _)
  · rw [(hF nodep).2.2.2.1, (hF s.nodeNext).2.2.2.1]; exact hcall.2.1
  · rw [(hF oldTaskp).2.2.2.2.2.1]; exact hlinks.1
  · rw [(hF s.nodeNext).2.2.2.2.2.1, hlinks.2.1, hnx]
  · rw [(hF s.nodeNext).2.2.2.2.2.2.1]; exact hback

/-- Witness of C15 on `openArrayTree`: the call 5 of the function 1 refers to
the new node 10 afterwards, which stands between node 1 and its former next
sibling 4. -/
theorem makeOpenArrayShell_redirects_call_witness :
    makeOpenArrayShell Collaborators.connecting 5 5 openArrayTree =
      .ok (openArrayTreeAfter, [Event.taskConnects 5 [11, 12]]) ∧
    (openArrayTreeAfter.node 5).taskp = some 10 ∧
    (openArrayTreeAfter.node 5).name = (openArrayTreeAfter.node 10).name ∧
    (openArrayTreeAfter.node 1).nextp = some 10 ∧
    (openArrayTreeAfter.node 10).nextp = some 4 ∧
    (openArrayTreeAfter.node 10).backp = some 1 := by
  obtain ⟨h1, -, -, h4, h5, h6, h7⟩ :=
    makeOpenArrayShell_redirects_call Collaborators.connecting 5 5 1 openArrayTree
      openArrayTreeAfter [Event.taskConnects 5 [11, 12]]
      rfl rfl (fun _ _ _ => rfl) (by decide)
      (fun x hx => by
        have e : x = 4 := (Option.some.inj hx).symm
        subst e; decide)
  exact ⟨rfl, h1, h4, h5, h6, h7⟩

theorem dpiOpenParentInc_roles (oldTaskp : NodeId) (s : WidthVisitor)
    (hNot : (s.node oldTaskp).dpiOpenChild = false) (hInv : dpiRolesExclusive s) :
    dpiRolesExclusive (dpiOpenParentInc oldTaskp s) := by
  intro m hm
  by_cases h : m = oldTaskp
  · subst h
    rw [(dpiOpenParentInc_fields _ _ _).1, hNot] at hm
    exact Bool.noConfusion hm.1
  · rw [dpiOpenParentInc_other _ _ _ h] at hm
    exact hInv m hm

/-- C16: a successful `makeOpenArrayShell` on a call of an allocated declaration
(with a `taskConnects` that leaves the tree as it is) preserves the role
invariant: if no node is both a child and a parent before, none is afterwards;
the original has its parent count increased by exactly one and its child flag
still false, and the clone has its child flag set and its parent count zero. -/
theorem makeOpenArrayShell_preserves_roles (c : Collaborators) (fuel : Nat)
    (nodep oldTaskp : NodeId) (s sF : WidthVisitor) (evs : List Event)
    (hTask : (s.node nodep).taskp = some oldTaskp)
    (hRun : makeOpenArrayShell c fuel nodep s = .ok (sF, evs))
    (hFrame : ∀ call stmtsp st, (c.taskConnects call stmtsp st).2 = st)
    (hOld : oldTaskp < s.nodeNext)
    (hInv : dpiRolesExclusive s) :
    dpiRolesExclusive sF ∧
    (sF.node oldTaskp).dpiOpenParent = (s.node oldTaskp).dpiOpenParent + 1 ∧
    (sF.node oldTaskp).dpiOpenChild = false ∧
    (sF.node s.nodeNext).dpiOpenChild = true ∧
    (sF.node s.nodeNext).dpiOpenParent = 0 := by
  obtain ⟨hNot, hLoop⟩ := makeOpenArrayShell_ok c fuel nodep oldTaskp s sF evs hTask hRun hFrame
  have hF := openArrayPorts_fields _ _ _ _ hLoop
  have hC := openArrayClone_fields nodep oldTaskp (dpiOpenParentInc oldTaskp s)
  have e : (dpiOpenParentInc oldTaskp s).nodeNext = s.nodeNext := rfl
  have hOld1 : oldTaskp < (dpiOpenParentInc oldTaskp s).nodeNext := hOld
  have hne : oldTaskp ≠ s.nodeNext := Nat.ne_of_lt hOld
  have hInv1 := dpiOpenParentInc_roles oldTaskp s hNot hInv
  rw [e] at hC
  refine ⟨?_, ?_, ?_, ?_, ?_⟩
  · intro m hm
    rw [(hF m).1, (hF m).2.1, (hC m).1, (hC m).2.1] at hm
    by_cases h : m = s.nodeNext
    · simp [h] at hm
    · simp only [h, if_false] at hm
      rcases cloneTree_role oldTaskp (dpiOpenParentInc oldTaskp s) m h hm with h1 | ⟨x, -, h1⟩
      · exact hInv1 m h1
      · exact hInv1 x h1
  · rw [(hF oldTaskp).2.1, (hC oldTaskp).2.1]
    simp only [hne, if_false]
    rw [cloneTree_old _ _ _ hOld1, (dpiOpenParentInc_fields _ _ _).2.2.2.2.2.2.2]
    simp
  · rw [(hF oldTaskp).1, (hC oldTaskp).1]
    simp only [hne, if_false]
    rw [cloneTree_old _ _ _ hOld1, (dpiOpenParentInc_fields _ _ _).1, hNot]
  · rw [(hF s.nodeNext).1, (hC s.nodeNext).1]
    simp
  · rw [(hF s.nodeNext).2.1, (hC s.nodeNext).2.1]
    simp

/-- Witness of C16 on `openArrayTree`, where no node has a role before: after
the run the function 1 is a parent with the count one and not a child, and the
clone 10 is a child with the count zero. -/
theorem makeOpenArrayShell_preserves_roles_witness :
    dpiRolesExclusive openArrayTree ∧
    dpiRolesExclusive openArrayTreeAfter ∧
    (openArrayTreeAfter.node 1).dpiOpenParent = 1 ∧
    (openArrayTreeAfter.node 1).dpiOpenChild = false ∧
    (openArrayTreeAfter.node 10).dpiOpenChild = true ∧
    (openArrayTreeAfter.node 10).dpiOpenParent = 0 :=
  ⟨fun _ h => Bool.noConfusion h.1,
    makeOpenArrayShell_preserves_roles Collaborators.connecting 5 5 1 openArrayTree
      openArrayTreeAfter [Event.taskConnects 5 [11, 12]]
      rfl rfl (fun _ _ _ => rfl) (by decide) (fun _ h => Bool.noConfusion h.1)⟩

theorem setName_other (a : NodeId) (name : String) (s : WidthVisitor) (m : NodeId)
    (h : m ≠ a) : (setName a name s).node m = s.node m := by
  simp [setName, Function.update, h]

theorem setTaskp_other (a : NodeId) (taskp : Option NodeId) (s : WidthVisitor) (m : NodeId)
    (h : m ≠ a) : (setTaskp a taskp s).node m = s.node m := by
  simp [setTaskp, Function.update, h]

theorem setDpiOpenChild_other (a : NodeId) (b : Bool) (s : WidthVisitor) (m : NodeId)
    (h : m ≠ a) : (setDpiOpenChild a b s).node m = s.node m := by
  simp [setDpiOpenChild, Function.update, h]

theorem dpiOpenParentClear_other (a : NodeId) (s : WidthVisitor) (m : NodeId)
    (h : m ≠ a) : (dpiOpenParentClear a s).node m = s.node m := by
  simp [dpiOpenParentClear, Function.update, h]

theorem addNextHere_self (a newp : NodeId) (s : WidthVisitor)
    (h1 : a ≠ newp) (h2 : (s.node a).nextp ≠ some a) :
    (addNextHere a newp s).node a = { s.node a with nextp := some newp } := by
  cases hx : (s.node a).nextp with
  | none => simp [addNextHere, setBackOfNext, hx, Function.update, h1]
  | some x =>
    have hx2 : a ≠ x := fun e => h2 (by rw [hx, ← e])
    simp [addNextHere, setBackOfNext, hx, Function.update, h1, hx2]

/-- The original declaration after the clone step: its next link and nothing
else has changed. -/
theorem openArrayClone_original (nodep oldTaskp : NodeId) (s : WidthVisitor)
    (hOld : oldTaskp < s.nodeNext) (hCall : nodep ≠ oldTaskp)
    (hNext : (s.node oldTaskp).nextp ≠ some oldTaskp) :
    (openArrayClone nodep oldTaskp s).2.node oldTaskp =
      { s.node oldTaskp with nextp := some s.nodeNext } := by
  have e : (cloneTree oldTaskp s).1 = s.nodeNext := rfl
  have hne : oldTaskp ≠ s.nodeNext := Nat.ne_of_lt hOld
  have hc : oldTaskp ≠ nodep := fun x => hCall x.symm
  have hpre : (setName s.nodeNext
        (((dpiOpenParentClear s.nodeNext
          (setDpiOpenChild s.nodeNext true (cloneTree oldTaskp s).2)).node s.nodeNext).name ++
          "__Vdpioc" ++
          cvtToStr ((dpiOpenParentClear s.nodeNext
            (setDpiOpenChild s.nodeNext true (cloneTree oldTaskp s).2)).node
              oldTaskp).dpiOpenParent)
        (dpiOpenParentClear s.nodeNext
          (setDpiOpenChild s.nodeNext true (cloneTree oldTaskp s).2))).node oldTaskp =
      s.node oldTaskp := by
    rw [setName_other _ _ _ _ hne, dpiOpenParentClear_other _ _ _ hne,
      setDpiOpenChild_other _ _ _ _ hne, cloneTree_old _ _ _ hOld]
  simp only [openArrayClone, e]
  rw [setName_other _ _ _ _ hc, setTaskp_other _ _ _ _ hc,
    addNextHere_self _ _ _ hne (by rw [hpre]; exact hNext), hpre]

/-- C17: after a successful `makeOpenArrayShell` (with a `taskConnects` that
leaves the tree as it is and connects each formal once, no argument expression
being a connected formal) the statements of the clone are the nodes allocated
after it, the j-th being the copy of the j-th statement `orig` of the original;
for every connection of such a formal with an argument `argp`: if the argument
has an expression and the descriptor copied from `orig` contains an open array,
the formal has the descriptor of that expression; if the copied descriptor
contains no open array, or the argument has no expression, the formal has the
descriptor of `orig`. -/
theorem makeOpenArrayShell_patches_formals (c : Collaborators) (fuel : Nat)
    (nodep oldTaskp : NodeId) (s sF : WidthVisitor) (evs : List Event)
    (hTask : (s.node nodep).taskp = some oldTaskp)
    (hRun : makeOpenArrayShell c fuel nodep s = .ok (sF, evs))
    (hFrame : ∀ call stmtsp st, (c.taskConnects call stmtsp st).2 = st)
    (hNodup : ((tconnects c nodep oldTaskp s).map Prod.fst).Nodup)
    (hPins : ∀ p a pin, (p, a) ∈ tconnects c nodep oldTaskp s →
      (sF.node a).op1p = some pin → pin ∉ (tconnects c nodep oldTaskp s).map Prod.fst) :
    (sF.node s.nodeNext).stmtsp =
      List.range' (s.nodeNext + 1) (s.node oldTaskp).stmtsp.length ∧
    ∀ (j : Nat) (orig argp : NodeId), (s.node oldTaskp).stmtsp[j]? = some orig →
      (s.nodeNext + 1 + j, argp) ∈ tconnects c nodep oldTaskp s →
      (∀ pin d, (sF.node argp).op1p = some pin → (s.node orig).dtypep = some d →
        hasOpenArrayDTypeRecurse s fuel d = some true →
        (sF.node (s.nodeNext + 1 + j)).dtypep = (sF.node pin).dtypep) ∧
      (∀ d, (s.node orig).dtypep = some d →
        hasOpenArrayDTypeRecurse s fuel d = some false →
        (sF.node (s.nodeNext + 1 + j)).dtypep = (s.node orig).dtypep) ∧
      ((sF.node argp).op1p = none →
        (sF.node (s.nodeNext + 1 + j)).dtypep = (s.node orig).dtypep) := by
  obtain ⟨-, hLoop⟩ := makeOpenArrayShell_ok c fuel nodep oldTaskp s sF evs hTask hRun hFrame
  have hF := openArrayPorts_fields _ _ _ _ hLoop
  have hFr := openArrayPorts_frame _ _ _ _ hLoop
  have hC := openArrayClone_fields nodep oldTaskp (dpiOpenParentInc oldTaskp s)
  have e : (dpiOpenParentInc oldTaskp s).nodeNext = s.nodeNext := rfl
  have hst : ((dpiOpenParentInc oldTaskp s).node oldTaskp).stmtsp = (s.node oldTaskp).stmtsp :=
    (dpiOpenParentInc_fields _ _ _).2.2.1
  have hdt : (openArrayClone nodep oldTaskp (dpiOpenParentInc oldTaskp s)).2.dtype = s.dtype :=
    (openArrayClone_frame _ _ _).2.1
  rw [e] at hC
  constructor
  · rw [(hF s.nodeNext).2.2.1, (hC s.nodeNext).2.2.2]
    have hn := cloneTree_new oldTaskp (dpiOpenParentInc oldTaskp s)
    rw [e] at hn
    rw [hn, hst]
  · intro j orig argp hStmt hConn
    have hcopy : ((openArrayClone nodep oldTaskp (dpiOpenParentInc oldTaskp s)).2.node
        (s.nodeNext + 1 + j)).dtypep = (s.node orig).dtypep := by
      have hs := cloneTree_stmt oldTaskp (dpiOpenParentInc oldTaskp s) j orig
        (by rw [hst]; exact hStmt)
      rw [e] at hs
      rw [(hC _).2.2.1, hs]
      exact (dpiOpenParentInc_fields _ _ _).2.1
    have hPins' : ∀ p a pin, (p, a) ∈ tconnects c nodep oldTaskp s →
        ((openArrayClone nodep oldTaskp (dpiOpenParentInc oldTaskp s)).2.node a).op1p =
          some pin → pin ∉ (tconnects c nodep oldTaskp s).map Prod.fst :=
      fun p a pin hm hp => hPins p a pin hm (by rw [(hF a).2.2.2.2.2.2.2]; exact hp)
    obtain ⟨g1, g2, g3⟩ := openArrayPorts_each _ _ _ _ hLoop hNodup hPins' _ _ hConn
    refine ⟨?_, ?_, ?_⟩
    · intro pin d hp hd ho
      have hp' := hp
      rw [(hF argp).2.2.2.2.2.2.2] at hp'
      rw [g1 pin d hp' (by rw [hcopy]; exact hd)
        (by rw [hasOpenArrayDTypeRecurse_congr _ _ hdt]; exact ho)]
      rw [hFr.2.2.2.2.2.2 pin (hPins _ _ _ hConn hp)]
    · intro d hd ho
      rw [g2 d (by rw [hcopy]; exact hd)
        (by rw [hasOpenArrayDTypeRecurse_congr _ _ hdt]; exact ho), hcopy]
    · intro hp
      rw [(hF argp).2.2.2.2.2.2.2] at hp
      rw [g3 hp, hcopy]

/-- Witness of C17 on `openArrayTree`: the formal 11 of the clone, copied from
the open-array formal 2 and connected to the argument 6 with the expression 7,
has the descriptor 12 of that expression; the formal 12, copied from the formal
3 of descriptor 2, keeps that descriptor. -/
theorem makeOpenArrayShell_patches_formals_witness :
    makeOpenArrayShell Collaborators.connecting 5 5 openArrayTree =
      .ok (openArrayTreeAfter, [Event.taskConnects 5 [11, 12]]) ∧
    (openArrayTreeAfter.node 10).stmtsp = [11, 12] ∧
    hasOpenArrayDTypeRecurse openArrayTree 5 10 = some true ∧
    (openArrayTreeAfter.node 11).dtypep = (openArrayTreeAfter.node 7).dtypep ∧
    hasOpenArrayDTypeRecurse openArrayTree 5 2 = some false ∧
    (openArrayTreeAfter.node 12).dtypep = some 2 := by
  obtain ⟨h1, h2⟩ :=
    makeOpenArrayShell_patches_formals Collaborators.connecting 5 5 1 openArrayTree
      openArrayTreeAfter [Event.taskConnects 5 [11, 12]]
      rfl rfl (fun _ _ _ => rfl) (by decide)
      (fun p a pin hm hp => by
        have hm' : (p, a) ∈ [((11 : NodeId), (6 : NodeId)), (12, 8)] := hm
        have hm2 : (p, a) = (11, 6) ∨ (p, a) = (12, 8) := by
          simpa using hm'
        rcases hm2 with h | h
        · cases h
          have e : pin = 7 := (Option.some.inj hp).symm
          subst e; decide
        · cases h
          have e : pin = 9 := (Option.some.inj hp).symm
          subst e; decide)
  exact ⟨rfl, h1, rfl,
    (h2 0 2 6 rfl (by decide)).1 7 10 rfl rfl rfl, rfl,
    (h2 1 3 8 rfl (by decide)).2.1 2 rfl rfl⟩

/-- C18: after a successful `makeOpenArrayShell` on a call of an allocated
declaration that is neither the call itself nor its own next sibling (with a
`taskConnects` that leaves the tree as it is and connects only statements of the
list it is given) the entry of the original declaration is the one before the
call with the parent count increased and the next link set to the clone: its
name and its statement list are the same, and every node allocated before the
call, the original's formals among them, has the descriptor it had. -/
theorem makeOpenArrayShell_original_kept (c : Collaborators) (fuel : Nat)
    (nodep oldTaskp : NodeId) (s sF : WidthVisitor) (evs : List Event)
    (hTask : (s.node nodep).taskp = some oldTaskp)
    (hRun : makeOpenArrayShell c fuel nodep s = .ok (sF, evs))
    (hFrame : ∀ call stmtsp st, (c.taskConnects call stmtsp st).2 = st)
    (hPorts : ∀ call stmtsp st pa, pa ∈ (c.taskConnects call stmtsp st).1 → pa.1 ∈ stmtsp)
    (hOld : oldTaskp < s.nodeNext)
    (hCall : nodep ≠ oldTaskp)
    (hNext : (s.node oldTaskp).nextp ≠ some oldTaskp)
    (hStmts : ∀ x ∈ (s.node oldTaskp).stmtsp, x < s.nodeNext) :
    sF.node oldTaskp =
      { s.node oldTaskp with
        dpiOpenParent := (s.node oldTaskp).dpiOpenParent + 1
        nextp := some s.nodeNext } ∧
    (sF.node oldTaskp).name = (s.node oldTaskp).name ∧
    (sF.node oldTaskp).stmtsp = (s.node oldTaskp).stmtsp ∧
    (∀ x ∈ (s.node oldTaskp).stmtsp, (sF.node x).dtypep = (s.node x).dtypep) ∧
    (∀ m, m < s.nodeNext → (sF.node m).dtypep = (s.node m).dtypep) := by
  obtain ⟨-, hLoop⟩ := makeOpenArrayShell_ok c fuel nodep oldTaskp s sF evs hTask hRun hFrame
  have hFr := openArrayPorts_frame _ _ _ _ hLoop
  have hC := openArrayClone_fields nodep oldTaskp (dpiOpenParentInc oldTaskp s)
  have e : (dpiOpenParentInc oldTaskp s).nodeNext = s.nodeNext := rfl
  have hOld1 : oldTaskp < (dpiOpenParentInc oldTaskp s).nodeNext := hOld
  have hst : ((dpiOpenParentInc oldTaskp s).node oldTaskp).stmtsp = (s.node oldTaskp).stmtsp :=
    (dpiOpenParentInc_fields _ _ _).2.2.1
  -- the connected formals are statements of the clone, allocated by the run
  have hnew : ∀ m, m < s.nodeNext → m ∉ (tconnects c nodep oldTaskp s).map Prod.fst := by
    intro m hm hmem
    obtain ⟨pa, hpa, hfst⟩ := List.mem_map.mp hmem
    have h1 := hPorts _ _ _ pa hpa
    rw [(openArrayClone_frame _ _ _).1, e, (hC s.nodeNext).2.2.2] at h1
    have hn := cloneTree_new oldTaskp (dpiOpenParentInc oldTaskp s)
    rw [e] at hn
    rw [hn] at h1
    have h2 := (List.mem_range'_1.mp h1).1
    rw [hfst] at h2
    exact Nat.lt_irrefl _
      (Nat.lt_of_lt_of_le (Nat.lt_succ_self _) (Nat.le_trans h2 (Nat.le_of_lt hm)))
  have hkeep : ∀ m, m < s.nodeNext → (sF.node m).dtypep = (s.node m).dtypep := by
    intro m hm
    rw [hFr.2.2.2.2.2.2 m (hnew m hm), (hC m).2.2.1,
      cloneTree_old oldTaskp (dpiOpenParentInc oldTaskp s) m hm]
    exact (dpiOpenParentInc_fields _ _ _).2.1
  have hrec : sF.node oldTaskp =
      { s.node oldTaskp with
        dpiOpenParent := (s.node oldTaskp).dpiOpenParent + 1
        nextp := some s.nodeNext } := by
    rw [hFr.2.2.2.2.2.2 oldTaskp (hnew oldTaskp hOld),
      openArrayClone_original nodep oldTaskp (dpiOpenParentInc oldTaskp s) hOld1 hCall
        (by rw [(dpiOpenParentInc_fields _ _ _).2.2.2.2.2.1]; exact hNext)]
    simp [dpiOpenParentInc]
  refine ⟨hrec, ?_, ?_, fun x hx => hkeep x (hStmts x hx), hkeep⟩
  · rw [hrec]
  · rw [hrec]

/-- Witness of C18 on `openArrayTree`: after the run the function 1 is still
named `f` with the statements 2 and 3, whose descriptors are 10 and 2 as before,
while the formal 11 of the clone has the descriptor 12. -/
theorem makeOpenArrayShell_original_kept_witness :
    makeOpenArrayShell Collaborators.connecting 5 5 openArrayTree =
      .ok (openArrayTreeAfter, [Event.taskConnects 5 [11, 12]]) ∧
    (openArrayTreeAfter.node 1).name = "f" ∧
    (openArrayTreeAfter.node 1).stmtsp = [2, 3] ∧
    (openArrayTreeAfter.node 2).dtypep = some 10 ∧
    (openArrayTreeAfter.node 3).dtypep = some 2 ∧
    (openArrayTreeAfter.node 11).dtypep = some 12 := by
  obtain ⟨-, h2, h3, h4, -⟩ :=
    makeOpenArrayShell_original_kept Collaborators.connecting 5 5 1 openArrayTree
      openArrayTreeAfter [Event.taskConnects 5 [11, 12]]
      rfl rfl (fun _ _ _ => rfl)
      (fun _ stmtsp _ pa h => (List.of_mem_zip h).1)
      (by decide) (by decide) (by decide)
      (fun x hx => by
        have hx' : x ∈ [(2 : NodeId), 3] := hx
        have hx2 : x = 2 ∨ x = 3 := by simpa using hx'
        rcases hx2 with h | h <;> subst h <;> decide)
  exact ⟨rfl, h2, h3, h4 2 (by decide), h4 3 (by decide), rfl⟩

end OpenArray

/-! ### Clocking block members -/

section Clocking

/-- The loop of `memberSelClocking`, as a search in the list of the variables of
the clocking items. -/
theorem memberSelClockingItems_run (c : Collaborators) (s : WidthVisitor) (name : String)
    (items : List NodeId) :
    ∀ (candidates : List String),
      (∀ itemp ∈ items, (s.node itemp).type = VNType.ClockingItem →
        (s.node itemp).varp ≠ none) →
      memberSelClockingItems c s name items candidates =
        match (items.filterMap fun itemp =>
            if (s.node itemp).type = VNType.ClockingItem then (s.node itemp).varp
            else none).find? (fun v => decide ((s.node v).name = name)) with
        | some v => .ok (.inl v)
        | none =>
          .ok (.inr (candidates ++
            (items.filterMap fun itemp =>
              if (s.node itemp).type = VNType.ClockingItem then (s.node itemp).varp
              else none).map fun v => c.prettyName (s.node v).name)) := by
  induction items with
  | nil => intro candidates _; simp [memberSelClockingItems]
  | cons itemp rest ih =>
    intro candidates hVar
    have hrest : ∀ i ∈ rest, (s.node i).type = VNType.ClockingItem → (s.node i).varp ≠ none :=
      fun i hi => hVar i (List.mem_cons_of_mem _ hi)
    by_cases ht : (s.node itemp).type = VNType.ClockingItem
    · cases hv : (s.node itemp).varp with
      | none => exact absurd hv (hVar itemp (List.mem_cons_self _ _) ht)
      | some varp =>
        by_cases hn : (s.node varp).name = name
        · simp [memberSelClockingItems, ht, hv, hn, List.filterMap_cons]
        · simp [memberSelClockingItems, ht, hv, hn, List.filterMap_cons, ih _ hrest]
    · simp [memberSelClockingItems, ht, List.filterMap_cons, ih _ hrest]

/-- C19: for a member reference `nodep` and a clocking block whose clocking
items all have a variable, `memberSelClocking` returns, calling nothing, the
first of the variables of the block's clocking items (in the order of the item
list) that has the referenced name, with the state and its diagnostics as they
were; it returns null if and only if no clocking item's variable has that name,
and then the state is the one before with exactly one user error at `nodep`
added: "Member <name> not found in clocking block <block>", a line break and,
unless the suggestion is empty, `warnMore()` and the suggestion, which
`bestCandidateMsg` computes from the pretty names of the variables of all
clocking items of the block, in order. -/
theorem memberSelClocking_result (c : Collaborators) (nodep clockingp : NodeId)
    (s : WidthVisitor)
    (hVar : ∀ itemp ∈ (s.node clockingp).itemsp,
      (s.node itemp).type = VNType.ClockingItem → (s.node itemp).varp ≠ none) :
    ∃ r sF, memberSelClocking c nodep clockingp s = .ok (r, sF, []) ∧
      r = (clockingVars s clockingp).find?
        (fun v => decide ((s.node v).name = (s.node nodep).name)) ∧
      (r ≠ none → sF = s) ∧
      (r = none ↔ ∀ v ∈ clockingVars s clockingp, (s.node v).name ≠ (s.node nodep).name) ∧
      (r = none → ∀ suggest,
        suggest = c.bestCandidateMsg
          ((clockingVars s clockingp).map fun v => c.prettyName (s.node v).name)
          (c.prettyName (s.node nodep).name) →
        sF = v3error nodep
          ("Member " ++ ("'" ++ c.prettyName (s.node nodep).name ++ "'") ++
            " not found in clocking block " ++
            ("'" ++ c.prettyName (s.node clockingp).name ++ "'") ++ "\n" ++
            (if suggest = "" then ""
              else c.warnMore (s.fileLine (s.node nodep).fileline) ++ suggest)) s ∧
        sF.diags = s.diags ++
          [{ code := none, nodep := nodep,
             msg := "Member " ++ ("'" ++ c.prettyName (s.node nodep).name ++ "'") ++
              " not found in clocking block " ++
              ("'" ++ c.prettyName (s.node clockingp).name ++ "'") ++ "\n" ++
              (if suggest = "" then ""
                else c.warnMore (s.fileLine (s.node nodep).fileline) ++ suggest) }]) := by
  have hrun := memberSelClockingItems_run c s (s.node nodep).name (s.node clockingp).itemsp []
    hVar
  have hfind : ∀ (l : List NodeId),
      l.find? (fun v => decide ((s.node v).name = (s.node nodep).name)) = none ↔
        ∀ v ∈ l, (s.node v).name ≠ (s.node nodep).name := by
    intro l
    simp [List.find?_eq_none]
  cases hf : (clockingVars s clockingp).find?
      (fun v => decide ((s.node v).name = (s.node nodep).name)) with
  | some v =>
    simp only [clockingVars] at hf
    rw [hf] at hrun
    refine ⟨some v, s, ?_, rfl, fun _ => rfl, ?_, fun h => Option.noConfusion h⟩
    · simp only [memberSelClocking, hrun]
    · constructor
      · intro h; exact Option.noConfusion h
      · intro h
        have := (hfind (clockingVars s clockingp)).mpr h
        simp only [clockingVars] at this
        rw [hf] at this
        exact Option.noConfusion this
  | none =>
    have hall := (hfind (clockingVars s clockingp)).mp hf
    simp only [clockingVars] at hf
    rw [hf] at hrun
    refine ⟨none,
      v3error nodep (memberNotFoundMsg c s nodep clockingp
        (c.bestCandidateMsg
          ((clockingVars s clockingp).map fun v => c.prettyName (s.node v).name)
          (c.prettyName (s.node nodep).name))) s,
      ?_, rfl, fun h => absurd rfl h, ⟨fun _ => hall, fun _ => rfl⟩, ?_⟩
    · simp only [memberSelClocking, hrun, List.nil_append, clockingVars]
    · intro _ suggest hs
      subst hs
      exact ⟨rfl, rfl⟩

/-- Witness of C19 on `clockingTree`: the reference 7 to `reset` returns the
variable 5 of the second clocking item and reports nothing; the reference 6 to
`clk` returns null and adds one error. -/
theorem memberSelClocking_result_witness :
    memberSelClocking Collaborators.spelling 7 0 clockingTree =
      .ok (some 5, clockingTree, []) ∧
    ∃ sF, memberSelClocking Collaborators.spelling 6 0 clockingTree = .ok (none, sF, []) ∧
      sF.diags.length = clockingTree.diags.length + 1 := by
  have hVar : ∀ itemp ∈ (clockingTree.node 0).itemsp,
      (clockingTree.node itemp).type = VNType.ClockingItem →
        (clockingTree.node itemp).varp ≠ none := by
    intro itemp hi
    have hi' : itemp ∈ [(1 : NodeId), 2, 3] := hi
    have h3 : itemp = 1 ∨ itemp = 2 ∨ itemp = 3 := by simpa using hi'
    rcases h3 with h | h | h <;> subst h <;> decide
  constructor
  · obtain ⟨r, sF, h1, h2, h3, -, -⟩ :=
      memberSelClocking_result Collaborators.spelling 7 0 clockingTree hVar
    have hr : r = some 5 := h2.trans (by decide)
    subst hr
    rw [h1, h3 (fun h => Option.noConfusion h)]
  · obtain ⟨r, sF, h1, h2, -, -, h5⟩ :=
      memberSelClocking_result Collaborators.spelling 6 0 clockingTree hVar
    have hr : r = none := h2.trans (by decide)
    subst hr
    refine ⟨sF, h1, ?_⟩
    rw [(h5 rfl _ rfl).2]
    simp

/-- C20: with the suggestions of `VSpellCheck.bestCandidateMsg` and names that
are printed as they are, a member reference named `clk` into a clocking block
whose clocking items have the variables named `clock` and `reset`, and no
others, makes `memberSelClocking` return null with one user error added, whose
message is "Member 'clk' not found in clocking block <block>", a line break,
`warnMore()` and the suggestion of `clock`. -/
theorem memberSelClocking_suggests_clock (c : Collaborators) (nodep clockingp : NodeId)
    (s : WidthVisitor)
    (hVar : ∀ itemp ∈ (s.node clockingp).itemsp,
      (s.node itemp).type = VNType.ClockingItem → (s.node itemp).varp ≠ none)
    (hNames : (clockingVars s clockingp).map (fun v => (s.node v).name) = ["clock", "reset"])
    (hGoal : (s.node nodep).name = "clk")
    (hSpell : c.bestCandidateMsg = VSpellCheck.bestCandidateMsg)
    (hPretty : ∀ name, c.prettyName name = name) :
    VSpellCheck.bestCandidate "clk" ["clock", "reset"] = some "clock" ∧
    ∃ sF, memberSelClocking c nodep clockingp s = .ok (none, sF, []) ∧
      sF.diags = s.diags ++
        [{ code := none, nodep := nodep,
           msg := "Member " ++ "'clk'" ++ " not found in clocking block " ++
            ("'" ++ (s.node clockingp).name ++ "'") ++ "\n" ++
            (c.warnMore (s.fileLine (s.node nodep).fileline) ++
              "Suggested alternative: 'clock'") }] := by
  have hrun := memberSelClockingItems_run c s (s.node nodep).name (s.node clockingp).itemsp []
    hVar
  have hmiss : (clockingVars s clockingp).find?
      (fun v => decide ((s.node v).name = (s.node nodep).name)) = none := by
    rw [List.find?_eq_none]
    intro v hv
    have hmem : (s.node v).name ∈ (clockingVars s clockingp).map (fun v => (s.node v).name) :=
      List.mem_map_of_mem _ hv
    rw [hNames] at hmem
    rw [hGoal]
    have h2 : (s.node v).name = "clock" ∨ (s.node v).name = "reset" := by simpa using hmem
    rcases h2 with h | h <;> rw [h] <;> decide
  have hbest : VSpellCheck.bestCandidate "clk" ["clock", "reset"] = some "clock" := by decide
  have hsug : VSpellCheck.bestCandidateMsg ["clock", "reset"] "clk" =
      "Suggested alternative: 'clock'" := by
    simp only [VSpellCheck.bestCandidateMsg, hbest]
    decide
  simp only [clockingVars] at hmiss
  rw [hmiss] at hrun
  refine ⟨hbest,
    v3error nodep (memberNotFoundMsg c s nodep clockingp
      (c.bestCandidateMsg
        ((clockingVars s clockingp).map fun v => c.prettyName (s.node v).name)
        (c.prettyName (s.node nodep).name))) s, ?_, ?_⟩
  · simp only [memberSelClocking, hrun, List.nil_append, clockingVars]
  · have hq : "'" ++ "clk" ++ "'" = "'clk'" := by decide
    have hne : ¬ "Suggested alternative: 'clock'" = "" := by decide
    simp only [v3error, memberNotFoundMsg, prettyNameQ, hPretty, hGoal, hSpell]
    rw [hNames, hsug, hq, if_neg hne]

/-- Witness of C20 on `clockResetTree`: the reference 6 to `clk` into the block
`cb`, whose items 1 and 2 have the variables `clock` and `reset`. -/
theorem memberSelClocking_suggests_clock_witness :
    (clockingVars clockResetTree 0).map (fun v => (clockResetTree.node v).name) =
      ["clock", "reset"] ∧
    (clockResetTree.node 6).name = "clk" ∧
    ∃ sF, memberSelClocking Collaborators.spelling 6 0 clockResetTree = .ok (none, sF, []) ∧
      sF.diags =
        [{ code := none, nodep := 6,
           msg := "Member 'clk' not found in clocking block 'cb'\n... " ++
            "Suggested alternative: 'clock'" }] := by
  have hVar : ∀ itemp ∈ (clockResetTree.node 0).itemsp,
      (clockResetTree.node itemp).type = VNType.ClockingItem →
        (clockResetTree.node itemp).varp ≠ none := by
    intro itemp hi
    have hi' : itemp ∈ [(1 : NodeId), 2] := hi
    have h3 : itemp = 1 ∨ itemp = 2 := by simpa using hi'
    rcases h3 with h | h <;> subst h <;> decide
  obtain ⟨-, sF, h1, h2⟩ :=
    memberSelClocking_suggests_clock Collaborators.spelling 6 0 clockResetTree hVar
      (by decide) (by decide) rfl (fun _ => rfl)
  refine ⟨by decide, by decide, sF, h1, ?_⟩
  rw [h2]
  decide

end Clocking

/-! ### C22: the stage mask and the context of the entry point -/

theorem pure_bind_run {α β : Type} (a : α) (f : α → W β) (s : WidthVisitor) :
    (W.pure a >>= f) s = f a s := by
  simp only [W.bind_apply, W.bind, W.pure]
  cases f a s with
  | error e => rfl
  | ok out => obtain ⟨b, s2, ev2⟩ := out; simp

/-- C22: `BOTH` is the bitwise or of `PRELIM` and `FINAL`; for every context
`prelim()` holds exactly for the stages `PRELIM` and `BOTH`, `final()` exactly
for `FINAL` and `BOTH`, and one of the two holds; the construction
`WidthVP{SELF, BOTH}` of `mainAcceptEdit` does not raise, its context has
`selfDtm()`, `prelim()` and `final()` all true, and `mainAcceptEdit` on a root
node is the nested iteration of that node under this context, after which
`m_vup` is what it was. -/
theorem mainAcceptEdit_context (c : Collaborators) (n : NodeId) (s : WidthVisitor) :
    Stage.BOTH.toNat = Stage.PRELIM.toNat ||| Stage.FINAL.toNat ∧
    (∀ vup : WidthVP,
      (vup.prelim = true ↔ vup.m_stage = Stage.PRELIM ∨ vup.m_stage = Stage.BOTH) ∧
      (vup.final = true ↔ vup.m_stage = Stage.FINAL ∨ vup.m_stage = Stage.BOTH) ∧
      (vup.prelim = true ∨ vup.final = true)) ∧
    ∃ vup, WidthVP.ofDeterm Determ.SELF Stage.BOTH = .ok vup ∧
      vup.selfDtm = true ∧ vup.prelim = true ∧ vup.final = true ∧
      mainAcceptEdit c (some n) s =
        match c.iterateSubtreeReturnEdits n { s with m_vup := some vup } with
        | .error e => .error e
        | .ok (ret, s1) =>
          .ok (ret, { s1 with m_vup := s.m_vup },
            [Event.iterateSubtreeReturnEdits n (some vup)]) := by
  refine ⟨by decide, ?_, ?_⟩
  · intro vup
    obtain ⟨d, stage⟩ := vup
    cases stage <;> simp [WidthVP.prelim, WidthVP.final] <;> decide
  · refine ⟨{ m_dtypep := none, m_stage := Stage.BOTH }, rfl, rfl, by decide, by decide, ?_⟩
    rw [← userIterateSubtreeReturnEdits_some]
    exact pure_bind_run _ _ _

/-! ### C23: open arrays on the sub-type chain -/

/-- C23: on a type whose sub-type chain (sub-type, reference wrappers skipped,
repeatedly) ends after at most `n` steps, `hasOpenArrayDTypeRecurse` returns
with every recursion depth above `n`, and its value is true exactly when the
type itself or a type on that chain is an unsized array. -/
theorem hasOpenArrayDTypeRecurse_chain (s : WidthVisitor) (n : Nat) :
    ∀ (fuel : Nat) (t : DTypeId), subDTypeChainEnds s n t = true → n < fuel →
      hasOpenArrayDTypeRecurse s fuel t =
        some ((subDTypeChain s n t).any fun d => (s.dtype d).isUnsizedArrayDType) := by
  induction n with
  | zero =>
    intro fuel t hEnds hFuel
    obtain ⟨f, rfl⟩ : ∃ f, fuel = f + 1 := ⟨fuel - 1, by omega⟩
    simp only [subDTypeChainEnds, subDTypeNext] at hEnds
    cases hsub : (s.dtype t).subDTypep with
    | some subp => simp [hsub] at hEnds
    | none =>
      cases hu : (s.dtype t).isUnsizedArrayDType <;>
        simp [hasOpenArrayDTypeRecurse, subDTypeChain, hsub, hu]
  | succ n ih =>
    intro fuel t hEnds hFuel
    obtain ⟨f, rfl⟩ : ∃ f, fuel = f + 1 := ⟨fuel - 1, by omega⟩
    simp only [subDTypeChainEnds, subDTypeNext] at hEnds
    cases hsub : (s.dtype t).subDTypep with
    | none =>
      cases hu : (s.dtype t).isUnsizedArrayDType <;>
        simp [hasOpenArrayDTypeRecurse, subDTypeChain, subDTypeNext, hsub, hu]
    | some subp =>
      simp only [hsub, Option.map_some'] at hEnds
      have hrec := ih f (s.dtype subp).skipRefp hEnds (by omega)
      cases hu : (s.dtype t).isUnsizedArrayDType <;>
        simp [hasOpenArrayDTypeRecurse, subDTypeChain, subDTypeNext, hsub, hu, hrec]

/-- Witness of C23 on `openArrayTree`: the chain of descriptor 10 is 10, 11, 2,
of which 11 is an unsized array; the chain of descriptor 12 is 12, 2, without
one. -/
theorem hasOpenArrayDTypeRecurse_chain_witness :
    subDTypeChain openArrayTree 2 10 = [10, 11, 2] ∧
    hasOpenArrayDTypeRecurse openArrayTree 5 10 = some true ∧
    subDTypeChain openArrayTree 2 12 = [12, 2] ∧
    hasOpenArrayDTypeRecurse openArrayTree 5 12 = some false :=
  ⟨by decide,
    (hasOpenArrayDTypeRecurse_chain openArrayTree 2 5 10 (by decide) (by decide)).trans
      (by decide),
    by decide,
    (hasOpenArrayDTypeRecurse_chain openArrayTree 2 5 12 (by decide) (by decide)).trans
      (by decide)⟩

/-! ### C24: arrays of the same size -/

theorem areSameSizeDims_iff (s : WidthVisitor) (dims0 : List DTypeId) :
    ∀ dims1 : List DTypeId, dims0.length = dims1.length →
      (areSameSizeDims s dims0 dims1 = true ↔
        dims0.map (fun d => (s.dtype d).elementsConst) =
          dims1.map (fun d => (s.dtype d).elementsConst)) := by
  induction dims0 with
  | nil =>
    intro dims1 h
    cases dims1 with
    | nil => simp [areSameSizeDims]
    | cons d r => simp at h
  | cons d0 r0 ih =>
    intro dims1 h
    cases dims1 with
    | nil => simp at h
    | cons d1 r1 =>
      have hr : r0.length = r1.length := by simpa using h
      by_cases he : (s.dtype d0).elementsConst = (s.dtype d1).elementsConst
      · simp [areSameSizeDims, he, ih r1 hr]
      · simp [areSameSizeDims, he]

theorem areSameSize_iff_map (s : WidthVisitor) (t0 t1 : DTypeId) :
    areSameSize s t0 t1 = true ↔
      (s.dtype t0).unpackDimensions.map (fun d => (s.dtype d).elementsConst) =
        (s.dtype t1).unpackDimensions.map (fun d => (s.dtype d).elementsConst) := by
  by_cases hl : (s.dtype t0).unpackDimensions.length = (s.dtype t1).unpackDimensions.length
  · simp only [areSameSize, hl, ne_eq, not_true_eq_false, if_false]
    exact areSameSizeDims_iff s _ _ hl
  · simp only [areSameSize, hl, ne_eq, not_false_eq_true, if_true]
    constructor
    · intro h; cases h
    · intro h
      exact absurd (by simpa using congrArg List.length h) hl

/-- C24: `areSameSize` is true exactly when the two types have the same number
of unpacked dimensions and, at every dimension index, dimensions with the same
`elementsConst()`; it is reflexive, symmetric and transitive. -/
theorem areSameSize_iff (s : WidthVisitor) (t0 t1 t2 : DTypeId) :
    (areSameSize s t0 t1 = true ↔
      (s.dtype t0).unpackDimensions.length = (s.dtype t1).unpackDimensions.length ∧
      ∀ (i : Nat) (d0 d1 : DTypeId), (s.dtype t0).unpackDimensions[i]? = some d0 →
        (s.dtype t1).unpackDimensions[i]? = some d1 →
        (s.dtype d0).elementsConst = (s.dtype d1).elementsConst) ∧
    areSameSize s t0 t0 = true ∧
    (areSameSize s t0 t1 = true → areSameSize s t1 t0 = true) ∧
    (areSameSize s t0 t1 = true → areSameSize s t1 t2 = true → areSameSize s t0 t2 = true) := by
  refine ⟨?_, ?_, ?_, ?_⟩
  · rw [areSameSize_iff_map]
    constructor
    · intro h
      refine ⟨by simpa using congrArg List.length h, ?_⟩
      intro i d0 d1 h0 h1
      have hi := congrArg (fun l => l[i]?) h
      simp only [List.getElem?_map, h0, h1, Option.map_some'] at hi
      exact Option.some.inj hi
    · rintro ⟨hl, hall⟩
      apply List.ext_getElem?
      intro i
      simp only [List.getElem?_map]
      cases h0 : (s.dtype t0).unpackDimensions[i]? with
      | none =>
        have : (s.dtype t1).unpackDimensions[i]? = none := by
          rw [List.getElem?_eq_none_iff] at h0 ⊢
          omega
        simp [this]
      | some d0 =>
        cases h1 : (s.dtype t1).unpackDimensions[i]? with
        | none =>
          rw [List.getElem?_eq_none_iff] at h1
          have := (List.getElem?_eq_some_iff.mp h0).1
          omega
        | some d1 => simp [hall i d0 d1 h0 h1]
  · rw [areSameSize_iff_map]
  · rw [areSameSize_iff_map, areSameSize_iff_map]
    exact fun h => h.symm
  · rw [areSameSize_iff_map, areSameSize_iff_map, areSameSize_iff_map]
    exact fun h1 h2 => h1.trans h2

/-- Witness of C24 on `arrayTypes`: the types 20 and 21 have the dimensions 4, 8
and are of the same size, in both orders; 20 and 26 are not. -/
theorem areSameSize_iff_witness :
    areSameSize arrayTypes 20 21 = true ∧ areSameSize arrayTypes 21 20 = true ∧
    areSameSize arrayTypes 20 26 = false :=
  ⟨by decide, (areSameSize_iff arrayTypes 20 21 20).2.2.1 (by decide), by decide⟩

/-! ### C25: the file descriptor wrapper -/

theorem iterateCheckFileDesc_run (c : Collaborators) (parentp n : NodeId) (s : WidthVisitor) :
    iterateCheckFileDesc c parentp (some n) Stage.BOTH s =
      match c.iterateSubtreeReturnEdits n
          { s with m_vup := some { m_dtypep := none, m_stage := Stage.PRELIM } } with
      | .error e => .error e
      | .ok (none, _) => .error "null pointer dereference"
      | .ok (some u, s1) =>
        match c.iterateCheck parentp "file_descriptor" (some u) Determ.SELF Stage.FINAL
            (some (c.findUInt32DType u { s1 with m_vup := s.m_vup }).1)
            ExtendRule.EXTEND_EXP true
            (c.findUInt32DType u { s1 with m_vup := s.m_vup }).2 with
        | .error e => .error e
        | .ok (_, s2) =>
          .ok ((), s2,
            [Event.iterateSubtreeReturnEdits n
              (some { m_dtypep := none, m_stage := Stage.PRELIM }),
             Event.findUInt32DType u,
             Event.iterateCheck parentp "file_descriptor" (some u) Determ.SELF Stage.FINAL
              (some (c.findUInt32DType u { s1 with m_vup := s.m_vup }).1)
              ExtendRule.EXTEND_EXP true]) := by
  have hv := prelimStage_visit c Stage.BOTH n s (by decide)
  have hp : prelimSelfVisit c (some n) s = prelimStage c Stage.BOTH (some n) s := by
    simp [prelimStage, Stage.andPRELIM, Stage.toNat]
  simp only [iterateCheckFileDesc, UASSERT_OBJ, decide_True, if_true, pure_bind_run]
  simp only [W.bind_apply, W.bind, hp, hv]
  cases c.iterateSubtreeReturnEdits n
      { s with m_vup := some { m_dtypep := none, m_stage := Stage.PRELIM } } with
  | error e => rfl
  | ok out =>
    obtain ⟨ret, s1⟩ := out
    cases ret with
    | none => rfl
    | some u =>
      simp only [W.deref, W.pure, W.callFind, W.call]
      cases c.iterateCheck parentp "file_descriptor" (some u) Determ.SELF Stage.FINAL
          (some (c.findUInt32DType u { s1 with m_vup := s.m_vup }).1)
          ExtendRule.EXTEND_EXP true
          (c.findUInt32DType u { s1 with m_vup := s.m_vup }).2 with
      | error e => rfl
      | ok out2 => obtain ⟨r, s2⟩ := out2; rfl

theorem iterateCheckUInt32_run (c : Collaborators) (parentp n : NodeId) (side : String)
    (s : WidthVisitor) (d : DTypeId)
    (hShared : ∀ nodep st, c.findUInt32DType nodep st = (d, st)) :
    iterateCheckUInt32 c parentp side (some n) Stage.BOTH s =
      match c.iterateSubtreeReturnEdits n
          { s with m_vup := some { m_dtypep := none, m_stage := Stage.PRELIM } } with
      | .error e => .error e
      | .ok (ret, s1) =>
        match c.iterateCheck parentp side ret Determ.SELF Stage.FINAL (some d)
            ExtendRule.EXTEND_EXP true { s1 with m_vup := s.m_vup } with
        | .error e => .error e
        | .ok (_, s2) =>
          .ok ((), s2,
            [Event.findUInt32DType parentp,
             Event.iterateSubtreeReturnEdits n
              (some { m_dtypep := none, m_stage := Stage.PRELIM }),
             Event.iterateCheck parentp side ret Determ.SELF Stage.FINAL (some d)
              ExtendRule.EXTEND_EXP true]) := by
  have hv := prelimStage_visit c Stage.BOTH n s (by decide)
  have hF : Stage.BOTH.andFINAL = true := by decide
  simp only [iterateCheckUInt32, callFind_bind, hShared, iterateCheckTypedSelfPrelim_run, hv, hF,
    if_true]
  cases c.iterateSubtreeReturnEdits n
      { s with m_vup := some { m_dtypep := none, m_stage := Stage.PRELIM } } with
  | error e => rfl
  | ok out =>
    obtain ⟨ret, s1⟩ := out
    simp only []
    cases c.iterateCheck parentp side ret Determ.SELF Stage.FINAL (some d)
        ExtendRule.EXTEND_EXP true { s1 with m_vup := s.m_vup } with
    | error e => rfl
    | ok out2 => obtain ⟨r, s2⟩ := out2; rfl

/-- C25: when the registry answers every request for the unsigned 32-bit type
with one descriptor `d` and changes nothing, and the prelim visit of the child
gives back a node, `iterateCheckFileDesc(parentp, child, BOTH)` and
`iterateCheckUInt32(parentp, "file_descriptor", child, BOTH)` have the same
effect apart from their requests to the registry: the child is visited under
`WidthVP{SELF, PRELIM}`, then `iterateCheck(parentp, "file_descriptor", ret,
SELF, FINAL, d, EXTEND_EXP, true)` is called on the node the visit gave back,
and a fatal end of either call ends both runs alike.  With any stage other than
`BOTH`, `iterateCheckFileDesc` ends in the internal error "Bad call", whatever
the child. -/
theorem iterateCheckFileDesc_effect (c : Collaborators) (parentp n : NodeId)
    (s : WidthVisitor) (d : DTypeId)
    (hShared : ∀ nodep st, c.findUInt32DType nodep st = (d, st))
    (hNode : ∀ st, c.iterateSubtreeReturnEdits n
      { s with m_vup := some { m_dtypep := none, m_stage := Stage.PRELIM } } ≠ .ok (none, st)) :
    effect (iterateCheckFileDesc c parentp (some n) Stage.BOTH) s =
      effect (iterateCheckUInt32 c parentp "file_descriptor" (some n) Stage.BOTH) s ∧
    effect (iterateCheckFileDesc c parentp (some n) Stage.BOTH) s =
      (match c.iterateSubtreeReturnEdits n
          { s with m_vup := some { m_dtypep := none, m_stage := Stage.PRELIM } } with
      | .error e => .error e
      | .ok (ret, s1) =>
        match c.iterateCheck parentp "file_descriptor" ret Determ.SELF Stage.FINAL (some d)
            ExtendRule.EXTEND_EXP true { s1 with m_vup := s.m_vup } with
        | .error e => .error e
        | .ok (_, s2) =>
          .ok ((), s2,
            [Event.iterateSubtreeReturnEdits n
              (some { m_dtypep := none, m_stage := Stage.PRELIM }),
             Event.iterateCheck parentp "file_descriptor" ret Determ.SELF Stage.FINAL (some d)
              ExtendRule.EXTEND_EXP true])) ∧
    ∀ (stage : Stage) (underp : Option NodeId) (st : WidthVisitor), stage ≠ Stage.BOTH →
      iterateCheckFileDesc c parentp underp stage st = .error "Bad call" := by
  have hU := iterateCheckUInt32_run c parentp n "file_descriptor" s d hShared
  have hD := iterateCheckFileDesc_run c parentp n s
  have key : effect (iterateCheckFileDesc c parentp (some n) Stage.BOTH) s =
      (match c.iterateSubtreeReturnEdits n
          { s with m_vup := some { m_dtypep := none, m_stage := Stage.PRELIM } } with
      | .error e => .error e
      | .ok (ret, s1) =>
        match c.iterateCheck parentp "file_descriptor" ret Determ.SELF Stage.FINAL (some d)
            ExtendRule.EXTEND_EXP true { s1 with m_vup := s.m_vup } with
        | .error e => .error e
        | .ok (_, s2) =>
          .ok ((), s2,
            [Event.iterateSubtreeReturnEdits n
              (some { m_dtypep := none, m_stage := Stage.PRELIM }),
             Event.iterateCheck parentp "file_descriptor" ret Determ.SELF Stage.FINAL (some d)
              ExtendRule.EXTEND_EXP true])) := by
    simp only [effect, hD]
    cases hvis : c.iterateSubtreeReturnEdits n
        { s with m_vup := some { m_dtypep := none, m_stage := Stage.PRELIM } } with
    | error e => rfl
    | ok out =>
      obtain ⟨ret, s1⟩ := out
      cases ret with
      | none => exact absurd hvis (hNode s1)
      | some u =>
        simp only [hShared]
        cases c.iterateCheck parentp "file_descriptor" (some u) Determ.SELF Stage.FINAL
            (some d) ExtendRule.EXTEND_EXP true { s1 with m_vup := s.m_vup } with
        | error e => rfl
        | ok out2 => obtain ⟨r, s2⟩ := out2; rfl
  refine ⟨?_, key, ?_⟩
  · rw [key]
    simp only [effect, hU]
    cases c.iterateSubtreeReturnEdits n
        { s with m_vup := some { m_dtypep := none, m_stage := Stage.PRELIM } } with
    | error e => rfl
    | ok out =>
      obtain ⟨ret, s1⟩ := out
      simp only []
      cases c.iterateCheck parentp "file_descriptor" ret Determ.SELF Stage.FINAL
          (some d) ExtendRule.EXTEND_EXP true { s1 with m_vup := s.m_vup } with
      | error e => rfl
      | ok out2 => obtain ⟨r, s2⟩ := out2; rfl
  · intro stage underp st hne
    have hdec : decide (stage = Stage.BOTH) = false := by simpa using hne
    simp only [iterateCheckFileDesc, UASSERT_OBJ, hdec]
    rfl

/-- Witness of C25 on `demoTree` with the rule set in which nothing changes
anything: the registry answers with descriptor 7, the visit of node 2 gives
node 2 back, and both wrappers then call `iterateCheck` on it. -/
theorem iterateCheckFileDesc_effect_witness :
    effect (iterateCheckFileDesc Collaborators.inert 0 (some 2) Stage.BOTH) demoTree =
      effect (iterateCheckUInt32 Collaborators.inert 0 "file_descriptor" (some 2) Stage.BOTH)
        demoTree ∧
    iterateCheckFileDesc Collaborators.inert 0 (some 2) Stage.FINAL demoTree =
      .error "Bad call" :=
  ⟨(iterateCheckFileDesc_effect Collaborators.inert 0 2 demoTree 7 (fun _ _ => rfl)
      (fun st h => by cases h)).1,
    rfl⟩

/-! ### C21: the cache of enclosing classes -/

section ContainingClass

theorem containingClassUncached_succ (c : Collaborators) (s : WidthVisitor) (fuel : Nat) :
    ∀ (n : NodeId) (r : Option NodeId), containingClassUncached c s fuel n = some r →
      containingClassUncached c s (fuel + 1) n = some r := by
  induction fuel with
  | zero => intro n r h; simp [containingClassUncached] at h
  | succ f ih =>
    intro n r h
    rw [containingClassUncached] at h ⊢
    split
    · rename_i hc; simpa [hc] using h
    · rename_i hc
      split
      · rename_i hp; simpa [hc, hp] using h
      · rename_i hp
        simp only [hc, hp, if_false] at h
        cases ha : c.aboveLoopp s n with
        | none => simpa [ha] using h
        | some a =>
          simp only [ha] at h ⊢
          exact ih a r h

theorem containingClassUncached_add (c : Collaborators) (s : WidthVisitor) (fuel k : Nat)
    (n : NodeId) (r : Option NodeId) (h : containingClassUncached c s fuel n = some r) :
    containingClassUncached c s (fuel + k) n = some r := by
  induction k with
  | zero => exact h
  | succ k ih => exact containingClassUncached_succ c s (fuel + k) n r ih

theorem containingClassUncached_unique (c : Collaborators) (s : WidthVisitor) (f1 f2 : Nat)
    (n : NodeId) (r1 r2 : Option NodeId)
    (h1 : containingClassUncached c s f1 n = some r1)
    (h2 : containingClassUncached c s f2 n = some r2) : r1 = r2 := by
  have a1 := containingClassUncached_add c s f1 f2 n r1 h1
  have a2 := containingClassUncached_add c s f2 f1 n r2 h2
  rw [Nat.add_comm] at a2
  rw [a1] at a2
  exact Option.some.inj a2

/-- One call from a cache whose entries are right: the result is that of the
cache-free definition, the cache then holds it for the node, keeps every entry
it had, and its entries are right again. -/
theorem containingClass_step (c : Collaborators) (s : WidthVisitor) (fuel : Nat) :
    ∀ (n : NodeId) (cache : ClassCache) (r : Option NodeId) (cache1 : ClassCache),
      ClassCacheValid c s cache → containingClass c s fuel n cache = some (r, cache1) →
      (∃ f, containingClassUncached c s f n = some r) ∧ cache1 n = some r ∧
      (∀ m v, cache m = some v → cache1 m = some v) ∧ ClassCacheValid c s cache1 := by
  induction fuel with
  | zero => intro n cache r cache1 _ h; simp [containingClass] at h
  | succ f ih =>
    intro n cache r cache1 hv h
    -- writing the right result at `n` keeps the entries and their validity
    have write : ∀ (cache0 : ClassCache) (r0 : Option NodeId),
        ClassCacheValid c s cache0 → (∃ f0, containingClassUncached c s f0 n = some r0) →
        (∀ m v, cache0 m = some v → Function.update cache0 n (some r0) m = some v) ∧
        ClassCacheValid c s (Function.update cache0 n (some r0)) := by
      intro cache0 r0 hv0 hr0
      constructor
      · intro m v hm
        by_cases hmn : m = n
        · subst hmn
          obtain ⟨f1, h1⟩ := hv0 m v hm
          obtain ⟨f0, h0⟩ := hr0
          rw [containingClassUncached_unique c s f1 f0 m v r0 h1 h0]
          simp
        · simpa [Function.update, hmn] using hm
      · intro m v hm
        by_cases hmn : m = n
        · subst hmn
          have : v = r0 := by simpa using hm.symm
          subst this
          exact hr0
        · exact hv0 m v (by simpa [Function.update, hmn] using hm)
    rw [containingClass] at h
    by_cases hc : (s.node n).type = VNType.Class
    · simp only [hc, if_true, Option.some.injEq, Prod.mk.injEq] at h
      obtain ⟨rfl, rfl⟩ := h
      have hr : ∃ f0, containingClassUncached c s f0 n = some (some n) :=
        ⟨1, by simp [containingClassUncached, hc]⟩
      exact ⟨hr, by simp, (write cache _ hv hr).1, (write cache _ hv hr).2⟩
    · by_cases hp : (s.node n).type = VNType.ClassPackage
      · simp only [hc, hp, if_false, if_true, Option.some.injEq, Prod.mk.injEq] at h
        obtain ⟨rfl, rfl⟩ := h
        have hr : ∃ f0, containingClassUncached c s f0 n = some (s.node n).classp :=
          ⟨1, by simp [containingClassUncached, hp]⟩
        exact ⟨hr, by simp, (write cache _ hv hr).1, (write cache _ hv hr).2⟩
      · simp only [hc, hp, if_false] at h
        cases hcache : cache n with
        | some v =>
          simp only [hcache, Option.some.injEq, Prod.mk.injEq] at h
          obtain ⟨rfl, rfl⟩ := h
          exact ⟨hv n v hcache, hcache, fun _ _ hm => hm, hv⟩
        | none =>
          simp only [hcache] at h
          cases ha : c.aboveLoopp s n with
          | none =>
            simp only [ha, Option.some.injEq, Prod.mk.injEq] at h
            obtain ⟨rfl, rfl⟩ := h
            have hr : ∃ f0, containingClassUncached c s f0 n = some none :=
              ⟨1, by simp [containingClassUncached, hc, hp, ha]⟩
            exact ⟨hr, by simp, (write cache _ hv hr).1, (write cache _ hv hr).2⟩
          | some a =>
            simp only [ha] at h
            cases hrec : containingClass c s f a cache with
            | none => simp [hrec] at h
            | some out =>
              obtain ⟨r1, cache2⟩ := out
              simp only [hrec, Option.some.injEq, Prod.mk.injEq] at h
              obtain ⟨rfl, rfl⟩ := h
              obtain ⟨⟨f0, h0⟩, -, hkeep, hv2⟩ := ih a cache r1 cache2 hv hrec
              have hr : ∃ f1, containingClassUncached c s f1 n = some r1 :=
                ⟨f0 + 1, by simp [containingClassUncached, hc, hp, ha, h0]⟩
              exact ⟨hr, by simp,
                fun m v hm => (write cache2 _ hv2 hr).1 m v (hkeep m v hm),
                (write cache2 _ hv2 hr).2⟩

theorem classCacheReachable_valid (c : Collaborators) (s : WidthVisitor) (cache : ClassCache)
    (h : ClassCacheReachable c s cache) : ClassCacheValid c s cache := by
  induction h with
  | empty => intro m v hm; cases hm
  | call fuel n cache0 r cache1 _ hrun ih =>
    exact (containingClass_step c s fuel n cache0 r cache1 ih hrun).2.2.2

/-- The cached function returns whenever the cache-free definition does, within
the same depth. -/
theorem containingClass_returns (c : Collaborators) (s : WidthVisitor) (fuel : Nat) :
    ∀ (n : NodeId) (cache : ClassCache) (r : Option NodeId),
      ClassCacheValid c s cache → containingClassUncached c s fuel n = some r →
      ∃ cache1, containingClass c s fuel n cache = some (r, cache1) := by
  induction fuel with
  | zero => intro n cache r _ h; simp [containingClassUncached] at h
  | succ f ih =>
    intro n cache r hv h
    rw [containingClassUncached] at h
    rw [containingClass]
    by_cases hc : (s.node n).type = VNType.Class
    · simp only [hc, if_true, Option.some.injEq] at h ⊢
      subst h
      exact ⟨_, rfl⟩
    · by_cases hp : (s.node n).type = VNType.ClassPackage
      · rw [if_neg hc, if_pos hp] at h ⊢
        simp only [Option.some.injEq] at h
        subst h
        exact ⟨_, rfl⟩
      · simp only [hc, hp, if_false] at h ⊢
        cases hcache : cache n with
        | some v =>
          obtain ⟨f1, h1⟩ := hv n v hcache
          have h2 : containingClassUncached c s (f + 1) n = some r := by
            rw [containingClassUncached]; simpa [hc, hp] using h
          have : v = r := containingClassUncached_unique c s f1 (f + 1) n v r h1 h2
          subst this
          exact ⟨cache, rfl⟩
        | none =>
          cases ha : c.aboveLoopp s n with
          | none =>
            simp only [ha, Option.some.injEq] at h
            subst h
            exact ⟨_, rfl⟩
          | some a =>
            simp only [ha] at h
            obtain ⟨cache2, h2⟩ := ih a cache r hv h
            exact ⟨Function.update cache2 n (some r), by simp [h2]⟩

/-- C21: on a fixed tree, from every cache reachable from the empty cache by
earlier calls: whenever the cache-free definition gives a result for `n` within
some depth, `containingClass(n)` returns that result within the same depth;
whenever `containingClass(n)` returns, its result is that of the cache-free
definition, the cache afterwards maps `n` to it, every entry that was present
has the value it had, and the cache is reachable again. -/
theorem containingClass_memoizes (c : Collaborators) (s : WidthVisitor) (cache : ClassCache)
    (hReach : ClassCacheReachable c s cache) (fuel : Nat) (n : NodeId) :
    (∀ r, containingClassUncached c s fuel n = some r →
      ∃ cache1, containingClass c s fuel n cache = some (r, cache1)) ∧
    (∀ r cache1, containingClass c s fuel n cache = some (r, cache1) →
      (∃ f, containingClassUncached c s f n = some r) ∧ cache1 n = some r ∧
      (∀ m v, cache m = some v → cache1 m = some v) ∧ ClassCacheReachable c s cache1) := by
  have hv := classCacheReachable_valid c s cache hReach
  refine ⟨fun r h => containingClass_returns c s fuel n cache r hv h, ?_⟩
  intro r cache1 h
  obtain ⟨h1, h2, h3, -⟩ := containingClass_step c s fuel n cache r cache1 hv h
  exact ⟨h1, h2, h3, ClassCacheReachable.call fuel n cache r cache1 hReach h⟩

/-- Witness of C21 on `classTree`: from the cache left by the call on node 1,
which holds the class 0 for the nodes 0 and 1, the call on node 2 returns the
class 0, as the cache-free definition does, and keeps both entries. -/
theorem containingClass_memoizes_witness :
    containingClassUncached Collaborators.inert classTree 3 2 = some (some 0) ∧
    ∃ cache1,
      containingClass Collaborators.inert classTree 3 2
        (Function.update (Function.update (fun _ => none) 0 (some (some 0))) 1 (some (some 0))) =
        some (some 0, cache1) ∧
      cache1 2 = some (some 0) ∧ cache1 1 = some (some 0) ∧ cache1 0 = some (some 0) := by
  have hReach : ClassCacheReachable Collaborators.inert classTree
      (Function.update (Function.update (fun _ => none) 0 (some (some 0))) 1 (some (some 0))) :=
    ClassCacheReachable.call 2 1 (fun _ => none) (some 0) _ ClassCacheReachable.empty rfl
  have hC := containingClass_memoizes Collaborators.inert classTree _ hReach 3 2
  obtain ⟨cache1, h1⟩ := hC.1 (some 0) (by decide)
  obtain ⟨-, h2, h3, -⟩ := hC.2 (some 0) cache1 h1
  exact ⟨by decide, cache1, h1, h2, h3 1 _ (by simp), h3 0 _ (by simp)⟩

end ContainingClass

/-! ### C27: marking the open-array formals -/

section MarkHasOpenArray

theorem setIsDpiOpenArray_node (p : NodeId) (b : Bool) (t : WidthVisitor) (m : NodeId) :
    (setIsDpiOpenArray p b t).node m =
      if m = p then { t.node p with isDpiOpenArray := b } else t.node m := by
  by_cases h : m = p
  · subst h; simp [setIsDpiOpenArray]
  · simp [setIsDpiOpenArray, Function.update, h]

/-- The open-array test of a statement reads the kind, the flag and the
descriptor of the node and the descriptor arena. -/
theorem isOpenArrayVar_congr (s t : WidthVisitor) (fuel : Nat) (m : NodeId)
    (hd : t.dtype = s.dtype) (h1 : (t.node m).type = (s.node m).type)
    (h2 : (t.node m).dtypep = (s.node m).dtypep)
    (h3 : (t.node m).isDpiOpenArray = (s.node m).isDpiOpenArray) :
    isOpenArrayVar t fuel m = isOpenArrayVar s fuel m := by
  simp only [isOpenArrayVar, h1, h2, h3]
  cases (s.node m).dtypep with
  | none => rfl
  | some d => simp only [hasOpenArrayDTypeRecurse_congr s t hd]

theorem markHasOpenArrayStmts_run (fuel : Nat) (rest : List NodeId) :
    ∀ (hasOpen : Bool) (t : WidthVisitor), openArrayTestsReturn t fuel rest →
      ∃ tF, markHasOpenArrayStmts fuel rest hasOpen t =
          .ok (hasOpen || rest.any (isOpenArrayVar t fuel), tF) ∧
        tF.dtype = t.dtype ∧ tF = { t with node := tF.node } ∧
        ∀ m, tF.node m =
          { t.node m with
            isDpiOpenArray :=
              (t.node m).isDpiOpenArray || (decide (m ∈ rest) && isOpenArrayVar t fuel m) } := by
  induction rest with
  | nil =>
    intro hasOpen t _
    refine ⟨t, by simp [markHasOpenArrayStmts], rfl, rfl, fun m => ?_⟩
    simp
  | cons stmtp rest ih =>
    intro hasOpen t hOk
    have hOkRest : openArrayTestsReturn t fuel rest :=
      fun p hp => hOk p (List.mem_cons_of_mem _ hp)
    -- the statement is not marked
    have skip : isOpenArrayVar t fuel stmtp = false →
        markHasOpenArrayStmts fuel (stmtp :: rest) hasOpen t =
          markHasOpenArrayStmts fuel rest hasOpen t →
        ∃ tF, markHasOpenArrayStmts fuel (stmtp :: rest) hasOpen t =
            .ok (hasOpen || (stmtp :: rest).any (isOpenArrayVar t fuel), tF) ∧
          tF.dtype = t.dtype ∧ tF = { t with node := tF.node } ∧
          ∀ m, tF.node m =
            { t.node m with
              isDpiOpenArray :=
                (t.node m).isDpiOpenArray ||
                  (decide (m ∈ stmtp :: rest) && isOpenArrayVar t fuel m) } := by
      intro hcrit hstep
      obtain ⟨tF, h1, h2, h3, h4⟩ := ih hasOpen t hOkRest
      refine ⟨tF, by rw [hstep, h1]; simp [hcrit], h2, h3, fun m => ?_⟩
      rw [h4 m]
      by_cases hm : m = stmtp
      · subst hm; simp [hcrit]
      · simp [hm]
    -- the statement is marked
    have mark : isOpenArrayVar t fuel stmtp = true →
        markHasOpenArrayStmts fuel (stmtp :: rest) hasOpen t =
          markHasOpenArrayStmts fuel rest true (setIsDpiOpenArray stmtp true t) →
        ∃ tF, markHasOpenArrayStmts fuel (stmtp :: rest) hasOpen t =
            .ok (hasOpen || (stmtp :: rest).any (isOpenArrayVar t fuel), tF) ∧
          tF.dtype = t.dtype ∧ tF = { t with node := tF.node } ∧
          ∀ m, tF.node m =
            { t.node m with
              isDpiOpenArray :=
                (t.node m).isDpiOpenArray ||
                  (decide (m ∈ stmtp :: rest) && isOpenArrayVar t fuel m) } := by
      intro hcrit hstep
      have hsame : ∀ m, isOpenArrayVar (setIsDpiOpenArray stmtp true t) fuel m =
          isOpenArrayVar t fuel m := by
        intro m
        by_cases hm : m = stmtp
        · subst hm
          rw [hcrit]
          have hv : (t.node m).type = VNType.Var := by
            simp only [isOpenArrayVar, Bool.and_eq_true, decide_eq_true_eq] at hcrit
            exact hcrit.1
          simp [isOpenArrayVar, setIsDpiOpenArray_node, hv]
        · exact isOpenArrayVar_congr t (setIsDpiOpenArray stmtp true t) fuel m rfl
            (by simp [setIsDpiOpenArray_node, hm]) (by simp [setIsDpiOpenArray_node, hm])
            (by simp [setIsDpiOpenArray_node, hm])
      have hOk2 : openArrayTestsReturn (setIsDpiOpenArray stmtp true t) fuel rest := by
        intro p hp hv hf
        by_cases hps : p = stmtp
        · subst hps; simp [setIsDpiOpenArray_node] at hf
        · simp only [setIsDpiOpenArray_node, hps, if_false] at hv hf ⊢
          obtain ⟨d, b, hd, hb⟩ := hOkRest p hp hv hf
          exact ⟨d, b, hd, by
            rw [hasOpenArrayDTypeRecurse_congr t (setIsDpiOpenArray stmtp true t) rfl]
            exact hb⟩
      obtain ⟨tF, h1, h2, h3, h4⟩ := ih true (setIsDpiOpenArray stmtp true t) hOk2
      refine ⟨tF, ?_, h2, ?_, fun m => ?_⟩
      · rw [hstep, h1]
        simp [hcrit, funext hsame]
      · rw [h3]; rfl
      · rw [h4 m, hsame m]
        by_cases hm : m = stmtp
        · subst hm; simp [setIsDpiOpenArray_node, hcrit]
        · simp [setIsDpiOpenArray_node, hm]
    by_cases hv : (t.node stmtp).type = VNType.Var
    · cases hf : (t.node stmtp).isDpiOpenArray with
      | true =>
        exact mark (by simp [isOpenArrayVar, hv, hf])
          (by rw [markHasOpenArrayStmts]; simp [hv, hf])
      | false =>
        obtain ⟨d, b, hd, hb⟩ := hOk stmtp (List.mem_cons_self _ _) hv hf
        cases b with
        | true =>
          exact mark (by simp [isOpenArrayVar, hv, hf, hd, hb])
            (by rw [markHasOpenArrayStmts]; simp [hv, hf, hd, hb])
        | false =>
          exact skip (by simp [isOpenArrayVar, hv, hf, hd, hb])
            (by rw [markHasOpenArrayStmts]; simp [hv, hf, hd, hb])
    · exact skip (by simp [isOpenArrayVar, hv])
        (by rw [markHasOpenArrayStmts]; simp [hv])

theorem isOpenArrayVar_iff (s : WidthVisitor) (fuel : Nat) (m : NodeId) :
    isOpenArrayVar s fuel m = true ↔
      (s.node m).type = VNType.Var ∧
        ((s.node m).isDpiOpenArray = true ∨
          ∃ d, (s.node m).dtypep = some d ∧ hasOpenArrayDTypeRecurse s fuel d = some true) := by
  simp only [isOpenArrayVar, Bool.and_eq_true, decide_eq_true_eq, Bool.or_eq_true]
  cases (s.node m).dtypep with
  | none => simp
  | some d => simp

/-- C27: when the type test returns on every variable of the statement list
that is not flagged, `markHasOpenArray` returns, and returns true exactly when
some statement of the list is a variable that is flagged as an open array or
whose type contains one; afterwards a variable of the list carries the flag
exactly when it was flagged or its type contains an open array, every other
node is as it was, no flag has been cleared, nothing but flags has changed, and
a second call returns the same value and leaves the state as it is. -/
theorem markHasOpenArray_marks (fuel : Nat) (nodep : NodeId) (s : WidthVisitor)
    (hOk : openArrayTestsReturn s fuel (s.node nodep).stmtsp) :
    ∃ sF, markHasOpenArray fuel nodep s =
        .ok ((s.node nodep).stmtsp.any (isOpenArrayVar s fuel), sF) ∧
      ((s.node nodep).stmtsp.any (isOpenArrayVar s fuel) = true ↔
        ∃ p ∈ (s.node nodep).stmtsp, (s.node p).type = VNType.Var ∧
          ((s.node p).isDpiOpenArray = true ∨
            ∃ d, (s.node p).dtypep = some d ∧
              hasOpenArrayDTypeRecurse s fuel d = some true)) ∧
      (∀ p ∈ (s.node nodep).stmtsp, (s.node p).type = VNType.Var →
        ((sF.node p).isDpiOpenArray = true ↔
          ((s.node p).isDpiOpenArray = true ∨
            ∃ d, (s.node p).dtypep = some d ∧
              hasOpenArrayDTypeRecurse s fuel d = some true))) ∧
      (∀ m, ¬ (m ∈ (s.node nodep).stmtsp ∧ (s.node m).type = VNType.Var) →
        sF.node m = s.node m) ∧
      (∀ m, (s.node m).isDpiOpenArray = true → (sF.node m).isDpiOpenArray = true) ∧
      (∀ m, sF.node m = { s.node m with isDpiOpenArray := (sF.node m).isDpiOpenArray }) ∧
      sF = { s with node := sF.node } ∧
      markHasOpenArray fuel nodep sF =
        .ok ((s.node nodep).stmtsp.any (isOpenArrayVar s fuel), sF) := by
  obtain ⟨sF, h1, h2, h3, h4⟩ :=
    markHasOpenArrayStmts_run fuel (s.node nodep).stmtsp false s hOk
  have hflag : ∀ m, (sF.node m).isDpiOpenArray =
      ((s.node m).isDpiOpenArray ||
        (decide (m ∈ (s.node nodep).stmtsp) && isOpenArrayVar s fuel m)) := by
    intro m; rw [h4 m]
  have hstm : (sF.node nodep).stmtsp = (s.node nodep).stmtsp := by rw [h4 nodep]
  have hcrit : ∀ m, isOpenArrayVar sF fuel m = isOpenArrayVar s fuel m := by
    intro m
    have e1 : (sF.node m).type = (s.node m).type := by rw [h4 m]
    have e2 : (sF.node m).dtypep = (s.node m).dtypep := by rw [h4 m]
    simp only [isOpenArrayVar, e1, e2, hflag m, hasOpenArrayDTypeRecurse_congr s sF h2]
    cases decide ((s.node m).type = VNType.Var) <;>
      cases (s.node m).isDpiOpenArray <;>
      cases decide (m ∈ (s.node nodep).stmtsp) <;>
      cases (s.node m).dtypep <;> simp
  refine ⟨sF, by simpa [markHasOpenArray] using h1, ?_, ?_, ?_, ?_, ?_, h3, ?_⟩
  · rw [List.any_eq_true]
    constructor
    · rintro ⟨p, hp, hc⟩
      exact ⟨p, hp, (isOpenArrayVar_iff s fuel p).mp hc⟩
    · rintro ⟨p, hp, hc⟩
      exact ⟨p, hp, (isOpenArrayVar_iff s fuel p).mpr hc⟩
  · intro p hp hv
    rw [hflag p]
    simp only [Bool.or_eq_true, Bool.and_eq_true, decide_eq_true_eq, isOpenArrayVar_iff]
    constructor
    · rintro (h | ⟨-, -, h⟩)
      · exact Or.inl h
      · exact h
    · rintro (h | h)
      · exact Or.inl h
      · exact Or.inr ⟨hp, hv, Or.inr h⟩
  · intro m hm
    rw [h4 m]
    have : (decide (m ∈ (s.node nodep).stmtsp) && isOpenArrayVar s fuel m) = false := by
      by_cases hmem : m ∈ (s.node nodep).stmtsp
      · have hv : ¬ (s.node m).type = VNType.Var := fun hv => hm ⟨hmem, hv⟩
        simp [isOpenArrayVar, hv]
      · simp [hmem]
    simp [this]
  · intro m hm
    rw [hflag m, hm]; rfl
  · intro m
    rw [h4 m]
  · have hOk2 : openArrayTestsReturn sF fuel (s.node nodep).stmtsp := by
      intro q hq hv hf
      have e1 : (sF.node q).type = (s.node q).type := by rw [h4 q]
      have e2 : (sF.node q).dtypep = (s.node q).dtypep := by rw [h4 q]
      rw [e1] at hv
      rw [hflag q, Bool.or_eq_false_iff] at hf
      obtain ⟨d, b, hd, hb⟩ := hOk q hq hv hf.1
      exact ⟨d, b, by rw [e2]; exact hd, by
        rw [hasOpenArrayDTypeRecurse_congr s sF h2]; exact hb⟩
    obtain ⟨tF, g1, -, g3, g4⟩ :=
      markHasOpenArrayStmts_run fuel (s.node nodep).stmtsp false sF hOk2
    have hnode : tF.node = sF.node := by
      funext m
      have hE : ((sF.node m).isDpiOpenArray ||
          (decide (m ∈ (s.node nodep).stmtsp) && isOpenArrayVar sF fuel m)) =
          (sF.node m).isDpiOpenArray := by
        rw [hcrit m, hflag m]
        cases (s.node m).isDpiOpenArray <;>
          cases decide (m ∈ (s.node nodep).stmtsp) <;>
          cases isOpenArrayVar s fuel m <;> rfl
      rw [g4 m, hE]
    have hstate : tF = sF := by rw [g3, hnode]
    rw [hstate] at g1
    simp only [markHasOpenArray, hstm]
    rw [g1, funext hcrit]
    simp

/-- Witness of C27 on `openArrayTree`: of the formals 2 and 3 of the function 1
the first has a type with an open array; the call returns true and flags node
2 and not node 3, and a second call returns true again and changes nothing. -/
theorem markHasOpenArray_marks_witness :
    ∃ sF, markHasOpenArray 5 1 openArrayTree = .ok (true, sF) ∧
      (sF.node 2).isDpiOpenArray = true ∧ (sF.node 3).isDpiOpenArray = false ∧
      markHasOpenArray 5 1 sF = .ok (true, sF) := by
  have hOk : openArrayTestsReturn openArrayTree 5 (openArrayTree.node 1).stmtsp := by
    intro p hp _ _
    have hp1 : p ∈ [(2 : NodeId), 3] := hp
    have hp2 : p = 2 ∨ p = 3 := by simpa using hp1
    rcases hp2 with h | h
    · subst h; exact ⟨10, true, rfl, by decide⟩
    · subst h; exact ⟨2, false, rfl, by decide⟩
  obtain ⟨sF, h1, -, h3, -, -, -, -, h8⟩ := markHasOpenArray_marks 5 1 openArrayTree hOk
  have hb : (openArrayTree.node 1).stmtsp.any (isOpenArrayVar openArrayTree 5) = true := by
    decide
  rw [hb] at h1 h8
  refine ⟨sF, h1, (h3 2 (by decide) rfl).mpr (Or.inr ⟨10, rfl, by decide⟩), ?_, h8⟩
  cases hf : (sF.node 3).isDpiOpenArray with
  | false => rfl
  | true =>
    rcases (h3 3 (by decide) rfl).mp hf with h | ⟨d, hd, ho⟩
    · cases h
    · have e : d = 2 := (Option.some.inj hd).symm
      subst e
      exact absurd ho (by decide)

end MarkHasOpenArray

/-! ### C26: the widths this code requests -/

section Widths

theorem toInt32_of_range (x : Int) (h0 : 0 ≤ x) (h1 : x < 2147483648) : toInt32 x = x := by
  unfold toInt32
  omega

theorem packIfUnpacked_run (c : Collaborators) (nodep b : NodeId) (s : WidthVisitor)
    (d e : DTypeId) (chg : RelinkWhatEn)
    (hD : (s.node nodep).dtypep = some d)
    (hU : (s.dtype d).isUnpackArrayDType = true)
    (hSub : (s.dtype d).subDTypep = some e)
    (hBack : (s.node nodep).backp = some b)
    (hWhat : relinkWhat (s.node b) nodep = some chg)
    (bits minBits : Int)
    (hBits : bits =
      toInt32 (toInt32 (s.dtype d).arrayUnpackedElements * (s.dtype e).width))
    (hMin : minBits =
      toInt32 (toInt32 (s.dtype d).arrayUnpackedElements * (s.dtype e).widthMin))
    (s2 : WidthVisitor) (dtp : DTypeId)
    (hFind : c.findLogicDType nodep bits minBits VSigning.UNSIGNED
      (unlinkFrBackFrom nodep b s) = (dtp, s2)) :
    packIfUnpacked c nodep s =
      .ok ((),
        VNRelinker.relink { m_backp := b, m_chg := chg } s2.nodeNext
          (newAstCvtArrayToPackedState (s2.node nodep).fileline nodep dtp s2),
        [Event.findLogicDType nodep bits minBits VSigning.UNSIGNED]) := by
  have hU1 : unlinkFrBackRelinker nodep s =
      .ok ({ m_backp := b, m_chg := chg }, unlinkFrBackFrom nodep b s, []) := by
    simp only [unlinkFrBackRelinker, hBack, hWhat]
  unfold packIfUnpacked
  rw [bind_ok _ _ s s s [] rfl]
  simp only [hD, hU, if_true]
  rw [bind_ok _ _ s s e [] (by rw [hSub]; rfl)]
  rw [bind_ok _ _ _ _ _ _ hU1]
  rw [← hBits, ← hMin]
  simp only [W.bind_apply, W.bind, W.callFind, hFind, W.get, W.modify, List.nil_append,
    List.append_nil]

theorem newAstCvtArrayToPackedState_new (fl : FileLineId) (fromp : NodeId) (dtp : DTypeId)
    (t : WidthVisitor) :
    ((newAstCvtArrayToPackedState fl fromp dtp t).node t.nodeNext).type =
      VNType.CvtArrayToPacked ∧
    ((newAstCvtArrayToPackedState fl fromp dtp t).node t.nodeNext).op1p = some fromp ∧
    ((newAstCvtArrayToPackedState fl fromp dtp t).node t.nodeNext).dtypep = some dtp ∧
    (newAstCvtArrayToPackedState fl fromp dtp t).nodeNext = t.nodeNext + 1 := by
  by_cases h : t.nodeNext = fromp
  · subst h; simp [newAstCvtArrayToPackedState]
  · simp [newAstCvtArrayToPackedState, Function.update, h]

theorem setLink_fields (b : AstNode) (chg : RelinkWhatEn) (v : Option NodeId) :
    (b.setLink chg v).type = b.type ∧ (b.setLink chg v).dtypep = b.dtypep ∧
    (b.setLink chg v).link chg = v := by
  cases chg <;> exact ⟨rfl, rfl, rfl⟩

theorem setBackOfNext_link (nextp bk : Option NodeId) (t : WidthVisitor) (m : NodeId) :
    ((setBackOfNext nextp bk t).node m).type = (t.node m).type ∧
    ((setBackOfNext nextp bk t).node m).dtypep = (t.node m).dtypep ∧
    ((setBackOfNext nextp bk t).node m).op1p = (t.node m).op1p ∧
    (∀ chg, ((setBackOfNext nextp bk t).node m).link chg = (t.node m).link chg) ∧
    (setBackOfNext nextp bk t).nodeNext = t.nodeNext := by
  cases nextp with
  | none => exact ⟨rfl, rfl, rfl, fun _ => rfl, rfl⟩
  | some x =>
    by_cases h : m = x
    · subst h
      refine ⟨by simp [setBackOfNext], by simp [setBackOfNext], by simp [setBackOfNext],
        fun chg => ?_, rfl⟩
      cases chg <;> simp [setBackOfNext, AstNode.link]
    · refine ⟨by simp [setBackOfNext, Function.update, h],
        by simp [setBackOfNext, Function.update, h],
        by simp [setBackOfNext, Function.update, h], fun chg => ?_, rfl⟩
      simp [setBackOfNext, Function.update, h]

/-- What `relink` leaves and what it sets. -/
theorem relink_fields (r : VNRelinker) (newp : NodeId) (t : WidthVisitor) :
    (∀ m, ((r.relink newp t).node m).type = (t.node m).type ∧
      ((r.relink newp t).node m).dtypep = (t.node m).dtypep) ∧
    (newp ≠ r.m_backp → ((r.relink newp t).node newp).op1p = (t.node newp).op1p) ∧
    (newp ≠ r.m_backp → ((r.relink newp t).node r.m_backp).link r.m_chg = some newp) ∧
    (r.relink newp t).nodeNext = t.nodeNext := by
  refine ⟨fun m => ?_, fun h => ?_, fun h => ?_, ?_⟩
  · simp only [VNRelinker.relink]
    rw [(setBackOfNext_link _ _ _ _).1, (setBackOfNext_link _ _ _ _).2.1]
    by_cases h1 : m = newp
    · subst h1
      by_cases h2 : m = r.m_backp
      · subst h2; simp [setLink_fields]
      · simp [Function.update, h2]
    · by_cases h2 : m = r.m_backp
      · subst h2
        simp [Function.update, h1, setLink_fields]
      · simp [Function.update, h1, h2]
  · simp only [VNRelinker.relink]
    rw [(setBackOfNext_link _ _ _ _).2.2.1]
    simp [Function.update, h]
  · have h' : r.m_backp ≠ newp := fun e => h e.symm
    simp only [VNRelinker.relink]
    rw [(setBackOfNext_link _ _ _ _).2.2.2.1]
    simp [Function.update, h', setLink_fields]
  · simp only [VNRelinker.relink]
    rw [(setBackOfNext_link _ _ _ 0).2.2.2.2]

theorem requestsOnly64_bind {α β : Type} (m : W α) (f : α → W β)
    (hm : requestsOnly64 m) (hf : ∀ a, requestsOnly64 (f a)) : requestsOnly64 (m >>= f) := by
  intro s b s2 evs h e he
  cases hms : m s with
  | error x => rw [bind_error _ _ _ _ hms] at h; cases h
  | ok out =>
    obtain ⟨a, s1, ev1⟩ := out
    rw [bind_ok _ _ _ _ _ _ hms] at h
    cases hfs : f a s1 with
    | error x => rw [hfs] at h; cases h
    | ok out2 =>
      obtain ⟨b2, s3, ev2⟩ := out2
      rw [hfs] at h
      simp only [Except.ok.injEq, Prod.mk.injEq] at h
      rw [← h.2.2] at he
      rcases List.mem_append.mp he with h1 | h1
      · exact hm s a s1 ev1 hms e h1
      · exact hf a s1 b2 s3 ev2 hfs e h1

theorem requestsOnly64_silent {α : Type} (run : W α)
    (h : ∀ s a s1 evs, run s = .ok (a, s1, evs) → evs = []) : requestsOnly64 run := by
  intro s a s1 evs hr e he
  rw [h s a s1 evs hr] at he
  cases he

theorem requestsOnly64_pure {α : Type} (a : α) : requestsOnly64 (W.pure a) :=
  requestsOnly64_silent _ (fun s a1 s1 evs h => by cases h; rfl)

theorem requestsOnly64_get : requestsOnly64 W.get :=
  requestsOnly64_silent _ (fun s a1 s1 evs h => by cases h; rfl)

theorem requestsOnly64_modify (f : WidthVisitor → WidthVisitor) : requestsOnly64 (W.modify f) :=
  requestsOnly64_silent _ (fun s a1 s1 evs h => by cases h; rfl)

theorem requestsOnly64_deref {α : Type} (o : Option α) : requestsOnly64 (W.deref o) := by
  cases o with
  | none => exact requestsOnly64_silent _ (fun s a1 s1 evs h => by cases h)
  | some a => exact requestsOnly64_pure a

theorem requestsOnly64_ofExcept {α : Type} (o : Except String α) :
    requestsOnly64 (W.ofExcept o) := by
  cases o with
  | error x => exact requestsOnly64_silent _ (fun s a1 s1 evs h => by cases h)
  | ok a => exact requestsOnly64_pure a

theorem requestsOnly64_call {α : Type} (ev : WidthVisitor → Event)
    (f : WidthVisitor → Except String (α × WidthVisitor))
    (hev : ∀ s, (ev s).requestIs64 = true) : requestsOnly64 (W.call ev f) := by
  intro s a s1 evs h e he
  simp only [W.call] at h
  cases hf : f s with
  | error x => rw [hf] at h; cases h
  | ok out =>
    obtain ⟨a1, s2⟩ := out
    rw [hf] at h
    cases h
    simp only [List.mem_singleton] at he
    subst he
    exact hev s

theorem requestsOnly64_callUnit (ev : WidthVisitor → Event)
    (f : WidthVisitor → Except String WidthVisitor)
    (hev : ∀ s, (ev s).requestIs64 = true) : requestsOnly64 (W.callUnit ev f) := by
  intro s a s1 evs h e he
  simp only [W.callUnit] at h
  cases hf : f s with
  | error x => rw [hf] at h; cases h
  | ok s2 =>
    rw [hf] at h
    cases h
    simp only [List.mem_singleton] at he
    subst he
    exact hev s

theorem requestsOnly64_callFind (ev : Event) (f : WidthVisitor → DTypeId × WidthVisitor)
    (hev : ev.requestIs64 = true) : requestsOnly64 (W.callFind ev f) := by
  intro s a s1 evs h e he
  simp only [W.callFind] at h
  cases h
  simp only [List.mem_singleton] at he
  subst he
  exact hev

theorem requestsOnly64_restorer {α : Type} (body : W α) (h : requestsOnly64 body) :
    requestsOnly64 (VL_RESTORER_m_vup body) := by
  intro s a s1 evs hr e he
  simp only [VL_RESTORER_m_vup] at hr
  cases hb : body s with
  | error x => rw [hb] at hr; cases hr
  | ok out =>
    obtain ⟨a1, s2, ev2⟩ := out
    rw [hb] at hr
    cases hr
    exact h s a s2 evs hb e he

theorem requestsOnly64_ite {α : Type} (p : Prop) [Decidable p] (a b : W α)
    (ha : requestsOnly64 a) (hb : requestsOnly64 b) :
    requestsOnly64 (if p then a else b) := by
  split
  · exact ha
  · exact hb

theorem requestsOnly64_prelimStage (c : Collaborators) (stage : Stage)
    (underp : Option NodeId) : requestsOnly64 (prelimStage c stage underp) := by
  unfold prelimStage
  apply requestsOnly64_ite
  · unfold prelimSelfVisit
    refine requestsOnly64_bind _ _ (requestsOnly64_ofExcept _) (fun vup => ?_)
    unfold userIterateSubtreeReturnEdits
    cases underp with
    | none => exact requestsOnly64_pure _
    | some n =>
      apply requestsOnly64_restorer
      refine requestsOnly64_bind _ _ (requestsOnly64_modify _) (fun _ => ?_)
      exact requestsOnly64_call _ _ (fun _ => rfl)
  · exact requestsOnly64_pure _

theorem requestsOnly64_prelimOperandVisit (c : Collaborators) (nodep : NodeId) :
    requestsOnly64 (prelimOperandVisit c nodep) := by
  unfold prelimOperandVisit
  refine requestsOnly64_bind _ _ requestsOnly64_get (fun s => ?_)
  refine requestsOnly64_bind _ _ (requestsOnly64_ofExcept _) (fun vup => ?_)
  unfold userIterateAndNext
  cases (s.node nodep).op1p with
  | none => exact requestsOnly64_pure _
  | some n =>
    refine requestsOnly64_bind _ _ requestsOnly64_get (fun s1 => ?_)
    apply requestsOnly64_ite
    · exact requestsOnly64_pure _
    · apply requestsOnly64_restorer
      refine requestsOnly64_bind _ _ (requestsOnly64_modify _) (fun _ => ?_)
      exact requestsOnly64_callUnit _ _ (fun _ => rfl)

theorem requestsOnly64_iterateCheckDelay (c : Collaborators) (parentp : NodeId) (side : String)
    (underp : Option NodeId) (stage : Stage) :
    requestsOnly64 (iterateCheckDelay c parentp side underp stage) := by
  unfold iterateCheckDelay
  refine requestsOnly64_bind _ _ (requestsOnly64_prelimStage c stage underp) (fun u1 => ?_)
  apply requestsOnly64_ite
  · refine requestsOnly64_bind _ _ (requestsOnly64_deref _) (fun u => ?_)
    refine requestsOnly64_bind _ _ requestsOnly64_get (fun s => ?_)
    refine requestsOnly64_bind _ _ (requestsOnly64_deref _) (fun dtp => ?_)
    have hjp : ∀ expDTypep : DTypeId, requestsOnly64 (do
        let _ ← W.call
          (fun _ => Event.iterateCheck parentp side u1 Determ.SELF Stage.FINAL (some expDTypep)
            ExtendRule.EXTEND_EXP false)
          (c.iterateCheck parentp side u1 Determ.SELF Stage.FINAL (some expDTypep)
            ExtendRule.EXTEND_EXP false)
        W.pure ()) := by
      intro expDTypep
      refine requestsOnly64_bind _ _ (requestsOnly64_call _ _ (fun _ => rfl)) (fun _ => ?_)
      exact requestsOnly64_pure _
    dsimp only
    apply requestsOnly64_ite
    · exact requestsOnly64_bind _ _ (requestsOnly64_callFind _ _ rfl) hjp
    · refine requestsOnly64_bind _ _ (requestsOnly64_modify _) (fun _ => ?_)
      exact requestsOnly64_bind _ _ (requestsOnly64_callFind _ _ rfl) hjp
  · exact requestsOnly64_pure _

theorem requestsOnly64_visit_Or_Lu64 (c : Collaborators) (nodep : NodeId) :
    requestsOnly64 (visit_Or_Lu64 c nodep) := by
  unfold visit_Or_Lu64
  refine requestsOnly64_bind _ _ ?_ (fun _ => ?_)
  · intro s a s1 evs h e he
    simp only [assertAtExpr] at h
    cases hc : c.assertAtExpr nodep s with
    | error x => rw [hc] at h; cases h
    | ok u =>
      rw [hc] at h
      cases h
      simp only [List.mem_singleton] at he
      subst he
      rfl
  · refine requestsOnly64_bind _ _ ?_ (fun b => ?_)
    · unfold m_vup_prelim
      refine requestsOnly64_bind _ _ requestsOnly64_get (fun s => ?_)
      refine requestsOnly64_bind _ _ (requestsOnly64_deref _) (fun vup => ?_)
      exact requestsOnly64_pure _
    · apply requestsOnly64_ite
      · refine requestsOnly64_bind _ _ ?_ (fun _ => ?_)
        · unfold dtypeSetDouble
          refine requestsOnly64_bind _ _ (requestsOnly64_callFind _ _ rfl) (fun d => ?_)
          exact requestsOnly64_modify _
        · refine requestsOnly64_bind _ _ (requestsOnly64_callFind _ _ rfl)
            (fun subDTypep => ?_)
          refine requestsOnly64_bind _ _ (requestsOnly64_prelimOperandVisit c nodep)
            (fun _ => ?_)
          refine requestsOnly64_bind _ _ requestsOnly64_get (fun s => ?_)
          refine requestsOnly64_bind _ _ (requestsOnly64_call _ _ (fun _ => rfl)) (fun _ => ?_)
          exact requestsOnly64_pure _
      · exact requestsOnly64_pure _

theorem packIfUnpacked_other (c : Collaborators) (nodep : NodeId) (s : WidthVisitor)
    (h : ∀ d, (s.node nodep).dtypep = some d → (s.dtype d).isUnpackArrayDType = false) :
    packIfUnpacked c nodep s = .ok ((), s, []) := by
  unfold packIfUnpacked
  rw [bind_ok _ _ s s s [] rfl]
  cases hd : (s.node nodep).dtypep with
  | none => rfl
  | some d => simp [h d hd, W.pure]

theorem packIfUnpacked_dtype (r : VNRelinker) (fl : FileLineId) (fromp : NodeId)
    (dtp : DTypeId) (t : WidthVisitor) :
    (r.relink t.nodeNext (newAstCvtArrayToPackedState fl fromp dtp t)).dtype = t.dtype := by
  simp only [VNRelinker.relink]
  rw [(setBackOfNext_frame _ _ _).1]
  rfl

/-- C26, amended: for a node whose type is an unpacked array of `n >= 1`
elements of a type of width `w` and minimum width `m`, `w >= m >= 1`, with
`n * w` at most 2^31 - 1, linked under a back node: `packIfUnpacked` requests
the unsigned logic type of width `n * w` and minimum width `n * m`, where `n * w
>= n * m >= 1` and `n * w` is `widthUnpacked` of the array type, and creates, at
the allocation mark the registry leaves, an array-to-packed conversion whose
descriptor is the one the registry answers with, in the descriptor arena the
registry leaves.  For every registry whose answer carries the requested
attributes, one that creates descriptors included, the type of the conversion
is unsigned with width `n * w` and minimum width `n * m`; for every registry
that does not lower the allocation mark of the nodes, the operand of the
conversion is the node and the conversion is in the link that held the node.  A
node whose type is not an unpacked array, or that has no type, is left as it is
with nothing requested.  Every request for a logic type that
`iterateCheckDelay` and `visit_Or_Lu64` make is for width 64 and minimum width
64, unsigned. -/
theorem packIfUnpacked_widths (c : Collaborators) (nodep b : NodeId) (s : WidthVisitor)
    (d e : DTypeId) (chg : RelinkWhatEn)
    (hD : (s.node nodep).dtypep = some d)
    (hU : (s.dtype d).isUnpackArrayDType = true)
    (hSub : (s.dtype d).subDTypep = some e)
    (hBack : (s.node nodep).backp = some b)
    (hWhat : relinkWhat (s.node b) nodep = some chg)
    (hAlloc : b < s.nodeNext)
    (hN : 1 ≤ (s.dtype d).arrayUnpackedElements)
    (hM : 1 ≤ (s.dtype e).widthMin)
    (hW : (s.dtype e).widthMin ≤ (s.dtype e).width)
    (hBound : ((s.dtype d).arrayUnpackedElements : Int) * (s.dtype e).width < 2147483648) :
    (∃ (dtp : DTypeId) (sR sF : WidthVisitor),
      c.findLogicDType nodep
          (((s.dtype d).arrayUnpackedElements : Int) * (s.dtype e).width)
          (((s.dtype d).arrayUnpackedElements : Int) * (s.dtype e).widthMin)
          VSigning.UNSIGNED (unlinkFrBackFrom nodep b s) = (dtp, sR) ∧
      packIfUnpacked c nodep s =
        .ok ((), sF,
          [Event.findLogicDType nodep
            (((s.dtype d).arrayUnpackedElements : Int) * (s.dtype e).width)
            (((s.dtype d).arrayUnpackedElements : Int) * (s.dtype e).widthMin)
            VSigning.UNSIGNED]) ∧
      (sF.node sR.nodeNext).type = VNType.CvtArrayToPacked ∧
      (sF.node sR.nodeNext).dtypep = some dtp ∧
      sF.nodeNext = sR.nodeNext + 1 ∧
      sF.dtype = sR.dtype ∧
      ((∀ n w m sg st,
          ((c.findLogicDType n w m sg st).2.dtype (c.findLogicDType n w m sg st).1).width = w ∧
          ((c.findLogicDType n w m sg st).2.dtype (c.findLogicDType n w m sg st).1).widthMin = m ∧
          ((c.findLogicDType n w m sg st).2.dtype (c.findLogicDType n w m sg st).1).isSigned =
            decide (sg = VSigning.SIGNED)) →
        (sF.dtype dtp).isSigned = false ∧
        (sF.dtype dtp).width =
          ((s.dtype d).arrayUnpackedElements : Int) * (s.dtype e).width ∧
        (sF.dtype dtp).widthMin =
          ((s.dtype d).arrayUnpackedElements : Int) * (s.dtype e).widthMin) ∧
      ((∀ n w m sg st, st.nodeNext ≤ (c.findLogicDType n w m sg st).2.nodeNext) →
        (sF.node sR.nodeNext).op1p = some nodep ∧
        (sF.node b).link chg = some sR.nodeNext)) ∧
    ((s.dtype d).arrayUnpackedElements : Int) * (s.dtype e).widthMin ≤
      ((s.dtype d).arrayUnpackedElements : Int) * (s.dtype e).width ∧
    1 ≤ ((s.dtype d).arrayUnpackedElements : Int) * (s.dtype e).widthMin ∧
    widthUnpacked s d =
      some (((s.dtype d).arrayUnpackedElements : Int) * (s.dtype e).width) ∧
    (∀ (other : NodeId) (t : WidthVisitor),
      (∀ d, (t.node other).dtypep = some d → (t.dtype d).isUnpackArrayDType = false) →
      packIfUnpacked c other t = .ok ((), t, [])) ∧
    (∀ parentp side underp stage,
      requestsOnly64 (iterateCheckDelay c parentp side underp stage)) ∧
    (∀ other, requestsOnly64 (visit_Or_Lu64 c other)) := by
  have hn0 : (1 : Int) ≤ ((s.dtype d).arrayUnpackedElements : Int) := by exact_mod_cast hN
  have hmw : ((s.dtype d).arrayUnpackedElements : Int) * (s.dtype e).widthMin ≤
      ((s.dtype d).arrayUnpackedElements : Int) * (s.dtype e).width :=
    Int.mul_le_mul_of_nonneg_left hW (by omega)
  have hm1 : 1 ≤ ((s.dtype d).arrayUnpackedElements : Int) * (s.dtype e).widthMin := by
    nlinarith
  have hnw : ((s.dtype d).arrayUnpackedElements : Int) ≤
      ((s.dtype d).arrayUnpackedElements : Int) * (s.dtype e).width := by
    nlinarith
  have e1 : toInt32 ((s.dtype d).arrayUnpackedElements : Int) =
      ((s.dtype d).arrayUnpackedElements : Int) :=
    toInt32_of_range _ (by omega) (by omega)
  have e2 : toInt32 (((s.dtype d).arrayUnpackedElements : Int) * (s.dtype e).width) =
      ((s.dtype d).arrayUnpackedElements : Int) * (s.dtype e).width :=
    toInt32_of_range _ (by omega) hBound
  have e3 : toInt32 (((s.dtype d).arrayUnpackedElements : Int) * (s.dtype e).widthMin) =
      ((s.dtype d).arrayUnpackedElements : Int) * (s.dtype e).widthMin :=
    toInt32_of_range _ (by omega) (by omega)
  have hnn : (unlinkFrBackFrom nodep b s).nodeNext = s.nodeNext := by
    simp only [unlinkFrBackFrom]
    rw [(setBackOfNext_link _ _ _ 0).2.2.2.2]
  refine ⟨?_, hmw, hm1, ?_, ?_, ?_, ?_⟩
  · cases hfind : c.findLogicDType nodep
        (((s.dtype d).arrayUnpackedElements : Int) * (s.dtype e).width)
        (((s.dtype d).arrayUnpackedElements : Int) * (s.dtype e).widthMin)
        VSigning.UNSIGNED (unlinkFrBackFrom nodep b s) with
    | mk dtp sR =>
      have hrun := packIfUnpacked_run c nodep b s d e chg hD hU hSub hBack hWhat _ _
        (by rw [e1, e2]) (by rw [e1, e3]) sR dtp hfind
      have hnew := newAstCvtArrayToPackedState_new (sR.node nodep).fileline nodep dtp sR
      have hrel := relink_fields { m_backp := b, m_chg := chg } sR.nodeNext
        (newAstCvtArrayToPackedState (sR.node nodep).fileline nodep dtp sR)
      have hdt := packIfUnpacked_dtype { m_backp := b, m_chg := chg } (sR.node nodep).fileline
        nodep dtp sR
      refine ⟨dtp, sR, _, rfl, hrun, ?_, ?_, ?_, hdt, ?_, ?_⟩
      · rw [(hrel.1 sR.nodeNext).1]; exact hnew.1
      · rw [(hrel.1 sR.nodeNext).2]; exact hnew.2.2.1
      · rw [hrel.2.2.2]; exact hnew.2.2.2
      · intro hAns
        have h := hAns nodep
          (((s.dtype d).arrayUnpackedElements : Int) * (s.dtype e).width)
          (((s.dtype d).arrayUnpackedElements : Int) * (s.dtype e).widthMin)
          VSigning.UNSIGNED (unlinkFrBackFrom nodep b s)
        rw [hfind] at h
        rw [hdt]
        exact ⟨by rw [h.2.2]; rfl, h.1, h.2.1⟩
      · intro hMark
        have h := hMark nodep
          (((s.dtype d).arrayUnpackedElements : Int) * (s.dtype e).width)
          (((s.dtype d).arrayUnpackedElements : Int) * (s.dtype e).widthMin)
          VSigning.UNSIGNED (unlinkFrBackFrom nodep b s)
        rw [hfind, hnn] at h
        have hne : sR.nodeNext ≠ b := Nat.ne_of_gt (Nat.lt_of_lt_of_le hAlloc h)
        exact ⟨by rw [hrel.2.1 hne]; exact hnew.2.1, hrel.2.2.1 hne⟩
  · simp only [widthUnpacked, hU, if_true, hSub]
    rw [Int.mul_comm, e2]
  · exact fun other t h => packIfUnpacked_other c other t h
  · exact fun parentp side underp stage =>
      requestsOnly64_iterateCheckDelay c parentp side underp stage
  · exact fun other => requestsOnly64_visit_Or_Lu64 c other

/-- Witness of C26 on `packTree` with the registry `Collaborators.creating`,
which writes the descriptor it is asked for into the arena: node 1, in slot 1 of
node 0, is an array of 4 elements of width 8 and minimum width 5; the request is
for width 32 and minimum width 20, the new conversion node 3 over node 1 has the
new descriptor 40, unsigned of width 32 and minimum width 20, which the arena
did not hold before, and slot 1 of node 0 then holds the node 3. -/
theorem packIfUnpacked_widths_witness :
    ∃ sF,
      packIfUnpacked Collaborators.creating 1 packTree =
        .ok ((), sF, [Event.findLogicDType 1 32 20 VSigning.UNSIGNED]) ∧
      (sF.node 3).type = VNType.CvtArrayToPacked ∧ (sF.node 3).dtypep = some 40 ∧
      (sF.dtype 40).isSigned = false ∧ (sF.dtype 40).width = 32 ∧
      (sF.dtype 40).widthMin = 20 ∧ (packTree.dtype 40).width = 0 ∧
      (sF.node 3).op1p = some 1 ∧
      (sF.node 0).op1p = some 3 ∧ widthUnpacked packTree 30 = some 32 := by
  obtain ⟨⟨dtp, sR, sF, h0, h1, h2, h3, -, -, h6, h7⟩, -, -, h8, -, -, -⟩ :=
    packIfUnpacked_widths Collaborators.creating 1 0 packTree 30 31 RelinkWhatEn.RELINK_OP1
      rfl rfl rfl rfl rfl (by decide) (by decide) (by decide) (by decide) (by decide)
  have hd : dtp = 40 := (congrArg Prod.fst h0).symm
  have hs : sR.nodeNext = 3 := (congrArg (fun x => x.2.nodeNext) h0).symm
  have h6 := h6 (fun n w m sg st => ⟨by simp [Collaborators.creating],
    by simp [Collaborators.creating], by simp [Collaborators.creating]⟩)
  have h7 := h7 (fun n w m sg st => Nat.le_refl _)
  rw [hd] at h3 h6
  rw [hs] at h2 h3 h7
  exact ⟨sF, h1, h2, h3, h6.1, h6.2.1, h6.2.2, rfl, h7.1, h7.2, h8⟩

/-- C26, as stated, fails: in `bigPackTree` node 1 is an array of 2^28 elements of
width 8 and minimum width 4; the product 2^31 does not fit the type `int`, the
request of `packIfUnpacked` is for the width -2147483648 with the minimum width
1073741824, and `widthUnpacked` is -2147483648. -/
theorem packIfUnpacked_overflow :
    (bigPackTree.node 1).dtypep = some 30 ∧
    (bigPackTree.dtype 30).isUnpackArrayDType = true ∧
    (bigPackTree.dtype 30).arrayUnpackedElements = 268435456 ∧
    (bigPackTree.dtype 30).subDTypep = some 31 ∧
    (bigPackTree.dtype 31).width = 8 ∧ (bigPackTree.dtype 31).widthMin = 4 ∧
    (∃ sF, packIfUnpacked Collaborators.inert 1 bigPackTree =
      .ok ((), sF, [Event.findLogicDType 1 (-2147483648) 1073741824 VSigning.UNSIGNED])) ∧
    widthUnpacked bigPackTree 30 = some (-2147483648) ∧
    ¬ ((268435456 : Int) * 8 = -2147483648) ∧ ¬ ((1073741824 : Int) ≤ -2147483648) :=
  ⟨rfl, rfl, rfl, rfl, rfl, rfl,
    ⟨_, packIfUnpacked_run Collaborators.inert 1 0 bigPackTree 30 31 RelinkWhatEn.RELINK_OP1
      rfl rfl rfl rfl rfl (-2147483648) 1073741824 (by decide) (by decide)
      (unlinkFrBackFrom 1 0 bigPackTree) 8 rfl⟩,
    by decide, by decide, by decide⟩

end Widths

/-! ### C28: the names of the clones -/

section CloneNames

theorem digitChar_value (k : Nat) (h : k < 10) : (Nat.digitChar k).toNat - 48 = k := by
  interval_cases k <;> rfl

theorem toDigitsCore_append (fuel : Nat) :
    ∀ (n : Nat) (ds : List Char),
      Nat.toDigitsCore 10 fuel n ds = Nat.toDigitsCore 10 fuel n [] ++ ds := by
  induction fuel with
  | zero => intro n ds; simp [Nat.toDigitsCore]
  | succ f ih =>
    intro n ds
    simp only [Nat.toDigitsCore]
    split
    · simp
    · rw [ih (n / 10) (Nat.digitChar (n % 10) :: ds), ih (n / 10) [Nat.digitChar (n % 10)]]
      simp

theorem digitsValue_append (xs : List Char) (ch : Char) :
    digitsValue (xs ++ [ch]) = digitsValue xs * 10 + (ch.toNat - 48) := by
  simp [digitsValue, List.foldl_append]

theorem digitsValue_toDigitsCore (fuel : Nat) :
    ∀ n : Nat, n < fuel → digitsValue (Nat.toDigitsCore 10 fuel n []) = n := by
  induction fuel with
  | zero => intro n h; omega
  | succ f ih =>
    intro n h
    simp only [Nat.toDigitsCore]
    split
    · rename_i h0
      have hn : n % 10 = n := by omega
      have hd := digitChar_value (n % 10) (Nat.mod_lt _ (by decide))
      rw [hn] at hd
      simp [digitsValue, hn, hd]
    · rename_i h0
      rw [toDigitsCore_append, digitsValue_append, ih (n / 10) (by omega),
        digitChar_value (n % 10) (Nat.mod_lt _ (by decide))]
      omega

/-- The decimal rendering of a count determines the count. -/
theorem cvtToStr_injective (a b : Nat) (h : cvtToStr a = cvtToStr b) : a = b := by
  have ha : digitsValue (cvtToStr a).data = a :=
    digitsValue_toDigitsCore (a + 1) a (Nat.lt_succ_self a)
  have hb : digitsValue (cvtToStr b).data = b :=
    digitsValue_toDigitsCore (b + 1) b (Nat.lt_succ_self b)
  rw [← ha, ← hb, h]

theorem string_append_ne_self (a b : String) (h : b ≠ "") : a ++ b ≠ a := by
  intro e
  have hl := congrArg String.length e
  rw [String.length_append] at hl
  have hb : b.length = 0 := by omega
  exact h (String.ext (List.length_eq_zero.mp hb))

theorem string_append_cancel (a b c : String) (h : a ++ b = a ++ c) : b = c := by
  have hd := congrArg String.data h
  rw [String.data_append, String.data_append] at hd
  exact String.ext (List.append_cancel_left hd)

/-- Names and parent count after one successful run. -/
theorem makeOpenArrayShell_names (c : Collaborators) (fuel : Nat)
    (nodep oldTaskp : NodeId) (s sF : WidthVisitor) (evs : List Event)
    (hTask : (s.node nodep).taskp = some oldTaskp)
    (hRun : makeOpenArrayShell c fuel nodep s = .ok (sF, evs))
    (hFrame : ∀ call stmtsp st, (c.taskConnects call stmtsp st).2 = st)
    (hOld : oldTaskp < s.nodeNext) (hCall : nodep < s.nodeNext) :
    s.nodeNext < sF.nodeNext ∧
    (sF.node oldTaskp).dpiOpenParent = (s.node oldTaskp).dpiOpenParent + 1 ∧
    (sF.node s.nodeNext).name =
      (s.node oldTaskp).name ++ "__Vdpioc" ++ cvtToStr ((s.node oldTaskp).dpiOpenParent + 1) ∧
    (∀ m, m < s.nodeNext → m ≠ nodep → (sF.node m).name = (s.node m).name) := by
  obtain ⟨-, hLoop⟩ := makeOpenArrayShell_ok c fuel nodep oldTaskp s sF evs hTask hRun hFrame
  have hF := openArrayPorts_fields _ _ _ _ hLoop
  have hN := (openArrayPorts_frame _ _ _ _ hLoop).2.1
  have hC := openArrayClone_fields nodep oldTaskp (dpiOpenParentInc oldTaskp s)
  have hcall := openArrayClone_call nodep oldTaskp (dpiOpenParentInc oldTaskp s)
  have e : (dpiOpenParentInc oldTaskp s).nodeNext = s.nodeNext := rfl
  have hOld1 : oldTaskp < (dpiOpenParentInc oldTaskp s).nodeNext := hOld
  have hne : oldTaskp ≠ s.nodeNext := Nat.ne_of_lt hOld
  rw [e] at hC hcall
  refine ⟨?_, ?_, ?_, ?_⟩
  · rw [hN, (openArrayClone_frame _ _ _).2.2, e]
    exact Nat.lt_of_lt_of_le (Nat.lt_succ_self _) (Nat.le_add_right _ _)
  · rw [(hF oldTaskp).2.1, (hC oldTaskp).2.1]
    simp only [hne, if_false]
    rw [cloneTree_old _ _ _ hOld1, (dpiOpenParentInc_fields _ _ _).2.2.2.2.2.2.2]
    simp
  · rw [(hF s.nodeNext).2.2.2.1, hcall.2.2.2 (Nat.ne_of_lt hCall) hOld,
      (dpiOpenParentInc_fields _ _ _).2.2.2.1, (dpiOpenParentInc_fields _ _ _).2.2.2.2.2.2.2]
    simp
  · intro m hm hmn
    rw [(hF m).2.2.2.1, hcall.2.2.1 m hmn (Nat.ne_of_lt hm),
      cloneTree_old oldTaskp (dpiOpenParentInc oldTaskp s) m hm,
      (dpiOpenParentInc_fields _ _ _).2.2.2.1]

/-- What successive runs keep: the declaration stays allocated under its name,
its parent count is the number of clones, and the clone of run `j + 1` is an
allocated node, not the declaration, named with the suffix of `j + 1`. -/
theorem openArrayRuns_names (c : Collaborators) (fuel : Nat) (oldTaskp : NodeId)
    (hFrame : ∀ call stmtsp st, (c.taskConnects call stmtsp st).2 = st)
    (s0 sF : WidthVisitor) (clones : List NodeId)
    (hRuns : OpenArrayRuns c fuel oldTaskp s0 clones sF)
    (hOld : oldTaskp < s0.nodeNext) :
    oldTaskp < sF.nodeNext ∧
    (sF.node oldTaskp).dpiOpenParent = (s0.node oldTaskp).dpiOpenParent + clones.length ∧
    (sF.node oldTaskp).name = (s0.node oldTaskp).name ∧
    ∀ (j : Nat) (clone : NodeId), clones[j]? = some clone →
      clone < sF.nodeNext ∧ clone ≠ oldTaskp ∧
      (sF.node clone).name =
        (s0.node oldTaskp).name ++ "__Vdpioc" ++
          cvtToStr ((s0.node oldTaskp).dpiOpenParent + (j + 1)) := by
  induction hRuns with
  | nil => exact ⟨hOld, by simp, rfl, fun j clone h => by simp at h⟩
  | snoc s s2 clones nodep evs _ hTask hCall hNe hNot hRun ih =>
    obtain ⟨i1, i2, i3, i4⟩ := ih
    obtain ⟨n1, n2, n3, n4⟩ :=
      makeOpenArrayShell_names c fuel nodep oldTaskp s s2 evs hTask hRun hFrame i1 hCall
    refine ⟨Nat.lt_trans i1 n1, ?_, ?_, ?_⟩
    · rw [n2, i2, List.length_append]; simp [Nat.add_assoc]
    · rw [n4 oldTaskp i1 (fun e => hNe e.symm), i3]
    · intro j clone hj
      by_cases hlt : j < clones.length
      · rw [List.getElem?_append_left hlt] at hj
        obtain ⟨a1, a2, a3⟩ := i4 j clone hj
        have hcn : clone ≠ nodep := fun e => hNot (e ▸ List.getElem?_mem hj)
        exact ⟨Nat.lt_trans a1 n1, a2, by rw [n4 clone a1 hcn, a3]⟩
      · have hge : clones.length ≤ j := Nat.le_of_not_lt hlt
        rw [List.getElem?_append_right hge] at hj
        have hj0 : j - clones.length = 0 := by
          by_contra hne
          have : 1 ≤ j - clones.length := Nat.one_le_iff_ne_zero.mpr hne
          rw [List.getElem?_eq_none (by simpa using this)] at hj
          cases hj
        rw [hj0] at hj
        have hc : clone = s.nodeNext := by simpa using hj.symm
        have hjl : j = clones.length := by omega
        subst hc
        refine ⟨n1, Nat.ne_of_gt i1, ?_⟩
        rw [n3, i3, i2, hjl, Nat.add_assoc]

/-- C28: the clone a successful `makeOpenArrayShell` makes for an allocated call
of an allocated declaration is named with the original's name, `__Vdpioc` and the
decimal rendering of the original's parent count after its increment; after
successive successful runs for calls of one declaration that starts with the
parent count zero, the clone of run `j + 1` is named with the suffix
`__Vdpioc` followed by `j + 1`, the names of two different clones differ, every
clone's name differs from the original's, and the original keeps its name. -/
theorem openArrayRuns_clone_names (c : Collaborators) (fuel : Nat) (oldTaskp : NodeId)
    (hFrame : ∀ call stmtsp st, (c.taskConnects call stmtsp st).2 = st)
    (s0 sF : WidthVisitor) (clones : List NodeId)
    (hRuns : OpenArrayRuns c fuel oldTaskp s0 clones sF)
    (hOld : oldTaskp < s0.nodeNext)
    (hZero : (s0.node oldTaskp).dpiOpenParent = 0) :
    (∀ (nodep : NodeId) (s s1 : WidthVisitor) (evs : List Event),
      (s.node nodep).taskp = some oldTaskp → nodep < s.nodeNext → oldTaskp < s.nodeNext →
      makeOpenArrayShell c fuel nodep s = .ok (s1, evs) →
      (s1.node oldTaskp).dpiOpenParent = (s.node oldTaskp).dpiOpenParent + 1 ∧
      (s1.node s.nodeNext).name =
        (s.node oldTaskp).name ++ "__Vdpioc" ++ cvtToStr (s1.node oldTaskp).dpiOpenParent) ∧
    (sF.node oldTaskp).dpiOpenParent = clones.length ∧
    (sF.node oldTaskp).name = (s0.node oldTaskp).name ∧
    (∀ (j : Nat) (clone : NodeId), clones[j]? = some clone →
      (sF.node clone).name = (s0.node oldTaskp).name ++ "__Vdpioc" ++ cvtToStr (j + 1)) ∧
    (∀ (i j : Nat) (ci cj : NodeId), clones[i]? = some ci → clones[j]? = some cj → i ≠ j →
      (sF.node ci).name ≠ (sF.node cj).name) ∧
    (∀ (j : Nat) (clone : NodeId), clones[j]? = some clone →
      (sF.node clone).name ≠ (sF.node oldTaskp).name) := by
  obtain ⟨-, i2, i3, i4⟩ := openArrayRuns_names c fuel oldTaskp hFrame s0 sF clones hRuns hOld
  have hname : ∀ (j : Nat) (clone : NodeId), clones[j]? = some clone →
      (sF.node clone).name = (s0.node oldTaskp).name ++ "__Vdpioc" ++ cvtToStr (j + 1) := by
    intro j clone hj
    have := (i4 j clone hj).2.2
    rwa [hZero, Nat.zero_add] at this
  refine ⟨?_, by rw [i2, hZero, Nat.zero_add], i3, hname, ?_, ?_⟩
  · intro nodep s s1 evs hTask hCall hOld1 hRun
    obtain ⟨-, n2, n3, -⟩ :=
      makeOpenArrayShell_names c fuel nodep oldTaskp s s1 evs hTask hRun hFrame hOld1 hCall
    exact ⟨n2, by rw [n3, n2]⟩
  · intro i j ci cj hi hj hij heq
    rw [hname i ci hi, hname j cj hj] at heq
    have h1 := string_append_cancel _ _ _ heq
    have h2 := cvtToStr_injective _ _ h1
    omega
  · intro j clone hj heq
    rw [hname j clone hj, i3, String.append_assoc] at heq
    refine string_append_ne_self _ _ ?_ heq
    intro hempty
    have hl := congrArg String.length hempty
    rw [String.length_append] at hl
    have h8 : "__Vdpioc".length = 8 := by decide
    rw [h8] at hl
    simp at hl

/-- Witness of C28 on `twoCallsTree`: the shells for the calls 5 and 10 of the
function `f` make the clones 11 and 14, named `f__Vdpioc1` and `f__Vdpioc2`;
the function is still named `f` and has the parent count 2. -/
theorem openArrayRuns_clone_names_witness :
    makeOpenArrayShell Collaborators.inert 5 5 twoCallsTree =
      .ok (twoCallsAfterFirst, [Event.taskConnects 5 [12, 13]]) ∧
    makeOpenArrayShell Collaborators.inert 5 10 twoCallsAfterFirst =
      .ok (twoCallsAfterSecond, [Event.taskConnects 10 [15, 16]]) ∧
    (twoCallsAfterSecond.node 11).name = "f__Vdpioc1" ∧
    (twoCallsAfterSecond.node 14).name = "f__Vdpioc2" ∧
    (twoCallsAfterSecond.node 11).name ≠ (twoCallsAfterSecond.node 14).name ∧
    (twoCallsAfterSecond.node 1).name = "f" ∧
    (twoCallsAfterSecond.node 1).dpiOpenParent = 2 := by
  have hRuns : OpenArrayRuns Collaborators.inert 5 1 twoCallsTree
      (([] ++ [twoCallsTree.nodeNext]) ++ [twoCallsAfterFirst.nodeNext]) twoCallsAfterSecond :=
    OpenArrayRuns.snoc twoCallsTree twoCallsAfterFirst twoCallsAfterSecond _ 10
      [Event.taskConnects 10 [15, 16]]
      (OpenArrayRuns.snoc twoCallsTree twoCallsTree twoCallsAfterFirst [] 5
        [Event.taskConnects 5 [12, 13]] (OpenArrayRuns.nil twoCallsTree)
        rfl (by decide) (by decide) (by simp) rfl)
      rfl (by decide) (by decide) (by decide) rfl
  obtain ⟨-, h2, h3, h4, h5, -⟩ :=
    openArrayRuns_clone_names Collaborators.inert 5 1 (fun _ _ _ => rfl)
      twoCallsTree twoCallsAfterSecond _ hRuns (by decide) rfl
  have n1 := h4 0 11 (by decide)
  have n2 := h4 1 14 (by decide)
  exact ⟨rfl, rfl, n1.trans (by decide), n2.trans (by decide),
    h5 0 1 11 14 (by decide) (by decide) (by decide), h3, h2⟩

end CloneNames

/-! ### C14: a child is never made a parent -/

end V3Width
